import Mathlib

/-!
# DuckDB parquet extension: scan scheduling, statistics, bind and write pipeline

A shallow embedding of `extension/parquet/parquet-extension.cpp`.

* Values of type `idx_t` and `column_t` (unsigned 64 bit) are natural numbers.  The
  increments of the embedded functions act on indexes that are smaller than a vector
  size or a row-group count, so none of them wraps.
* A C++ function that mutates objects passed by reference returns the new objects.
* A C++ function that throws returns `Except.error` with the exception.
* Collaborators whose code is not part of the extension file (the file system, the
  parquet reader, the object cache, the statistics reader) are fields of `ClientContext`.
-/

namespace duckdb

/-! ## Common types -/

/-- The exception classes thrown by the embedded functions; `INVALID` is the class of the
base `Exception`. -/
inductive ExceptionType where
  | IO_EXCEPTION
  | NOT_IMPLEMENTED
  | PARSER
  | INVALID_INPUT
  | FORMAT
  | INTERNAL
  | CATALOG
  | INVALID
  deriving DecidableEq, Repr, Inhabited

/-- An exception: its class and its formatted message. -/
structure Exception where
  type : ExceptionType
  message : String
  deriving DecidableEq, Repr, Inhabited

deriving instance DecidableEq for Except

/-- Logical column types (the ones the examples need). -/
inductive LogicalType where
  | INVALID
  | BOOLEAN
  | INTEGER
  | BIGINT
  | DOUBLE
  | VARCHAR
  deriving DecidableEq, Repr, Inhabited

/-- A SQL value. -/
inductive Value where
  | null
  | bigint (v : Int)
  | varchar (s : String)
  deriving DecidableEq, Repr, Inhabited

/-- Modelled from the spec: `Value::ToString`, whose code is not in the extension file; a
string value renders as its text. -/
def Value.ToString : Value → String
  | .null => "NULL"
  | .bigint v => toString v
  | .varchar s => s

/-- Modelled from the spec: `StringUtil::Lower`, whose code is not in the extension file;
it lower-cases every character. -/
def StringUtil.Lower (s : String) : String := String.mk (s.data.map Char.toLower)

/-- A row of a batch. -/
abbrev Row := List Value

/-- A `DataChunk`: one batch of rows. -/
structure DataChunk where
  data : List Row
  deriving DecidableEq, Repr, Inhabited

/-- The number of rows of a batch (`DataChunk::size`). -/
def DataChunk.size (chunk : DataChunk) : Nat := chunk.data.length

/-! ## Write pipeline -/

/-- Modelled from the spec: `ChunkCollection`, "an accumulating row batch collection";
its code is not in the extension file.  It holds the appended rows in order. -/
structure ChunkCollection where
  rows : List Row
  deriving DecidableEq, Repr, Inhabited

/-- The collection `make_unique<ChunkCollection>()` creates. -/
def ChunkCollection.empty : ChunkCollection := { rows := [] }

/-- Modelled from the spec: `ChunkCollection::Append` ("append to the thread's buffer"). -/
def ChunkCollection.Append (c : ChunkCollection) (input : DataChunk) : ChunkCollection :=
  { rows := c.rows ++ input.data }

/-- Modelled from the spec: `ChunkCollection::Count`, the "accumulated row count". -/
def ChunkCollection.Count (c : ChunkCollection) : Nat := c.rows.length

/-- The codecs of `parquet::format::CompressionCodec` the writer binds. -/
inductive CompressionCodec where
  | UNCOMPRESSED
  | SNAPPY
  | GZIP
  | ZSTD
  deriving DecidableEq, Repr, Inhabited

/-- The global encoder, seen through the calls it receives: the collections handed to
`Flush` in call order, and whether `Finalize` was called; and the arguments of its
constructor (output path, column types and names, codec). -/
structure ParquetWriter where
  flushed : List ChunkCollection
  finalized : Bool
  file_name : String := ""
  sql_types : List LogicalType := []
  column_names : List String := []
  codec : CompressionCodec := CompressionCodec.SNAPPY
  deriving DecidableEq, Repr, Inhabited

/-- Modelled from the spec: `ParquetWriter::Flush` ("flush the buffer's contents to the
global encoder"); its code is not in the extension file.  The writer receives the
collection; the collection itself is left as it is (the caller replaces it). -/
def ParquetWriter.Flush (writer : ParquetWriter) (buffer : ChunkCollection) : ParquetWriter :=
  { writer with flushed := writer.flushed ++ [buffer] }

/-- Modelled from the spec: `ParquetWriter::Finalize` ("write trailing/footer metadata and
close the file"). -/
def ParquetWriter.Finalize (writer : ParquetWriter) : ParquetWriter :=
  { writer with finalized := true }

/-- `ParquetWriteGlobalState`. -/
structure ParquetWriteGlobalState where
  writer : ParquetWriter
  deriving DecidableEq, Repr, Inhabited

/-- `ParquetWriteLocalState`. -/
structure ParquetWriteLocalState where
  buffer : ChunkCollection
  deriving DecidableEq, Repr, Inhabited

/-- `parquet_write_initialize_local`: the constructor of the local state makes an empty
collection. -/
def parquet_write_initialize_local : ParquetWriteLocalState :=
  { buffer := ChunkCollection.empty }

/-- `parquet_write_sink`: append the batch, flush and reset above 100000 rows. -/
def parquet_write_sink (gstate : ParquetWriteGlobalState) (lstate : ParquetWriteLocalState)
    (input : DataChunk) : ParquetWriteGlobalState × ParquetWriteLocalState :=
  let buffer := lstate.buffer.Append input
  if buffer.Count > 100000 then
    ({ writer := gstate.writer.Flush buffer }, { buffer := ChunkCollection.empty })
  else
    (gstate, { buffer := buffer })

/-- `parquet_write_combine`: flush what is left in the local state. -/
def parquet_write_combine (gstate : ParquetWriteGlobalState) (lstate : ParquetWriteLocalState) :
    ParquetWriteGlobalState × ParquetWriteLocalState :=
  ({ writer := gstate.writer.Flush lstate.buffer }, lstate)

/-- `parquet_write_finalize`. -/
def parquet_write_finalize (gstate : ParquetWriteGlobalState) : ParquetWriteGlobalState :=
  { writer := gstate.writer.Finalize }

/-- The Sink calls of one thread, in order, on the batches it receives. -/
def sink_all (gstate : ParquetWriteGlobalState) (lstate : ParquetWriteLocalState) :
    List DataChunk → ParquetWriteGlobalState × ParquetWriteLocalState
  | [] => (gstate, lstate)
  | input :: rest =>
    sink_all (parquet_write_sink gstate lstate input).1 (parquet_write_sink gstate lstate input).2 rest

/-- One thread of the write pipeline: its local state is created, every batch is passed
to Sink, then Combine runs once. -/
def write_thread (gstate : ParquetWriteGlobalState) (batches : List DataChunk) :
    ParquetWriteGlobalState × ParquetWriteLocalState :=
  parquet_write_combine (sink_all gstate parquet_write_initialize_local batches).1
    (sink_all gstate parquet_write_initialize_local batches).2

/-- All rows of a list of collections, in order. -/
def all_rows (cs : List ChunkCollection) : List Row := (cs.map (fun c => c.rows)).flatten

/-- All rows of a list of batches, in order. -/
def batch_rows (batches : List DataChunk) : List Row := (batches.map (fun b => b.data)).flatten

/-! ## Read side: data model -/

/-- Column statistics as the optimizer sees them. -/
structure BaseStatistics where
  min : Int
  max : Int
  has_null : Bool
  deriving DecidableEq, Repr, Inhabited

/-- The parsed footer of a file, as far as the statistics reader uses it: the statistics
of each column, when the footer has them. -/
structure FileMetaData where
  column_stats : List (Option BaseStatistics)
  deriving DecidableEq, Repr, Inhabited

/-- A `ParquetReader`: one opened file with its schema, parsed footer, row-group count
and total row count. -/
structure ParquetReader where
  file_name : String
  return_types : List LogicalType
  names : List String
  metadata : FileMetaData
  num_row_groups : Nat
  num_rows : Nat
  deriving DecidableEq, Repr, Inhabited

/-- `ParquetReader::NumRowGroups`. -/
def ParquetReader.NumRowGroups (reader : ParquetReader) : Nat := reader.num_row_groups

/-- `ParquetReader::NumRows`. -/
def ParquetReader.NumRows (reader : ParquetReader) : Nat := reader.num_rows

/-- A `TableFilterSet`: the pushed-down filters, by column. -/
structure TableFilterSet where
  filters : List (Nat × String)
  deriving DecidableEq, Repr, Inhabited

/-- `ParquetReaderScanState`: the assignment a cursor works on (row groups, columns,
filters) and the decode position within it. -/
structure ParquetReaderScanState where
  group_idx_list : List Nat
  column_ids : List Nat
  table_filters : Option TableFilterSet
  position : Nat
  deriving DecidableEq, Repr, Inhabited

/-- Modelled from the spec: `ParquetReader::Initialize`, whose code is not in the extension
file.  It records the assignment (the row groups to read, the "assigned column ids" and the
"active predicate filters") in the scan state and puts the "decode/scan position" at the
start. -/
def InitializeScan (_reader : ParquetReader) (column_ids : List Nat) (groups_to_read : List Nat)
    (table_filters : Option TableFilterSet) : ParquetReaderScanState :=
  { group_idx_list := groups_to_read, column_ids := column_ids, table_filters := table_filters,
    position := 0 }

/-- `ParquetFileMetadataCache`: an entry of the object cache. -/
structure ParquetFileMetadataCache where
  metadata : FileMetaData
  read_time : Int
  deriving DecidableEq, Repr, Inhabited

/-- A `FileHandle`: a file opened for reading, by its path. -/
structure FileHandle where
  path : String
  deriving DecidableEq, Repr, Inhabited

/-- The collaborators the extension reaches through the client context; their code is not
in the extension file, so they are parameters.

* `Glob`: `FileSystem::Glob`.
* `OpenReader file expected_types initial_filename`: the `ParquetReader` constructor; the
  constructor calls that pass no expected types or no initial file name pass `[]` and `""`.
  It throws on a file it cannot read.
* `Scan reader scan_state`: `ParquetReader::Scan`, giving the new scan state and the
  output batch.
* `object_cache_enable`: the configuration flag of `DBConfig`.
* `ObjectCacheGet`: `ObjectCache::Get` followed by the cast to `ParquetFileMetadataCache`.
* `OpenFile file`: `FileSystem::OpenFile` with `FILE_FLAGS_READ`; it throws on a file it
  cannot open.
* `GetLastModifiedTime handle`: `FileSystem::GetLastModifiedTime` on an open handle; it may
  throw.
* `ReadStatistics`: `ParquetReader::ReadStatistics`.
* `Merge`: `BaseStatistics::Merge`. -/
structure ClientContext where
  Glob : String → List String
  OpenReader : String → List LogicalType → String → Except Exception ParquetReader
  Scan : ParquetReader → ParquetReaderScanState → ParquetReaderScanState × DataChunk
  object_cache_enable : Bool
  ObjectCacheGet : String → Option ParquetFileMetadataCache
  OpenFile : String → Except Exception FileHandle
  GetLastModifiedTime : FileHandle → Except Exception Int
  ReadStatistics : LogicalType → Nat → FileMetaData → Option BaseStatistics
  Merge : BaseStatistics → BaseStatistics → BaseStatistics

/-- `ParquetReadBindData`. -/
structure ParquetReadBindData where
  initial_reader : ParquetReader
  files : List String
  column_ids : List Nat
  deriving DecidableEq, Repr, Inhabited

/-- `ParquetReadOperatorData`: the cursor of one thread. -/
structure ParquetReadOperatorData where
  reader : ParquetReader
  scan_state : ParquetReaderScanState
  is_parallel : Bool
  file_index : Nat
  column_ids : List Nat
  table_filters : Option TableFilterSet
  deriving DecidableEq, Repr, Inhabited

/-- `ParquetReadParallelState`: the shared scheduler state.  The calls of the embedding
run one after the other, which is what the mutex of the C++ struct enforces. -/
structure ParquetReadParallelState where
  current_reader : ParquetReader
  file_index : Nat
  row_group_index : Nat
  deriving DecidableEq, Repr, Inhabited

/-- `CopyInfo`, as far as the binds read it: the path and the options in the order the
loop over `info.options` visits them. -/
structure CopyInfo where
  file_path : String
  options : List (String × List Value)
  deriving DecidableEq, Repr, Inhabited

/-- The exception a loop of the embedding returns when its iteration bound is used up;
the bounds are chosen so that this does not happen. -/
def loop_bound_exceeded : Exception :=
  { type := ExceptionType.INTERNAL, message := "loop bound exceeded" }

/-! ## Read side: bind -/

/-- `ParquetScanFunction::parquet_read_bind`; returns the bind data. -/
def parquet_read_bind (context : ClientContext) (info : CopyInfo)
    (_expected_names : List String) (expected_types : List LogicalType) :
    Except Exception ParquetReadBindData :=
  match info.options with
  | option :: _ =>
    .error { type := ExceptionType.NOT_IMPLEMENTED,
             message := "Unsupported option for COPY FROM parquet: " ++ option.1 }
  | [] =>
    let files := context.Glob info.file_path
    if files.isEmpty then
      .error { type := ExceptionType.IO_EXCEPTION,
               message := "No files found that match the pattern \"" ++ info.file_path ++ "\"" }
    else
      match context.OpenReader (files.getD 0 "") expected_types "" with
      | .error e => .error e
      | .ok reader => .ok { initial_reader := reader, files := files, column_ids := [] }

/-- `ParquetScanFunction::parquet_scan_bind`; returns the bind data and the values written
to `return_types` and `names`. -/
def parquet_scan_bind (context : ClientContext) (inputs : List Value) :
    Except Exception (ParquetReadBindData × List LogicalType × List String) :=
  let file_name := (inputs.getD 0 Value.null).ToString
  let files := context.Glob file_name
  if files.isEmpty then
    .error { type := ExceptionType.IO_EXCEPTION,
             message := "No files found that match the pattern \"" ++ file_name ++ "\"" }
  else
    match context.OpenReader (files.getD 0 "") [] "" with
    | .error e => .error e
    | .ok reader =>
      .ok ({ initial_reader := reader, files := files, column_ids := [] },
           reader.return_types, reader.names)

/-! ## Read side: statistics -/

/-- The row-id pseudo column `COLUMN_IDENTIFIER_ROW_ID`; it is declared outside the
extension file, as `(column_t)-1`. -/
def COLUMN_IDENTIFIER_ROW_ID : Nat := 2 ^ 64 - 1

/-- The loop of `parquet_scan_stats` over the files with index 1 and up, given as the list
of the file names it still has to visit.  Each iteration looks up the cache entry, opens
the file, and only then tests the entry; the modification time is read only when there is
an entry (the right operand of `||`). -/
def parquet_scan_stats_loop (context : ClientContext) (bind_data : ParquetReadBindData)
    (column_index : Nat) :
    List String → BaseStatistics → Except Exception (Option BaseStatistics)
  | [], overall_stats => .ok (some overall_stats)
  | file_name :: rest, overall_stats =>
    let metadata := context.ObjectCacheGet file_name
    match context.OpenFile file_name with
    | .error e => .error e
    | .ok handle =>
      match metadata with
      | none => .ok none
      | some metadata =>
        match context.GetLastModifiedTime handle with
        | .error e => .error e
        | .ok time =>
          if time ≥ metadata.read_time then
            .ok none
          else
            match context.ReadStatistics
                (bind_data.initial_reader.return_types.getD column_index LogicalType.INVALID)
                column_index metadata.metadata with
            | none => .ok none
            | some file_stats =>
              parquet_scan_stats_loop context bind_data column_index rest
                (context.Merge overall_stats file_stats)

/-- `ParquetScanFunction::parquet_scan_stats`; `.ok none` is the null pointer, `.error` an
exception of the file system.  Reading `return_types[column_index]` outside the vector is
undefined in C++; the embedding reads `INVALID` there. -/
def parquet_scan_stats (context : ClientContext) (bind_data : ParquetReadBindData)
    (column_index : Nat) : Except Exception (Option BaseStatistics) :=
  if column_index = COLUMN_IDENTIFIER_ROW_ID then
    .ok none
  else
    match context.ReadStatistics
        (bind_data.initial_reader.return_types.getD column_index LogicalType.INVALID)
        column_index bind_data.initial_reader.metadata with
    | none => .ok none
    | some overall_stats =>
      if bind_data.files.length < 2 then
        .ok (some overall_stats)
      else if context.object_cache_enable then
        parquet_scan_stats_loop context bind_data column_index (bind_data.files.drop 1)
          overall_stats
      else
        .ok none

/-! ## Read side: scheduler and scan -/

/-- The `while` loop of `parquet_parallel_state_next` over the files after the current
one.  The first argument bounds the number of iterations. -/
def parquet_parallel_state_next_loop (context : ClientContext) (bind_data : ParquetReadBindData) :
    Nat → ParquetReadOperatorData → ParquetReadParallelState →
      Except Exception (Bool × ParquetReadOperatorData × ParquetReadParallelState)
  | 0, _, _ => .error loop_bound_exceeded
  | fuel + 1, scan_data, parallel_state =>
    if parallel_state.file_index + 1 < bind_data.files.length then
      let file := bind_data.files.getD (parallel_state.file_index + 1) ""
      match context.OpenReader file parallel_state.current_reader.return_types "" with
      | .error e => .error e
      | .ok reader =>
        if reader.NumRowGroups = 0 then
          parquet_parallel_state_next_loop context bind_data fuel scan_data
            { parallel_state with
                file_index := parallel_state.file_index + 1, current_reader := reader }
        else
          .ok (true,
            { scan_data with
                reader := reader,
                scan_state := InitializeScan reader scan_data.column_ids [0]
                  scan_data.table_filters },
            { current_reader := reader, file_index := parallel_state.file_index + 1,
              row_group_index := 1 })
    else
      .ok (false, scan_data, parallel_state)

/-- `ParquetScanFunction::parquet_parallel_state_next`; returns the boolean result, the
cursor and the scheduler state.  Every iteration of the loop increases the file index,
which stays below the number of files, so the bound is never used up. -/
def parquet_parallel_state_next (context : ClientContext) (bind_data : ParquetReadBindData)
    (scan_data : ParquetReadOperatorData) (parallel_state : ParquetReadParallelState) :
    Except Exception (Bool × ParquetReadOperatorData × ParquetReadParallelState) :=
  if parallel_state.row_group_index < parallel_state.current_reader.NumRowGroups then
    .ok (true,
      { scan_data with
          reader := parallel_state.current_reader,
          scan_state := InitializeScan parallel_state.current_reader scan_data.column_ids
            [parallel_state.row_group_index] scan_data.table_filters },
      { parallel_state with row_group_index := parallel_state.row_group_index + 1 })
  else
    parquet_parallel_state_next_loop context bind_data (bind_data.files.length + 1)
      scan_data parallel_state

/-- `ParquetScanFunction::parquet_init_parallel_state`. -/
def parquet_init_parallel_state (bind_data : ParquetReadBindData) : ParquetReadParallelState :=
  { current_reader := bind_data.initial_reader, row_group_index := 0, file_index := 0 }

/-- `ParquetScanFunction::parquet_scan_init`. -/
def parquet_scan_init (bind_data : ParquetReadBindData) (column_ids : List Nat)
    (table_filters : Option TableFilterSet) : ParquetReadOperatorData :=
  { column_ids := column_ids, is_parallel := false, file_index := 0,
    table_filters := table_filters, reader := bind_data.initial_reader,
    scan_state := InitializeScan bind_data.initial_reader column_ids
      (List.range bind_data.initial_reader.NumRowGroups) table_filters }

/-- `ParquetScanFunction::parquet_scan_parallel_init`; `none` is the null pointer.  The
fields the C++ code leaves unset hold default values. -/
def parquet_scan_parallel_init (context : ClientContext) (bind_data : ParquetReadBindData)
    (parallel_state : ParquetReadParallelState) (column_ids : List Nat)
    (table_filters : Option TableFilterSet) :
    Except Exception (Option ParquetReadOperatorData × ParquetReadParallelState) :=
  match parquet_parallel_state_next context bind_data
      { reader := default, scan_state := default, is_parallel := true, file_index := 0,
        column_ids := column_ids, table_filters := table_filters } parallel_state with
  | .error e => .error e
  | .ok (false, _, parallel_state) => .ok (none, parallel_state)
  | .ok (true, result, parallel_state) => .ok (some result, parallel_state)

/-- The `do ... while (true)` loop of `parquet_scan_function`.  The first argument bounds
the number of iterations. -/
def parquet_scan_function_loop (context : ClientContext) (bind_data : ParquetReadBindData) :
    Nat → ParquetReadOperatorData → Except Exception (ParquetReadOperatorData × DataChunk)
  | 0, _ => .error loop_bound_exceeded
  | fuel + 1, data =>
    let scanned := context.Scan data.reader data.scan_state
    if scanned.2.size = 0 ∧ data.is_parallel = false then
      if data.file_index + 1 < bind_data.files.length then
        let file := bind_data.files.getD (data.file_index + 1) ""
        match context.OpenReader file data.reader.return_types (bind_data.files.getD 0 "") with
        | .error e => .error e
        | .ok reader =>
          parquet_scan_function_loop context bind_data fuel
            { data with
                file_index := data.file_index + 1,
                reader := reader,
                scan_state := InitializeScan reader data.column_ids
                  (List.range reader.NumRowGroups) data.table_filters }
      else
        .ok ({ data with scan_state := scanned.1 }, scanned.2)
    else
      .ok ({ data with scan_state := scanned.1 }, scanned.2)

/-- `ParquetScanFunction::parquet_scan_function`; returns the cursor and the output batch.
Every iteration that does not leave the loop increases the file index, which stays below
the number of files, so the bound is never used up. -/
def parquet_scan_function (context : ClientContext) (bind_data : ParquetReadBindData)
    (data : ParquetReadOperatorData) : Except Exception (ParquetReadOperatorData × DataChunk) :=
  parquet_scan_function_loop context bind_data (bind_data.files.length + 1) data

/-- The calls of `parquet_parallel_state_next` on one scheduler state, repeated until the
first call that returns false: the assignments handed out, each as the file index of the
scheduler state, the reader handed to the cursor and the row groups the cursor was
initialised with.  `none` when a call throws or when the given number of calls does not
reach the call that returns false. -/
def parallel_assignments (context : ClientContext) (bind_data : ParquetReadBindData) :
    Nat → ParquetReadOperatorData → ParquetReadParallelState →
      Option (List (Nat × ParquetReader × List Nat))
  | 0, _, _ => none
  | calls + 1, scan_data, parallel_state =>
    match parquet_parallel_state_next context bind_data scan_data parallel_state with
    | .error _ => none
    | .ok (false, _, _) => some []
    | .ok (true, scan_data, parallel_state) =>
      match parallel_assignments context bind_data calls scan_data parallel_state with
      | none => none
      | some rest =>
        some ((parallel_state.file_index, scan_data.reader,
          scan_data.scan_state.group_idx_list) :: rest)

/-! ## Write side: bind -/

/-- `ParquetWriteBindData`. -/
structure ParquetWriteBindData where
  sql_types : List LogicalType
  file_name : String
  column_names : List String
  codec : CompressionCodec
  deriving DecidableEq, Repr, Inhabited

/-- The `ParserException` of `parquet_write_bind` for the lower-cased option name. -/
def codec_exception (loption : String) : Exception :=
  { type := ExceptionType.PARSER,
    message := "Expected " ++ loption
      ++ " argument to be either [uncompressed, snappy, gzip or zstd]" }

/-- The loop of `parquet_write_bind` over `info.options`, in iteration order. -/
def parquet_write_bind_loop :
    List (String × List Value) → ParquetWriteBindData → Except Exception ParquetWriteBindData
  | [], bind_data => .ok bind_data
  | option :: rest, bind_data =>
    let loption := StringUtil.Lower option.1
    if loption = "compression" ∨ loption = "codec" then
      if option.2.length > 0 then
        let roption := StringUtil.Lower (option.2.getD 0 Value.null).ToString
        if roption = "uncompressed" then
          parquet_write_bind_loop rest { bind_data with codec := CompressionCodec.UNCOMPRESSED }
        else if roption = "snappy" then
          parquet_write_bind_loop rest { bind_data with codec := CompressionCodec.SNAPPY }
        else if roption = "gzip" then
          parquet_write_bind_loop rest { bind_data with codec := CompressionCodec.GZIP }
        else if roption = "zstd" then
          parquet_write_bind_loop rest { bind_data with codec := CompressionCodec.ZSTD }
        else
          .error (codec_exception loption)
      else
        .error (codec_exception loption)
    else
      .error { type := ExceptionType.NOT_IMPLEMENTED,
               message := "Unrecognized option for PARQUET: " ++ option.1 }

/-- `parquet_write_bind`; the default codec of the bind data is SNAPPY. -/
def parquet_write_bind (info : CopyInfo) (names : List String) (sql_types : List LogicalType) :
    Except Exception ParquetWriteBindData :=
  match parquet_write_bind_loop info.options
      { sql_types := [], file_name := "", column_names := [],
        codec := CompressionCodec.SNAPPY } with
  | .error e => .error e
  | .ok bind_data =>
    .ok { bind_data with
            sql_types := sql_types, column_names := names, file_name := info.file_path }

/-! ## Specification-side definitions and example data -/

/-- The row groups `from_group`, ..., `counts file - 1` of one file, in ascending order. -/
def file_row_groups (counts : Nat → Nat) (file from_group : Nat) : List (Nat × Nat) :=
  (List.range' from_group (counts file - from_group)).map (fun g => (file, g))

/-- Every row group of the files `first_file`, ..., `number_of_files - 1`: file after file,
and within a file in ascending order. -/
def files_row_groups (counts : Nat → Nat) (first_file number_of_files : Nat) : List (Nat × Nat) :=
  (List.range' first_file (number_of_files - first_file)).flatMap
    (fun f => file_row_groups counts f 0)

/-- The strict lexicographic order on (file index, group index). -/
def assignment_lt (a b : Nat × Nat) : Prop := a.1 < b.1 ∨ (a.1 = b.1 ∧ a.2 < b.2)

/-- The hypothesis on the files of a parallel scan, by the calls the scheduler makes:
`readers 0` is the reader of the first file, opened at bind, and every later file `i`,
opened the way the scheduler opens it (with the column types of the reader of file `i - 1`
and no initial file name), gives the reader `readers i`. -/
def files_open_as (context : ClientContext) (bind_data : ParquetReadBindData)
    (readers : Nat → ParquetReader) : Prop :=
  readers 0 = bind_data.initial_reader ∧
  ∀ i, 1 ≤ i → i < bind_data.files.length →
    context.OpenReader (bind_data.files.getD i "") (readers (i - 1)).return_types ""
      = .ok (readers i)

/-- The row-group counts of the files, by file index, read off their readers. -/
def row_group_counts (readers : Nat → ParquetReader) (i : Nat) : Nat :=
  (readers i).NumRowGroups

/-- What the scheduler still has to hand out in a state: the unassigned row groups of the
current file, then every row group of the later files. -/
def remaining_row_groups (counts : Nat → Nat) (number_of_files : Nat)
    (parallel_state : ParquetReadParallelState) : List (Nat × Nat) :=
  file_row_groups counts parallel_state.file_index parallel_state.row_group_index
    ++ files_row_groups counts (parallel_state.file_index + 1) number_of_files

/-- A reader for the examples: a file of one BIGINT column `i` with the given row-group
count, row count and statistics. -/
def example_reader (file_name : String) (num_row_groups num_rows : Nat)
    (stats : Option BaseStatistics) : ParquetReader :=
  { file_name := file_name, return_types := [LogicalType.BIGINT], names := ["i"],
    metadata := { column_stats := [stats] }, num_row_groups := num_row_groups,
    num_rows := num_rows }

/-- The files of the examples: `a.parquet` (two row groups), `b.parquet` (none),
`c.parquet` (three) and `d.parquet` (none). -/
def example_open (file : String) : Except Exception ParquetReader :=
  if file = "a.parquet" then .ok (example_reader file 2 20 (some ⟨1, 20, false⟩))
  else if file = "b.parquet" then .ok (example_reader file 0 0 none)
  else if file = "c.parquet" then .ok (example_reader file 3 30 (some ⟨21, 50, false⟩))
  else if file = "d.parquet" then .ok (example_reader file 0 0 none)
  else .error { type := ExceptionType.IO_EXCEPTION, message := "cannot open " ++ file }

/-- A context for the examples.  The pattern `*.parquet` matches the four example files;
a scan yields the rows of its assignment as one batch (ten rows with the value of the
group index per row group) and then the empty batch; the object cache is enabled and
holds a fresh entry for `c.parquet`; the four files can be opened for reading and were
modified at time 50. -/
def example_context : ClientContext where
  Glob := fun pattern =>
    if pattern = "*.parquet" then ["a.parquet", "b.parquet", "c.parquet", "d.parquet"]
    else if pattern = "a.parquet" then ["a.parquet"]
    else []
  OpenReader := fun file _ _ => example_open file
  Scan := fun _ scan_state =>
    if scan_state.position = 0 then
      ({ scan_state with position := 1 },
        { data := scan_state.group_idx_list.flatMap
            (fun g => List.replicate 10 [Value.bigint (Int.ofNat g)]) })
    else
      (scan_state, { data := [] })
  object_cache_enable := true
  ObjectCacheGet := fun file =>
    if file = "c.parquet" then
      some { metadata := { column_stats := [some ⟨21, 50, false⟩] }, read_time := 100 }
    else none
  OpenFile := fun file =>
    match example_open file with
    | .ok _ => .ok { path := file }
    | .error e => .error e
  GetLastModifiedTime := fun _ => .ok 50
  ReadStatistics := fun _ column_index metadata => metadata.column_stats.getD column_index none
  Merge := fun a b =>
    { min := Min.min a.min b.min, max := Max.max a.max b.max,
      has_null := a.has_null || b.has_null }

/-- The bind data of the scan of `*.parquet` in the example context. -/
def example_bind_data : ParquetReadBindData :=
  { initial_reader := example_reader "a.parquet" 2 20 (some ⟨1, 20, false⟩),
    files := ["a.parquet", "b.parquet", "c.parquet", "d.parquet"], column_ids := [] }

/-- The row-group counts of the example files, by file index. -/
def example_counts (i : Nat) : Nat := [2, 0, 3, 0].getD i 0

/-- The example context with a reader that validates the expected types: a file opens when
no types are expected or when the expected types are the file's own column types, and is
rejected otherwise. -/
def example_context_validating : ClientContext :=
  { example_context with
      OpenReader := fun file types _ =>
        if types = [] ∨ types = [LogicalType.BIGINT] then example_open file
        else .error { type := ExceptionType.IO_EXCEPTION,
                      message := "column types of " ++ file ++ " do not match" } }

/-- The readers of the four example files, by file index. -/
def example_readers (i : Nat) : ParquetReader :=
  [example_reader "a.parquet" 2 20 (some ⟨1, 20, false⟩),
   example_reader "b.parquet" 0 0 none,
   example_reader "c.parquet" 3 30 (some ⟨21, 50, false⟩),
   example_reader "d.parquet" 0 0 none].getD i default

/-- The example context after the files were removed: no file can be opened for reading. -/
def example_context_unreadable : ClientContext :=
  { example_context with
      OpenFile := fun file =>
        .error { type := ExceptionType.IO_EXCEPTION, message := "Cannot open file " ++ file } }

/-- The file's modification time, as the loop of `parquet_scan_stats` reads it: the file
opens for reading and the query on the handle returns the time. -/
def modified_at (context : ClientContext) (file_name : String) (time : Int) : Prop :=
  ∃ handle, context.OpenFile file_name = .ok handle ∧
    context.GetLastModifiedTime handle = .ok time

/-- The cache entry of a file is missing or stale: every entry the object cache holds for
the file has a read time that the file's modification time, as the loop reads it, has
reached. -/
def missing_or_stale (context : ClientContext) (file_name : String) : Prop :=
  ∀ metadata time, context.ObjectCacheGet file_name = some metadata →
    modified_at context file_name time → time ≥ metadata.read_time

/-- The file-system calls the loop of `parquet_scan_stats` makes for a file return
normally: the file opens for reading, and when the file has a cache entry the modification
time of the handle can be read. -/
def file_examined (context : ClientContext) (file_name : String) : Prop :=
  ∃ handle, context.OpenFile file_name = .ok handle ∧
    ((context.ObjectCacheGet file_name).isSome →
      ∃ time, context.GetLastModifiedTime handle = .ok time)

/-- The file gives the loop of `parquet_scan_stats` no statistics for the column: whenever
it has a cache entry and a modification time, the entry is stale or its metadata has no
statistics for the column (extracted with the first file's column type). -/
def without_usable_statistics (context : ClientContext) (bind_data : ParquetReadBindData)
    (column_index : Nat) (file_name : String) : Prop :=
  ∀ metadata time, context.ObjectCacheGet file_name = some metadata →
    modified_at context file_name time →
    (time ≥ metadata.read_time ∨
      context.ReadStatistics
        (bind_data.initial_reader.return_types.getD column_index LogicalType.INVALID)
        column_index metadata.metadata = none)

/-- The bind data of a scan of the two example files `a.parquet` and `c.parquet`. -/
def example_two_files : ParquetReadBindData :=
  { initial_reader := example_reader "a.parquet" 2 20 (some ⟨1, 20, false⟩),
    files := ["a.parquet", "c.parquet"], column_ids := [] }

/-- The bind data of a scan of the two example files `c.parquet` and `a.parquet`. -/
def example_two_files_reversed : ParquetReadBindData :=
  { initial_reader := example_reader "c.parquet" 3 30 (some ⟨21, 50, false⟩),
    files := ["c.parquet", "a.parquet"], column_ids := [] }

/-- The bind data of a scan of the example file `a.parquet` alone. -/
def example_one_file : ParquetReadBindData :=
  { initial_reader := example_reader "a.parquet" 2 20 (some ⟨1, 20, false⟩),
    files := ["a.parquet"], column_ids := [] }

/-- The message of the bind error for a pattern without a matching file. -/
def no_files_message (pattern : String) : String :=
  "No files found that match the pattern \"" ++ pattern ++ "\""

/-- The text `part` occurs in the text `message`. -/
def occurs_in (part message : String) : Prop := part.data <:+: message.data

/-- The option name is, after lower-casing, `compression` or `codec`. -/
def is_codec_key (key : String) : Prop :=
  StringUtil.Lower key = "compression" ∨ StringUtil.Lower key = "codec"

instance (key : String) : Decidable (is_codec_key key) := by
  unfold is_codec_key
  infer_instance

/-- The codec an option value stands for: the first value, rendered and lower-cased, is
one of the four tokens; `none` for any other value and for an option without a value. -/
def recognized_codec (values : List Value) : Option CompressionCodec :=
  match values with
  | [] => none
  | value :: _ =>
    if StringUtil.Lower value.ToString = "uncompressed" then some CompressionCodec.UNCOMPRESSED
    else if StringUtil.Lower value.ToString = "snappy" then some CompressionCodec.SNAPPY
    else if StringUtil.Lower value.ToString = "gzip" then some CompressionCodec.GZIP
    else if StringUtil.Lower value.ToString = "zstd" then some CompressionCodec.ZSTD
    else none

/-- An option the loop of `parquet_write_bind` passes without throwing: a compression or
codec option with a recognized value. -/
def valid_codec_option (option : String × List Value) : Prop :=
  is_codec_key option.1 ∧ (recognized_codec option.2).isSome

instance (option : String × List Value) : Decidable (valid_codec_option option) := by
  unfold valid_codec_option
  infer_instance

/-- The codec the loop of `parquet_write_bind` leaves in the bind data after a list of
valid options: the one of the last option, or the codec before the loop. -/
def last_codec (before : CompressionCodec) :
    List (String × List Value) → CompressionCodec
  | [] => before
  | option :: rest => last_codec ((recognized_codec option.2).getD before) rest

/-- The `NotImplementedException` of `parquet_write_bind` for an option name. -/
def unrecognized_option_exception (key : String) : Exception :=
  { type := ExceptionType.NOT_IMPLEMENTED,
    message := "Unrecognized option for PARQUET: " ++ key }

/-- The scan of file `i` of the FileSet, opened and initialised the way the single-threaded
cursor does it (all row groups of the file, the cursor's columns and filters), yields no
row. -/
def file_scan_is_empty (context : ClientContext) (bind_data : ParquetReadBindData)
    (data : ParquetReadOperatorData) (i : Nat) : Prop :=
  ∃ types reader,
    context.OpenReader (bind_data.files.getD i "") types (bind_data.files.getD 0 "")
      = .ok reader ∧
    (context.Scan reader
      (InitializeScan reader data.column_ids (List.range reader.NumRowGroups)
        data.table_filters)).2.size = 0

/-- A parallel cursor of the example scan: it holds row group 0 of `a.parquet` and has
scanned it to the end. -/
def example_parallel_cursor : ParquetReadOperatorData :=
  { reader := example_reader "a.parquet" 2 20 (some ⟨1, 20, false⟩),
    scan_state := { group_idx_list := [0], column_ids := [0], table_filters := none,
                    position := 1 },
    is_parallel := true, file_index := 0, column_ids := [0], table_filters := none }

/-- The scheduler state of the example scan after it handed out row group 0 of
`a.parquet`. -/
def example_parallel_state : ParquetReadParallelState :=
  { current_reader := example_reader "a.parquet" 2 20 (some ⟨1, 20, false⟩),
    file_index := 0, row_group_index := 1 }

/-- A single-threaded cursor of the example scan: it is at `c.parquet` and has scanned it
to the end. -/
def example_serial_cursor : ParquetReadOperatorData :=
  { reader := example_reader "c.parquet" 3 30 (some ⟨21, 50, false⟩),
    scan_state := { group_idx_list := [0, 1, 2], column_ids := [0], table_filters := none,
                    position := 1 },
    is_parallel := false, file_index := 2, column_ids := [0], table_filters := none }

/-- `ParquetScanFunction::parquet_cardinality`; returns the estimated cardinality the
`NodeStatistics` is made with.  The product is one of `idx_t` values. -/
def parquet_cardinality (_context : ClientContext) (bind_data : ParquetReadBindData) : Nat :=
  (bind_data.initial_reader.NumRows * bind_data.files.length) % 2 ^ 64

/-- `ParquetScanFunction::parquet_max_threads`.  The product is one of `idx_t` values. -/
def parquet_max_threads (_context : ClientContext) (bind_data : ParquetReadBindData) : Nat :=
  (bind_data.initial_reader.NumRowGroups * bind_data.files.length) % 2 ^ 64

/-- The total number of row groups of the files `0`, ..., `number_of_files - 1`. -/
def total_row_groups (counts : Nat → Nat) (number_of_files : Nat) : Nat :=
  ((List.range number_of_files).map counts).sum

/-- The scheduler states that calls of `parquet_parallel_state_next` reach from the state
`parquet_init_parallel_state` builds; each call may come with another cursor. -/
inductive SchedulerReachable (context : ClientContext) (bind_data : ParquetReadBindData) :
    ParquetReadParallelState → Prop where
  | init : SchedulerReachable context bind_data (parquet_init_parallel_state bind_data)
  | next (scan_data result_data : ParquetReadOperatorData)
      (parallel_state result_state : ParquetReadParallelState) (found : Bool) :
      SchedulerReachable context bind_data parallel_state →
      parquet_parallel_state_next context bind_data scan_data parallel_state
        = .ok (found, result_data, result_state) →
      SchedulerReachable context bind_data result_state

/-- The scheduler state after the given number of calls of `parquet_parallel_state_next`
with one cursor; `none` when a call throws. -/
def parallel_state_after (context : ClientContext) (bind_data : ParquetReadBindData) :
    Nat → ParquetReadOperatorData → ParquetReadParallelState → Option ParquetReadParallelState
  | 0, _, parallel_state => some parallel_state
  | calls + 1, scan_data, parallel_state =>
    match parquet_parallel_state_next context bind_data scan_data parallel_state with
    | .error _ => none
    | .ok (_, scan_data, parallel_state) =>
      parallel_state_after context bind_data calls scan_data parallel_state

/-- The column type `parquet_scan_stats` passes to every `ReadStatistics` call: the one of
the first file's reader. -/
def stats_column_type (bind_data : ParquetReadBindData) (column_index : Nat) : LogicalType :=
  bind_data.initial_reader.return_types.getD column_index LogicalType.INVALID

/-- The file can be opened, has a cache entry that is fresh (its read time is strictly later
than the file's modification time) and whose metadata yields the given statistics for the column,
extracted with the first file's column type. -/
def fresh_with_statistics (context : ClientContext) (bind_data : ParquetReadBindData)
    (column_index : Nat) (file_name : String) (stats : BaseStatistics) : Prop :=
  ∃ metadata time, context.ObjectCacheGet file_name = some metadata ∧
    modified_at context file_name time ∧ time < metadata.read_time ∧
    context.ReadStatistics (stats_column_type bind_data column_index) column_index
      metadata.metadata = some stats

/-- The example context one second after the cache entry of `c.parquet` was read: every
file has the modification time 101, the entry the read time 100. -/
def example_context_modified : ClientContext :=
  { example_context with GetLastModifiedTime := fun _ => .ok 101 }

/-- The example context with the object cache disabled; the cache still holds the fresh
entry of `c.parquet`. -/
def example_context_cache_disabled : ClientContext :=
  { example_context with object_cache_enable := false }

/-- The example context with a fresh cache entry of `c.parquet` whose metadata has no
statistics for column 0. -/
def example_context_without_stats : ClientContext :=
  { example_context with
      ObjectCacheGet := fun file =>
        if file = "c.parquet" then
          some { metadata := { column_stats := [none] }, read_time := 100 }
        else none }

/-- The vector size `STANDARD_VECTOR_SIZE`, the largest number of rows of one batch; it is
declared outside the extension file. -/
def STANDARD_VECTOR_SIZE : Nat := 1024

/-- `parquet_write_initialize_global`: it makes the one encoder of the write from the
bound path, column types, column names and codec. -/
def parquet_write_initialize_global (bind_data : ParquetWriteBindData) :
    ParquetWriteGlobalState :=
  { writer :=
      { flushed := [], finalized := false, file_name := bind_data.file_name,
        sql_types := bind_data.sql_types, column_names := bind_data.column_names,
        codec := bind_data.codec } }

/-- Modelled from the spec: the rows of the assignment of a scan state in a file whose row
groups are given ("row group: a self-contained horizontal partition of a columnar file");
the decoder of the reader is not in the extension file. -/
def assigned_rows (row_groups : List ChunkCollection) (scan_state : ParquetReaderScanState) :
    List Row :=
  scan_state.group_idx_list.flatMap (fun g => (row_groups.getD g ChunkCollection.empty).rows)

/-- Modelled from the spec: the projection of a scan ("only requested column ids are
decoded"). -/
def project_row (column_ids : List Nat) (row : Row) : Row :=
  column_ids.map (fun c => row.getD c Value.null)

/-- Modelled from the spec: `ParquetReader::Scan` on a file with the given row groups; its
code is not in the extension file.  It "decodes the next batch of rows from the cursor's
current assignment": at most `STANDARD_VECTOR_SIZE` rows from the decode position on,
projected to the requested columns, and the empty batch at the end of the assignment. -/
def scan_written_file (row_groups : List ChunkCollection) (scan_state : ParquetReaderScanState) :
    ParquetReaderScanState × DataChunk :=
  ({ scan_state with
      position := scan_state.position
        + (((assigned_rows row_groups scan_state).drop scan_state.position).take
            STANDARD_VECTOR_SIZE).length },
    { data := (((assigned_rows row_groups scan_state).drop scan_state.position).take
        STANDARD_VECTOR_SIZE).map (project_row scan_state.column_ids) })

/-- Modelled from the spec: what a reader finds after a write; the encoder and the footer
parser are not in the extension file.  The write leaves "one file at the bound path
containing all flushed row groups plus footer metadata": every collection handed to
`Flush` is one row group, in call order, and the schema is the bound one.  Before
`Finalize` the file is "incomplete, unusable".  The object cache is off. -/
def written_file_context (writer : ParquetWriter) : ClientContext where
  Glob := fun pattern => if pattern = writer.file_name then [writer.file_name] else []
  OpenReader := fun file _ _ =>
    if file = writer.file_name ∧ writer.finalized = true then
      .ok { file_name := file, return_types := writer.sql_types, names := writer.column_names,
            metadata := { column_stats := [] }, num_row_groups := writer.flushed.length,
            num_rows := (all_rows writer.flushed).length }
    else
      .error { type := ExceptionType.IO_EXCEPTION, message := "cannot read " ++ file }
  Scan := fun _ scan_state => scan_written_file writer.flushed scan_state
  object_cache_enable := false
  ObjectCacheGet := fun _ => none
  OpenFile := fun file =>
    if file = writer.file_name then .ok { path := file }
    else .error { type := ExceptionType.IO_EXCEPTION, message := "cannot open " ++ file }
  GetLastModifiedTime := fun _ => .ok 0
  ReadStatistics := fun _ _ _ => none
  Merge := fun a _ => a

/-- The calls of `parquet_scan_function` on one cursor, repeated until the first call that
leaves the output batch empty: the batches before that one.  `none` when a call throws or
when the given number of calls does not reach the empty batch. -/
def scan_until_empty (context : ClientContext) (bind_data : ParquetReadBindData) :
    Nat → ParquetReadOperatorData → Option (List DataChunk)
  | 0, _ => none
  | calls + 1, data =>
    match parquet_scan_function context bind_data data with
    | .error _ => none
    | .ok (data, output) =>
      if output.size = 0 then some []
      else
        match scan_until_empty context bind_data calls data with
        | none => none
        | some rest => some (output :: rest)

/-- One thread writes the batches (initialize-global, Sink per batch, Combine, Finalize);
then the file at the bound path is scanned single-threaded with all columns and no filter
(`parquet_scan_bind`, `parquet_scan_init`, `parquet_scan_function` until the empty
batch).  The result is the list of scanned batches. -/
def write_then_scan (bind_data : ParquetWriteBindData) (batches : List DataChunk)
    (calls : Nat) : Option (List DataChunk) :=
  match parquet_scan_bind
      (written_file_context
        (parquet_write_finalize
          (write_thread (parquet_write_initialize_global bind_data) batches).1).writer)
      [Value.varchar bind_data.file_name] with
  | .error _ => none
  | .ok (read_bind, return_types, _) =>
    scan_until_empty
      (written_file_context
        (parquet_write_finalize
          (write_thread (parquet_write_initialize_global bind_data) batches).1).writer)
      read_bind calls
      (parquet_scan_init read_bind (List.range return_types.length) none)

/-- The bind data of the example write: one BIGINT column `i` to `out.parquet`. -/
def example_write_bind_data : ParquetWriteBindData :=
  { sql_types := [LogicalType.BIGINT], file_name := "out.parquet", column_names := ["i"],
    codec := CompressionCodec.SNAPPY }

/-- Two example batches of one column. -/
def example_batches : List DataChunk :=
  [{ data := [[Value.bigint 1], [Value.bigint 2]] }, { data := [[Value.bigint 3]] }]

/-- The physical types `Appender::AppendValueInternal` switches over. -/
inductive PhysicalType where
  | BOOL
  | INT8
  | INT16
  | INT32
  | INT64
  | FLOAT
  | DOUBLE
  | VARCHAR
  | INVALID
  deriving DecidableEq, Repr, Inhabited

/-- The argument of a call of `Appender::Append`, by overload; a floating point argument is
given by its bit pattern, a string argument with a length by both. -/
inductive AppendInput where
  | bool (value : Bool)
  | int8 (value : Int)
  | int16 (value : Int)
  | int32 (value : Int)
  | int64 (value : Int)
  | string (value : String)
  | string_length (value : String) (length : Nat)
  | float (bits : Nat)
  | double (bits : Nat)
  | value (value : Value)
  | null
  deriving DecidableEq, Repr, Inhabited

/-- How a cell of the appender's chunk was written: through `Cast::Operation` to a
physical type, through `DataChunk::SetValue`, or as NULL by `FlatVector::SetNull`. -/
inductive CellWrite where
  | cast (input : AppendInput) (target : PhysicalType)
  | set_value (input : AppendInput)
  | set_null
  deriving DecidableEq, Repr, Inhabited

/-- The `DataChunk` of an appender: the column types it was initialised with, its
cardinality, and the cells written since the last reset, each as (column, row, write), in
the order of the writes. -/
structure AppenderChunk where
  types : List LogicalType
  count : Nat
  writes : List (Nat × Nat × CellWrite)
  deriving DecidableEq, Repr, Inhabited

/-- `DataChunk::ColumnCount`. -/
def AppenderChunk.ColumnCount (chunk : AppenderChunk) : Nat := chunk.types.length

/-- `DataChunk::size`. -/
def AppenderChunk.size (chunk : AppenderChunk) : Nat := chunk.count

/-- `DataChunk::SetCardinality`. -/
def AppenderChunk.SetCardinality (chunk : AppenderChunk) (count : Nat) : AppenderChunk :=
  { chunk with count := count }

/-- `DataChunk::Reset`: the chunk is empty again and keeps its column types. -/
def AppenderChunk.Reset (chunk : AppenderChunk) : AppenderChunk :=
  { chunk with count := 0, writes := [] }

/-- A write to the cell of a column in the row after the last complete one. -/
def AppenderChunk.write (chunk : AppenderChunk) (column : Nat) (cell : CellWrite) :
    AppenderChunk :=
  { chunk with writes := chunk.writes ++ [(column, chunk.count, cell)] }

/-- The collaborators of the appender; their code is not in `appender.cpp`, so they are
parameters.  An `Option Exception` is `none` when the call returns normally.

* `InternalType`: `LogicalType::InternalType`.
* `Cast input target`: whether `Cast::Operation` to the physical type throws.
* `SetValue type input`: whether `Value::CreateValue` followed by `DataChunk::SetValue`
  on a column of the type throws.
* `FloatIsValid`, `DoubleIsValid`: `Value::FloatIsValid`, `Value::DoubleIsValid`.
* `ContextAppend chunk`: whether `ClientContext::Append` of the chunk to the table throws
  (the destructor notes that it can, "if the table was dropped in the meantime"). -/
structure AppenderEnvironment where
  InternalType : LogicalType → PhysicalType
  Cast : AppendInput → PhysicalType → Option Exception
  SetValue : LogicalType → AppendInput → Option Exception
  FloatIsValid : Nat → Bool
  DoubleIsValid : Nat → Bool
  ContextAppend : AppenderChunk → Option Exception

/-- The `Appender`: the column position, the chunk, and the chunks handed to the context's
`Append`, in call order. -/
structure Appender where
  column : Nat
  chunk : AppenderChunk
  context_appends : List AppenderChunk
  deriving DecidableEq, Repr, Inhabited

/-- The `InvalidInputException` of `Appender::EndRow`. -/
def end_row_exception : Exception :=
  { type := ExceptionType.INVALID_INPUT,
    message := "Call to EndRow before all rows have been appended to!" }

/-- The `InvalidInputException` of the appends beyond the last column. -/
def too_many_appends_exception : Exception :=
  { type := ExceptionType.INVALID_INPUT, message := "Too many appends for chunk!" }

/-- The `InvalidInputException` of `Appender::Flush`. -/
def incomplete_append_exception : Exception :=
  { type := ExceptionType.INVALID_INPUT,
    message := "Failed to Flush appender: incomplete append to row!" }

/-- The constructor `Appender::Appender`; the argument is what `Connection::TableInfo`
finds: the column types of the table, or nothing. -/
def Appender.construct (schema_name table_name : String)
    (description : Option (List LogicalType)) : Except Exception Appender :=
  match description with
  | none =>
    .error { type := ExceptionType.CATALOG,
             message := "Table \"" ++ schema_name ++ "." ++ table_name
               ++ "\" could not be found" }
  | some types =>
    .ok { column := 0, chunk := { types := types, count := 0, writes := [] },
          context_appends := [] }

/-- `Appender::Flush`; returns the appender after the call and the exception the call
throws, if any. -/
def Appender.Flush (env : AppenderEnvironment) (appender : Appender) :
    Appender × Option Exception :=
  if appender.column ≠ 0 then
    (appender, some incomplete_append_exception)
  else if appender.chunk.size = 0 then
    (appender, none)
  else
    match env.ContextAppend appender.chunk with
    | some e =>
      ({ appender with context_appends := appender.context_appends ++ [appender.chunk] },
        some e)
    | none =>
      ({ column := 0, chunk := appender.chunk.Reset,
         context_appends := appender.context_appends ++ [appender.chunk] }, none)

/-- `Appender::EndRow`. -/
def Appender.EndRow (env : AppenderEnvironment) (appender : Appender) :
    Appender × Option Exception :=
  if appender.column ≠ appender.chunk.ColumnCount then
    (appender, some end_row_exception)
  else if (appender.chunk.SetCardinality (appender.chunk.size + 1)).size
      ≥ STANDARD_VECTOR_SIZE then
    Appender.Flush env
      { appender with
          column := 0, chunk := appender.chunk.SetCardinality (appender.chunk.size + 1) }
  else
    ({ appender with
        column := 0, chunk := appender.chunk.SetCardinality (appender.chunk.size + 1) }, none)

/-- `Appender::Close`. -/
def Appender.Close (env : AppenderEnvironment) (appender : Appender) :
    Appender × Option Exception :=
  if appender.column = 0 ∨ appender.column = appender.chunk.ColumnCount then
    Appender.Flush env appender
  else
    (appender, none)

/-- `Appender::AppendValue`. -/
def Appender.AppendValue (env : AppenderEnvironment) (appender : Appender)
    (input : AppendInput) : Appender × Option Exception :=
  match env.SetValue (appender.chunk.types.getD appender.column LogicalType.INVALID) input with
  | some e => (appender, some e)
  | none =>
    ({ appender with
        column := appender.column + 1,
        chunk := appender.chunk.write appender.column (CellWrite.set_value input) }, none)

/-- The inner `Appender::AppendValueInternal<SRC, DST>` followed by `column++`. -/
def Appender.AppendCast (env : AppenderEnvironment) (appender : Appender)
    (input : AppendInput) (target : PhysicalType) : Appender × Option Exception :=
  match env.Cast input target with
  | some e => (appender, some e)
  | none =>
    ({ appender with
        column := appender.column + 1,
        chunk := appender.chunk.write appender.column (CellWrite.cast input target) }, none)

/-- `Appender::AppendValueInternal<T>`. -/
def Appender.AppendValueInternal (env : AppenderEnvironment) (appender : Appender)
    (input : AppendInput) : Appender × Option Exception :=
  if appender.column ≥ appender.chunk.ColumnCount then
    (appender, some too_many_appends_exception)
  else
    match env.InternalType (appender.chunk.types.getD appender.column LogicalType.INVALID) with
    | PhysicalType.BOOL => Appender.AppendCast env appender input PhysicalType.BOOL
    | PhysicalType.INT8 => Appender.AppendCast env appender input PhysicalType.INT8
    | PhysicalType.INT16 => Appender.AppendCast env appender input PhysicalType.INT16
    | PhysicalType.INT32 => Appender.AppendCast env appender input PhysicalType.INT32
    | PhysicalType.INT64 => Appender.AppendCast env appender input PhysicalType.INT64
    | PhysicalType.FLOAT => Appender.AppendCast env appender input PhysicalType.FLOAT
    | PhysicalType.DOUBLE => Appender.AppendCast env appender input PhysicalType.DOUBLE
    | _ => Appender.AppendValue env appender input

/-- `Appender::Append`, all overloads. -/
def Appender.Append (env : AppenderEnvironment) (appender : Appender) :
    AppendInput → Appender × Option Exception
  | AppendInput.float bits =>
    if env.FloatIsValid bits = false then
      (appender, some { type := ExceptionType.INVALID_INPUT,
                        message := "Float value is out of range!" })
    else
      Appender.AppendValueInternal env appender (AppendInput.float bits)
  | AppendInput.double bits =>
    if env.DoubleIsValid bits = false then
      (appender, some { type := ExceptionType.INVALID_INPUT,
                        message := "Double value is out of range!" })
    else
      Appender.AppendValueInternal env appender (AppendInput.double bits)
  | AppendInput.value value =>
    if appender.column ≥ appender.chunk.ColumnCount then
      (appender, some too_many_appends_exception)
    else
      Appender.AppendValue env appender (AppendInput.value value)
  | AppendInput.null =>
    if appender.column ≥ appender.chunk.ColumnCount then
      (appender, some too_many_appends_exception)
    else
      ({ appender with
          column := appender.column + 1,
          chunk := appender.chunk.write appender.column CellWrite.set_null }, none)
  | input => Appender.AppendValueInternal env appender input

/-- A call on an appender. -/
inductive AppenderCall where
  | Append (input : AppendInput)
  | EndRow
  | Flush
  | Close
  deriving DecidableEq, Repr, Inhabited

/-- The effect of a call: the appender after it and the exception it throws, if any. -/
def Appender.call (env : AppenderEnvironment) (appender : Appender) :
    AppenderCall → Appender × Option Exception
  | AppenderCall.Append input => Appender.Append env appender input
  | AppenderCall.EndRow => Appender.EndRow env appender
  | AppenderCall.Flush => Appender.Flush env appender
  | AppenderCall.Close => Appender.Close env appender

/-- The appenders reachable from construction by any sequence of calls; a call that throws
leaves the appender it leaves, and further calls follow; the collaborators may behave
differently from call to call. -/
inductive AppenderReachable : Appender → Prop where
  | construct (schema_name table_name : String) (types : List LogicalType)
      (appender : Appender) :
      Appender.construct schema_name table_name (some types) = .ok appender →
      AppenderReachable appender
  | call (env : AppenderEnvironment) (appender : Appender) (c : AppenderCall) :
      AppenderReachable appender → AppenderReachable (Appender.call env appender c).1

/-- Collaborators for the examples: integer columns are written through casts, no cast
and no `SetValue` throws, every floating point value is valid, and the context's `Append`
returns normally. -/
def example_appender_environment : AppenderEnvironment where
  InternalType := fun type =>
    match type with
    | LogicalType.BOOLEAN => PhysicalType.BOOL
    | LogicalType.INTEGER => PhysicalType.INT32
    | LogicalType.BIGINT => PhysicalType.INT64
    | LogicalType.DOUBLE => PhysicalType.DOUBLE
    | LogicalType.VARCHAR => PhysicalType.VARCHAR
    | LogicalType.INVALID => PhysicalType.INVALID
  Cast := fun _ _ => none
  SetValue := fun _ _ => none
  FloatIsValid := fun _ => true
  DoubleIsValid := fun _ => true
  ContextAppend := fun _ => none

/-- The example collaborators after the table was dropped: the context's `Append`
throws. -/
def example_appender_environment_dropped : AppenderEnvironment :=
  { example_appender_environment with
      ContextAppend := fun _ =>
        some { type := ExceptionType.CATALOG, message := "Table does not exist!" } }

/-- An appender on a table of two columns with one complete row buffered and nothing
written to the next row. -/
def example_appender : Appender :=
  { column := 0,
    chunk := { types := [LogicalType.BIGINT, LogicalType.VARCHAR], count := 1,
               writes := [(0, 0, CellWrite.cast (AppendInput.int64 7) PhysicalType.INT64),
                          (1, 0, CellWrite.set_value (AppendInput.string "x"))] },
    context_appends := [] }

/-- An appender on a table of two columns with 1023 complete rows buffered and both cells
of the next row written. -/
def example_appender_last_row : Appender :=
  { column := 2,
    chunk := { types := [LogicalType.BIGINT, LogicalType.VARCHAR], count := 1023,
               writes := [(0, 1023, CellWrite.cast (AppendInput.int64 7) PhysicalType.INT64),
                          (1, 1023, CellWrite.set_value (AppendInput.string "x"))] },
    context_appends := [] }

/-- The set operations of a parsed SELECT statement (`PGSetOperation`). -/
inductive PGSetOperation where
  | PG_SETOP_NONE
  | PG_SETOP_UNION
  | PG_SETOP_INTERSECT
  | PG_SETOP_EXCEPT
  deriving DecidableEq, Repr, Inhabited

/-- The tag of a parse tree node (`PGNode::type`), as far as `TransformCTE` tells the tags
apart. -/
inductive PGNodeTag where
  | T_PGSelectStmt
  | T_PGInsertStmt
  | T_PGUpdateStmt
  | T_PGDeleteStmt
  deriving DecidableEq, Repr, Inhabited

/-- A parse tree node that the embedded functions only pass on or test for null. -/
structure PGNode where
  id : Nat
  deriving DecidableEq, Repr, Inhabited

/-- The query node of a CTE, read as a `PGSelectStmt`: its tag and the fields
`TransformRecursiveCTE` reads; a null pointer is `none`. -/
structure PGSelectStmt where
  type : PGNodeTag
  op : PGSetOperation
  all : Bool
  larg : Option PGNode
  rarg : Option PGNode
  limitCount : Option PGNode
  limitOffset : Option PGNode
  sortClause : Option PGNode
  deriving DecidableEq, Repr, Inhabited

/-- `PGCommonTableExpr`; a null pointer is `none`. -/
structure PGCommonTableExpr where
  ctename : String
  aliascolnames : Option (List String)
  ctequery : Option PGSelectStmt
  cterecursive : Bool
  ctecolnames : Option PGNode
  ctecoltypes : Option PGNode
  ctecoltypmods : Option PGNode
  ctecolcollations : Option PGNode
  deriving DecidableEq, Repr, Inhabited

/-- `PGWithClause`: the CTEs in list order and the RECURSIVE flag. -/
structure PGWithClause where
  ctes : List PGCommonTableExpr
  recursive : Bool
  deriving DecidableEq, Repr, Inhabited

/-- The result modifiers of a query node. -/
inductive ResultModifier where
  | DISTINCT_MODIFIER
  | LIMIT_MODIFIER
  | ORDER_MODIFIER
  deriving DecidableEq, Repr, Inhabited

/-- A `QueryNode`: a `RecursiveCTENode` with its fields, or a node made by one of the
transform functions outside `transform_cte.cpp`, given by a number. -/
inductive QueryNode where
  | transformed (id : Nat)
  | RecursiveCTENode (ctename : String) (union_all : Bool) (left right : Option QueryNode)
      (aliases : List String) (modifiers : List ResultModifier)
  deriving Repr, Inhabited

mutual

/-- `CommonTableExpressionInfo`. -/
inductive CommonTableExpressionInfo where
  | mk (aliases : List String) (query : Option SelectStatement)

/-- `SelectStatement`: the CTE map, as the list of its entries in insertion order, and the
main query node. -/
inductive SelectStatement where
  | mk (cte_map : List (String × CommonTableExpressionInfo)) (node : Option QueryNode)
end

/-- The field `aliases`. -/
def CommonTableExpressionInfo.aliases : CommonTableExpressionInfo → List String
  | .mk aliases _ => aliases

/-- The field `query`. -/
def CommonTableExpressionInfo.query : CommonTableExpressionInfo → Option SelectStatement
  | .mk _ query => query

/-- The field `cte_map`. -/
def SelectStatement.cte_map : SelectStatement → List (String × CommonTableExpressionInfo)
  | .mk cte_map _ => cte_map

/-- The field `node`. -/
def SelectStatement.node : SelectStatement → Option QueryNode
  | .mk _ node => node

/-- The keys of a CTE map. -/
def cte_names (cte_map : List (String × CommonTableExpressionInfo)) : List String :=
  cte_map.map (fun entry => entry.1)

/-- The transform functions of the `Transformer` whose code is not in
`transform_cte.cpp`; they are parameters.  Each may throw, and may return a null pointer
(`none`). -/
structure Transformer where
  TransformSelect : PGSelectStmt → Except Exception (Option SelectStatement)
  TransformSelectNode : Option PGNode → Except Exception (Option QueryNode)

/-- The exception `A CTE needs a SELECT`. -/
def cte_needs_select_exception : Exception :=
  { type := ExceptionType.INVALID, message := "A CTE needs a SELECT" }

/-- The exception `A CTE needs an unique name`. -/
def cte_unique_name_exception : Exception :=
  { type := ExceptionType.INVALID, message := "A CTE needs an unique name" }

/-- `Transformer::TransformRecursiveCTE`; `none` is the null pointer.  The caller has
checked that the query of the CTE is not null; for a null query the embedding returns an
internal error where the C++ code dereferences the pointer. -/
def TransformRecursiveCTE (transformer : Transformer) (cte : PGCommonTableExpr)
    (info : CommonTableExpressionInfo) : Except Exception (Option SelectStatement) :=
  match cte.ctequery with
  | none => .error { type := ExceptionType.INTERNAL, message := "null query" }
  | some stmt =>
    match stmt.op with
    | PGSetOperation.PG_SETOP_UNION
    | PGSetOperation.PG_SETOP_EXCEPT
    | PGSetOperation.PG_SETOP_INTERSECT =>
      match transformer.TransformSelectNode stmt.larg with
      | .error e => .error e
      | .ok left =>
        match transformer.TransformSelectNode stmt.rarg with
        | .error e => .error e
        | .ok right =>
          if left.isNone ∨ right.isNone then
            .error { type := ExceptionType.INVALID,
                     message := "Failed to transform recursive CTE children." }
          else
            match stmt.op with
            | PGSetOperation.PG_SETOP_UNION =>
              let select_distinct := false
              if stmt.limitCount.isSome ∨ stmt.limitOffset.isSome then
                .error { type := ExceptionType.PARSER,
                         message := "LIMIT or OFFSET in a recursive query is not allowed" }
              else if stmt.sortClause.isSome then
                .error { type := ExceptionType.PARSER,
                         message := "ORDER BY in a recursive query is not allowed" }
              else
                .ok (some (SelectStatement.mk []
                  (some (QueryNode.RecursiveCTENode cte.ctename stmt.all left right
                    info.aliases
                    (if select_distinct then [ResultModifier.DISTINCT_MODIFIER] else [])))))
            | _ =>
              .error { type := ExceptionType.INVALID,
                       message := "Unexpected setop type for recursive CTE" }
    | _ => transformer.TransformSelect stmt

/-- The body of the loop of `TransformCTE` up to the lookup of the name: the checks of the
CTE and the transformation of its query into the info of the CTE. -/
def TransformCTE_info (transformer : Transformer) (recursive : Bool)
    (cte : PGCommonTableExpr) : Except Exception CommonTableExpressionInfo :=
  let aliases := match cte.aliascolnames with
    | some names => names
    | none => []
  if cte.ctecolnames.isSome then
    .error { type := ExceptionType.NOT_IMPLEMENTED,
             message := "Column name setting not supported in CTEs" }
  else if cte.ctecoltypes.isSome then
    .error { type := ExceptionType.NOT_IMPLEMENTED,
             message := "Column type setting not supported in CTEs" }
  else if cte.ctecoltypmods.isSome then
    .error { type := ExceptionType.NOT_IMPLEMENTED,
             message := "Column type modification not supported in CTEs" }
  else if cte.ctecolcollations.isSome then
    .error { type := ExceptionType.NOT_IMPLEMENTED, message := "CTE collations not supported" }
  else
    match cte.ctequery with
    | none => .error cte_needs_select_exception
    | some stmt =>
      if stmt.type ≠ PGNodeTag.T_PGSelectStmt then
        .error cte_needs_select_exception
      else
        match (if cte.cterecursive = true ∨ recursive = true then
            TransformRecursiveCTE transformer cte (CommonTableExpressionInfo.mk aliases none)
          else transformer.TransformSelect stmt) with
        | .error e => .error e
        | .ok none => .error cte_needs_select_exception
        | .ok (some query) => .ok (CommonTableExpressionInfo.mk aliases (some query))

/-- The loop of `TransformCTE` over the CTEs of the clause, in list order. -/
def TransformCTE_loop (transformer : Transformer) (recursive : Bool) :
    List PGCommonTableExpr → SelectStatement → Except Exception SelectStatement
  | [], select => .ok select
  | cte :: rest, select =>
    match TransformCTE_info transformer recursive cte with
    | .error e => .error e
    | .ok info =>
      if cte.ctename ∈ cte_names select.cte_map then
        .error cte_unique_name_exception
      else
        TransformCTE_loop transformer recursive rest
          (SelectStatement.mk (select.cte_map ++ [(cte.ctename, info)]) select.node)

/-- `Transformer::TransformCTE`; returns the statement with the CTEs added.  A call that
throws ends the transformation of the statement. -/
def TransformCTE (transformer : Transformer) (de_with_clause : PGWithClause)
    (select : SelectStatement) : Except Exception SelectStatement :=
  TransformCTE_loop transformer de_with_clause.recursive de_with_clause.ctes select

/-- Transform functions for the examples: a SELECT statement becomes a statement without
CTEs around a node with the number 0, a child node keeps its number, and a null child
stays null. -/
def example_transformer : Transformer where
  TransformSelect := fun _ => .ok (some (SelectStatement.mk [] (some (QueryNode.transformed 0))))
  TransformSelectNode := fun node =>
    match node with
    | none => .ok none
    | some n => .ok (some (QueryNode.transformed n.id))

/-- A plain SELECT as the query of a CTE. -/
def example_select : PGSelectStmt :=
  { type := PGNodeTag.T_PGSelectStmt, op := PGSetOperation.PG_SETOP_NONE, all := false,
    larg := none, rarg := none, limitCount := none, limitOffset := none, sortClause := none }

/-- A CTE with the given name and a plain SELECT as its query. -/
def example_cte (name : String) : PGCommonTableExpr :=
  { ctename := name, aliascolnames := none, ctequery := some example_select,
    cterecursive := false, ctecolnames := none, ctecoltypes := none, ctecoltypmods := none,
    ctecolcollations := none }

/-- A recursive CTE `t(x)` whose query is `larg UNION ALL rarg`. -/
def example_recursive_cte : PGCommonTableExpr :=
  { ctename := "t", aliascolnames := some ["x"],
    ctequery := some { example_select with
      op := PGSetOperation.PG_SETOP_UNION, all := true, larg := some { id := 1 },
      rarg := some { id := 2 } },
    cterecursive := true, ctecolnames := none, ctecoltypes := none, ctecoltypmods := none,
    ctecolcollations := none }

/-- The transformation of a child of a set operation fails: `TransformSelectNode` throws
or returns a null pointer. -/
def child_fails (transformer : Transformer) (node : Option PGNode) : Prop :=
  ∀ query, transformer.TransformSelectNode node ≠ .ok (some query)

/-! ## Theorems -/

/-! ### Write pipeline -/

theorem all_rows_append (xs ys : List ChunkCollection) :
    all_rows (xs ++ ys) = all_rows xs ++ all_rows ys := by
  simp [all_rows]

theorem parquet_write_sink_of_gt (gstate : ParquetWriteGlobalState)
    (lstate : ParquetWriteLocalState) (input : DataChunk)
    (h : (lstate.buffer.Append input).Count > 100000) :
    parquet_write_sink gstate lstate input
      = ({ writer := gstate.writer.Flush (lstate.buffer.Append input) },
          { buffer := ChunkCollection.empty }) := by
  simp only [parquet_write_sink, if_pos h]

theorem parquet_write_sink_of_le (gstate : ParquetWriteGlobalState)
    (lstate : ParquetWriteLocalState) (input : DataChunk)
    (h : ¬ (lstate.buffer.Append input).Count > 100000) :
    parquet_write_sink gstate lstate input = (gstate, { buffer := lstate.buffer.Append input }) := by
  simp only [parquet_write_sink, if_neg h]

theorem sink_all_rows (batches : List DataChunk) :
    ∀ (gstate : ParquetWriteGlobalState) (lstate : ParquetWriteLocalState),
      ∃ calls, (sink_all gstate lstate batches).1.writer.flushed = gstate.writer.flushed ++ calls ∧
        all_rows calls ++ (sink_all gstate lstate batches).2.buffer.rows
          = lstate.buffer.rows ++ batch_rows batches := by
  induction batches with
  | nil =>
    intro gstate lstate
    exact ⟨[], by simp [sink_all], by simp [sink_all, all_rows, batch_rows]⟩
  | cons input rest ih =>
    intro gstate lstate
    obtain ⟨calls, h1, h2⟩ :=
      ih (parquet_write_sink gstate lstate input).1 (parquet_write_sink gstate lstate input).2
    by_cases hc : (lstate.buffer.Append input).Count > 100000
    · rw [parquet_write_sink_of_gt gstate lstate input hc] at h1 h2
      refine ⟨[lstate.buffer.Append input] ++ calls, ?_, ?_⟩
      · simp only [sink_all]
        rw [parquet_write_sink_of_gt gstate lstate input hc, h1]
        simp [ParquetWriter.Flush]
      · simp only [sink_all]
        rw [parquet_write_sink_of_gt gstate lstate input hc, all_rows_append,
          List.append_assoc, h2]
        simp [all_rows, batch_rows, ChunkCollection.empty, ChunkCollection.Append]
    · rw [parquet_write_sink_of_le gstate lstate input hc] at h1 h2
      refine ⟨calls, ?_, ?_⟩
      · simp only [sink_all]
        rw [parquet_write_sink_of_le gstate lstate input hc, h1]
      · simp only [sink_all]
        rw [parquet_write_sink_of_le gstate lstate input hc, h2]
        simp [batch_rows, ChunkCollection.Append]

/-- C2: one thread, starting from the empty local buffer, passes any sequence of batches
to Sink and then runs Combine once: the collections the writer's Flush received during
these calls, concatenated in call order, are the input batches concatenated in order. -/
theorem write_thread_flushes_all_rows (gstate : ParquetWriteGlobalState)
    (batches : List DataChunk) :
    ∃ calls, (write_thread gstate batches).1.writer.flushed = gstate.writer.flushed ++ calls ∧
      all_rows calls = batch_rows batches := by
  obtain ⟨calls, h1, h2⟩ := sink_all_rows batches gstate parquet_write_initialize_local
  refine ⟨calls ++ [(sink_all gstate parquet_write_initialize_local batches).2.buffer], ?_, ?_⟩
  · simp [write_thread, parquet_write_combine, ParquetWriter.Flush, h1]
  · rw [all_rows_append]
    have h3 : all_rows [(sink_all gstate parquet_write_initialize_local batches).2.buffer]
        = (sink_all gstate parquet_write_initialize_local batches).2.buffer.rows := by
      simp [all_rows]
    rw [h3, h2]
    simp [parquet_write_initialize_local, ChunkCollection.empty]

/-- C8: Sink appends the batch to the buffer; when the row count then exceeds 100000 the
writer's Flush is called exactly once, with the rows of the buffer followed by the batch,
and the buffer is a fresh empty one; otherwise (also at exactly 100000 rows) Flush is not
called and the buffer holds its old rows followed by the batch. -/
theorem parquet_write_sink_spec (gstate : ParquetWriteGlobalState)
    (lstate : ParquetWriteLocalState) (input : DataChunk) :
    if lstate.buffer.rows.length + input.data.length > 100000 then
      (parquet_write_sink gstate lstate input).1.writer.flushed
          = gstate.writer.flushed ++ [{ rows := lstate.buffer.rows ++ input.data }] ∧
        (parquet_write_sink gstate lstate input).1.writer.finalized = gstate.writer.finalized ∧
        (parquet_write_sink gstate lstate input).2.buffer.rows = [] ∧
        (parquet_write_sink gstate lstate input).2.buffer.Count = 0
    else
      (parquet_write_sink gstate lstate input).1 = gstate ∧
        (parquet_write_sink gstate lstate input).2.buffer.rows
          = lstate.buffer.rows ++ input.data := by
  by_cases hc : lstate.buffer.rows.length + input.data.length > 100000
  · simp [parquet_write_sink, ChunkCollection.Append, ChunkCollection.Count, hc,
      ParquetWriter.Flush, ChunkCollection.empty]
  · simp [parquet_write_sink, ChunkCollection.Append, ChunkCollection.Count, hc]

/-- C9 (counterexample): Combine flushes a buffer of one row and the buffer still holds
that row afterwards, so a second flush of the same buffer hands the row to the writer a
second time. -/
theorem combine_leaves_buffer_counterexample :
    (parquet_write_combine { writer := { flushed := [], finalized := false } }
        { buffer := { rows := [[Value.bigint 1]] } }).1.writer.flushed
        = [{ rows := [[Value.bigint 1]] }] ∧
      (parquet_write_combine { writer := { flushed := [], finalized := false } }
        { buffer := { rows := [[Value.bigint 1]] } }).2.buffer.Count = 1 ∧
      (parquet_write_combine
        (parquet_write_combine { writer := { flushed := [], finalized := false } }
          { buffer := { rows := [[Value.bigint 1]] } }).1
        (parquet_write_combine { writer := { flushed := [], finalized := false } }
          { buffer := { rows := [[Value.bigint 1]] } }).2).1.writer.flushed
        = [{ rows := [[Value.bigint 1]] }, { rows := [[Value.bigint 1]] }] := by
  decide

/-- C9 (amended): after a Sink call either no flush took place (the writer received
nothing) or the buffer is empty; Combine hands the buffer to the writer's Flush and leaves
the buffer as it was. -/
theorem flush_resets_buffer_in_sink_only (gstate : ParquetWriteGlobalState)
    (lstate : ParquetWriteLocalState) (input : DataChunk) :
    ((parquet_write_sink gstate lstate input).1.writer.flushed = gstate.writer.flushed ∨
        ((parquet_write_sink gstate lstate input).1.writer.flushed
            = gstate.writer.flushed ++ [lstate.buffer.Append input] ∧
          (parquet_write_sink gstate lstate input).2.buffer.Count = 0)) ∧
      (parquet_write_combine gstate lstate).1.writer.flushed
        = gstate.writer.flushed ++ [lstate.buffer] ∧
      (parquet_write_combine gstate lstate).2 = lstate := by
  refine ⟨?_, by simp [parquet_write_combine, ParquetWriter.Flush], by simp [parquet_write_combine]⟩
  by_cases hc : (lstate.buffer.Append input).Count > 100000
  · right
    rw [parquet_write_sink_of_gt gstate lstate input hc]
    simp [ParquetWriter.Flush, ChunkCollection.empty, ChunkCollection.Count]
  · left
    rw [parquet_write_sink_of_le gstate lstate input hc]

/-! ### Row-group scheduler -/

theorem file_row_groups_cons (counts : Nat → Nat) (file g : Nat) (h : g < counts file) :
    file_row_groups counts file g = (file, g) :: file_row_groups counts file (g + 1) := by
  have hk : counts file - g = (counts file - (g + 1)) + 1 := by omega
  simp only [file_row_groups]
  rw [hk, List.range'_succ]
  simp

theorem file_row_groups_nil (counts : Nat → Nat) (file g : Nat) (h : ¬ g < counts file) :
    file_row_groups counts file g = [] := by
  have hk : counts file - g = 0 := by omega
  simp [file_row_groups, hk]

theorem files_row_groups_cons (counts : Nat → Nat) (k n : Nat) (h : k < n) :
    files_row_groups counts k n = file_row_groups counts k 0 ++ files_row_groups counts (k + 1) n := by
  have hk : n - k = (n - (k + 1)) + 1 := by omega
  simp only [files_row_groups]
  rw [hk, List.range'_succ]
  simp

theorem files_row_groups_nil (counts : Nat → Nat) (k n : Nat) (h : ¬ k < n) :
    files_row_groups counts k n = [] := by
  have hk : n - k = 0 := by omega
  simp [files_row_groups, hk]

theorem mem_files_row_groups (counts : Nat → Nat) (k n f g : Nat) :
    (f, g) ∈ files_row_groups counts k n ↔ (k ≤ f ∧ f < n) ∧ g < counts f := by
  simp only [files_row_groups, file_row_groups, List.mem_flatMap, List.mem_map,
    List.mem_range'_1, Prod.mk.injEq]
  constructor
  · rintro ⟨a, ⟨h1, h2⟩, b, ⟨_, h4⟩, rfl, rfl⟩
    exact ⟨⟨h1, by omega⟩, by omega⟩
  · rintro ⟨⟨h1, h2⟩, h3⟩
    exact ⟨f, ⟨h1, by omega⟩, g, ⟨by omega, by omega⟩, rfl, rfl⟩

theorem pairwise_files_row_groups (counts : Nat → Nat) (k n : Nat) :
    (files_row_groups counts k n).Pairwise assignment_lt := by
  simp only [files_row_groups, List.pairwise_flatMap]
  constructor
  · intro f _
    simp only [file_row_groups, List.pairwise_map]
    exact (List.pairwise_lt_range' 0 (counts f - 0)).imp (fun h => Or.inr ⟨rfl, h⟩)
  · refine (List.pairwise_lt_range' k (n - k)).imp ?_
    intro a b hab x hx y hy
    simp only [file_row_groups, List.mem_map] at hx hy
    obtain ⟨_, _, rfl⟩ := hx
    obtain ⟨_, _, rfl⟩ := hy
    exact Or.inl hab

theorem assignment_lt_irrefl (a : Nat × Nat) : ¬ assignment_lt a a := by
  simp [assignment_lt]

theorem nodup_files_row_groups (counts : Nat → Nat) (k n : Nat) :
    (files_row_groups counts k n).Nodup := by
  refine (pairwise_files_row_groups counts k n).imp ?_
  intro a b hab heq
  subst heq
  exact assignment_lt_irrefl a hab

theorem files_open_as_next (context : ClientContext) (bind_data : ParquetReadBindData)
    (readers : Nat → ParquetReader) (hopen : files_open_as context bind_data readers)
    (parallel_state : ParquetReadParallelState)
    (hcurrent : parallel_state.current_reader = readers parallel_state.file_index)
    (hc : parallel_state.file_index + 1 < bind_data.files.length) :
    context.OpenReader (bind_data.files.getD (parallel_state.file_index + 1) "")
        parallel_state.current_reader.return_types ""
      = .ok (readers (parallel_state.file_index + 1)) := by
  have h := hopen.2 (parallel_state.file_index + 1) (by omega) hc
  rw [Nat.add_sub_cancel] at h
  rw [hcurrent]
  exact h

theorem parquet_parallel_state_next_loop_spec (context : ClientContext)
    (bind_data : ParquetReadBindData) (readers : Nat → ParquetReader)
    (hopen : files_open_as context bind_data readers) :
    ∀ (fuel : Nat) (scan_data : ParquetReadOperatorData) (parallel_state : ParquetReadParallelState),
      bind_data.files.length - (parallel_state.file_index + 1) < fuel →
      parallel_state.current_reader = readers parallel_state.file_index →
      (∃ sd ps, parquet_parallel_state_next_loop context bind_data fuel scan_data parallel_state
            = .ok (false, sd, ps) ∧
          files_row_groups (row_group_counts readers) (parallel_state.file_index + 1)
            bind_data.files.length = []) ∨
      (∃ sd ps, parquet_parallel_state_next_loop context bind_data fuel scan_data parallel_state
            = .ok (true, sd, ps) ∧
          ps.row_group_index = 1 ∧ ps.current_reader = readers ps.file_index ∧
          ps.file_index < bind_data.files.length ∧
          sd.reader = readers ps.file_index ∧
          sd.scan_state.group_idx_list = [0] ∧
          files_row_groups (row_group_counts readers) (parallel_state.file_index + 1)
              bind_data.files.length
            = (ps.file_index, 0) :: (file_row_groups (row_group_counts readers) ps.file_index 1
                ++ files_row_groups (row_group_counts readers) (ps.file_index + 1)
                  bind_data.files.length)) := by
  intro fuel
  induction fuel with
  | zero => intro _ _ h; omega
  | succ fuel ih =>
    intro scan_data parallel_state hfuel hcurrent
    by_cases hc : parallel_state.file_index + 1 < bind_data.files.length
    · have hreader := files_open_as_next context bind_data readers hopen parallel_state
        hcurrent hc
      by_cases hz : (readers (parallel_state.file_index + 1)).NumRowGroups = 0
      · have hstep : parquet_parallel_state_next_loop context bind_data (fuel + 1) scan_data
            parallel_state
            = parquet_parallel_state_next_loop context bind_data fuel scan_data
                { parallel_state with
                    file_index := parallel_state.file_index + 1,
                    current_reader := readers (parallel_state.file_index + 1) } := by
          simp only [parquet_parallel_state_next_loop, if_pos hc, hreader, if_pos hz]
        have hskip : files_row_groups (row_group_counts readers)
              (parallel_state.file_index + 1) bind_data.files.length
            = files_row_groups (row_group_counts readers) (parallel_state.file_index + 1 + 1)
                bind_data.files.length := by
          rw [files_row_groups_cons _ _ _ hc,
            file_row_groups_nil (row_group_counts readers) _ 0
              (by simp only [row_group_counts]; omega)]
          rfl
        rw [hstep, hskip]
        exact ih scan_data
          { parallel_state with
              file_index := parallel_state.file_index + 1,
              current_reader := readers (parallel_state.file_index + 1) }
          (by simp only; omega) rfl
      · right
        refine ⟨{ scan_data with
                    reader := readers (parallel_state.file_index + 1),
                    scan_state := InitializeScan (readers (parallel_state.file_index + 1))
                      scan_data.column_ids [0] scan_data.table_filters },
                { current_reader := readers (parallel_state.file_index + 1),
                  file_index := parallel_state.file_index + 1,
                  row_group_index := 1 }, ?_, ?_⟩
        · simp only [parquet_parallel_state_next_loop, if_pos hc, hreader, if_neg hz]
        · refine ⟨rfl, rfl, hc, rfl, rfl, ?_⟩
          simp only
          rw [files_row_groups_cons _ _ _ hc,
            file_row_groups_cons (row_group_counts readers) _ 0
              (by simp only [row_group_counts]; omega)]
          rfl
    · left
      refine ⟨scan_data, parallel_state, ?_, files_row_groups_nil _ _ _ hc⟩
      simp only [parquet_parallel_state_next_loop, if_neg hc]

theorem parallel_assignments_spec (context : ClientContext)
    (bind_data : ParquetReadBindData) (readers : Nat → ParquetReader)
    (hopen : files_open_as context bind_data readers) :
    ∀ (calls : Nat) (scan_data : ParquetReadOperatorData) (parallel_state : ParquetReadParallelState),
      parallel_state.current_reader = readers parallel_state.file_index →
      (remaining_row_groups (row_group_counts readers) bind_data.files.length
        parallel_state).length < calls →
      parallel_assignments context bind_data calls scan_data parallel_state
        = some ((remaining_row_groups (row_group_counts readers) bind_data.files.length
            parallel_state).map (fun a => (a.1, readers a.1, [a.2]))) := by
  intro calls
  induction calls with
  | zero => intro _ _ _ h; omega
  | succ calls ih =>
    intro scan_data parallel_state hcurrent hcalls
    by_cases hc : parallel_state.row_group_index < parallel_state.current_reader.NumRowGroups
    · have hnext : parquet_parallel_state_next context bind_data scan_data parallel_state
          = .ok (true,
              { scan_data with
                  reader := parallel_state.current_reader,
                  scan_state := InitializeScan parallel_state.current_reader scan_data.column_ids
                    [parallel_state.row_group_index] scan_data.table_filters },
              { parallel_state with row_group_index := parallel_state.row_group_index + 1 }) := by
        simp only [parquet_parallel_state_next, if_pos hc]
      have hrest : remaining_row_groups (row_group_counts readers) bind_data.files.length
            parallel_state
          = (parallel_state.file_index, parallel_state.row_group_index)
            :: remaining_row_groups (row_group_counts readers) bind_data.files.length
                { parallel_state with row_group_index := parallel_state.row_group_index + 1 } := by
        simp only [remaining_row_groups]
        rw [file_row_groups_cons (row_group_counts readers) _ _
          (by simp only [row_group_counts]; rw [← hcurrent]; exact hc)]
        rfl
      rw [hrest] at hcalls ⊢
      simp only [List.length_cons] at hcalls
      simp only [parallel_assignments, hnext]
      rw [ih _ { parallel_state with row_group_index := parallel_state.row_group_index + 1 }
        hcurrent (by omega)]
      simp only [List.map_cons, InitializeScan, hcurrent]
    · have hrest : remaining_row_groups (row_group_counts readers) bind_data.files.length
            parallel_state
          = files_row_groups (row_group_counts readers) (parallel_state.file_index + 1)
              bind_data.files.length := by
        simp only [remaining_row_groups]
        rw [file_row_groups_nil (row_group_counts readers) _ _
          (by simp only [row_group_counts]; rw [← hcurrent]; exact hc)]
        rfl
      have hnext : parquet_parallel_state_next context bind_data scan_data parallel_state
          = parquet_parallel_state_next_loop context bind_data (bind_data.files.length + 1)
              scan_data parallel_state := by
        simp only [parquet_parallel_state_next, if_neg hc]
      rw [hrest] at hcalls ⊢
      rcases parquet_parallel_state_next_loop_spec context bind_data readers hopen
          (bind_data.files.length + 1) scan_data parallel_state (by omega) hcurrent with
        ⟨sd, ps, hloop, hnil⟩ | ⟨sd, ps, hloop, hrg, hreader, _, hsd, hgroups, hcons⟩
      · simp only [parallel_assignments, hnext, hloop, hnil, List.map_nil]
      · rw [hcons] at hcalls ⊢
        simp only [List.length_cons] at hcalls
        have hrem : remaining_row_groups (row_group_counts readers) bind_data.files.length ps
            = file_row_groups (row_group_counts readers) ps.file_index 1
              ++ files_row_groups (row_group_counts readers) (ps.file_index + 1)
                bind_data.files.length := by
          simp only [remaining_row_groups, hrg]
        rw [← hrem] at hcalls ⊢
        simp only [parallel_assignments, hnext, hloop]
        rw [ih sd ps hreader (by omega)]
        simp [hgroups, hsd]

theorem example_files_open_as :
    files_open_as example_context_validating example_bind_data example_readers := by
  refine ⟨rfl, ?_⟩
  intro i h1 h2
  have h3 : i < 4 := h2
  have h : i = 1 ∨ i = 2 ∨ i = 3 := by omega
  rcases h with rfl | rfl | rfl <;> rfl

/-- C1: from the state `parquet_init_parallel_state` builds, for a FileSet of at least one
file whose files have arbitrary readers, and so arbitrary row-group counts, the calls of
`parquet_parallel_state_next` up to the first that returns false (any number of calls
above the number of row groups reaches it) hand out exactly the sequence
`files_row_groups`, one row group per assignment, each with the reader of its file handed
to the cursor; that sequence holds `(f, g)` exactly when `g` is a row group of file `f`,
holds nothing twice, and is strictly ascending in the lexicographic order on (file index,
group index).  The later files are opened the way the scheduler opens them: each with the
column types of the reader before it. -/
theorem parallel_assignments_complete (context : ClientContext)
    (bind_data : ParquetReadBindData) (readers : Nat → ParquetReader)
    (scan_data : ParquetReadOperatorData)
    (hsize : 1 ≤ bind_data.files.length)
    (hopen : files_open_as context bind_data readers) :
    (∀ calls,
      (files_row_groups (row_group_counts readers) 0 bind_data.files.length).length < calls →
      parallel_assignments context bind_data calls scan_data
          (parquet_init_parallel_state bind_data)
        = some ((files_row_groups (row_group_counts readers) 0 bind_data.files.length).map
            (fun a => (a.1, readers a.1, [a.2])))) ∧
      (∀ f g, (f, g) ∈ files_row_groups (row_group_counts readers) 0 bind_data.files.length
        ↔ f < bind_data.files.length ∧ g < (readers f).NumRowGroups) ∧
      (files_row_groups (row_group_counts readers) 0 bind_data.files.length).Nodup ∧
      (files_row_groups (row_group_counts readers) 0 bind_data.files.length).Pairwise
        assignment_lt := by
  have hinit : remaining_row_groups (row_group_counts readers) bind_data.files.length
      (parquet_init_parallel_state bind_data)
      = files_row_groups (row_group_counts readers) 0 bind_data.files.length := by
    rw [files_row_groups_cons _ 0 _ (by omega)]
    rfl
  refine ⟨?_, ?_, nodup_files_row_groups _ 0 _, pairwise_files_row_groups _ 0 _⟩
  · intro calls hcalls
    rw [← hinit] at hcalls ⊢
    exact parallel_assignments_spec context bind_data readers hopen calls scan_data
      (parquet_init_parallel_state bind_data) hopen.1.symm hcalls
  · intro f g
    rw [mem_files_row_groups]
    constructor
    · rintro ⟨⟨_, h⟩, h2⟩
      exact ⟨h, h2⟩
    · rintro ⟨h, h2⟩
      exact ⟨⟨Nat.zero_le f, h⟩, h2⟩

/-- C1 (witness): the four example files with 2, 0, 3 and 0 row groups, opened by a reader
that validates the expected column types. -/
theorem parallel_assignments_complete_witness :
    parallel_assignments example_context_validating example_bind_data 6 default
        (parquet_init_parallel_state example_bind_data)
      = some [(0, example_reader "a.parquet" 2 20 (some ⟨1, 20, false⟩), [0]),
              (0, example_reader "a.parquet" 2 20 (some ⟨1, 20, false⟩), [1]),
              (2, example_reader "c.parquet" 3 30 (some ⟨21, 50, false⟩), [0]),
              (2, example_reader "c.parquet" 3 30 (some ⟨21, 50, false⟩), [1]),
              (2, example_reader "c.parquet" 3 30 (some ⟨21, 50, false⟩), [2])] :=
  (parallel_assignments_complete example_context_validating example_bind_data example_readers
    default (by decide) example_files_open_as).1 6 (by decide)

/-! ### Statistics -/

theorem getD_drop_one (files : List String) (i : Nat) :
    (files.drop 1).getD i "" = files.getD (i + 1) "" := by
  cases files with
  | nil => simp
  | cons first rest => simp

theorem getD_mem_drop_one (files : List String) (i : Nat) (h1 : 1 ≤ i) (h2 : i < files.length) :
    files.getD i "" ∈ files.drop 1 := by
  cases files with
  | nil => simp at h2
  | cons first rest =>
    obtain ⟨j, rfl⟩ : ∃ j, i = j + 1 := ⟨i - 1, by omega⟩
    have hj : j < rest.length := by simpa using h2
    simp only [List.drop_succ_cons, List.drop_zero, List.getD_cons_succ]
    rw [List.getD_eq_getElem rest "" hj]
    exact List.getElem_mem hj

theorem mem_drop_one (files : List String) (file : String) (h : file ∈ files.drop 1) :
    ∃ j, 1 ≤ j ∧ j < files.length ∧ files.getD j "" = file := by
  obtain ⟨k, hk, heq⟩ := List.getElem_of_mem h
  have hlen : k + 1 < files.length := by
    simp only [List.length_drop] at hk
    omega
  refine ⟨k + 1, by omega, hlen, ?_⟩
  rw [← getD_drop_one, List.getD_eq_getElem _ _ hk]
  exact heq

theorem modified_at_unique (context : ClientContext) (file_name : String) (a b : Int)
    (ha : modified_at context file_name a) (hb : modified_at context file_name b) : a = b := by
  obtain ⟨h1, hopen1, htime1⟩ := ha
  obtain ⟨h2, hopen2, htime2⟩ := hb
  rw [hopen1] at hopen2
  cases hopen2
  rw [htime1] at htime2
  cases htime2
  rfl

theorem parquet_scan_stats_loop_none (context : ClientContext)
    (bind_data : ParquetReadBindData) (column_index : Nat) :
    ∀ (files : List String) (i : Nat) (overall_stats : BaseStatistics),
      i < files.length →
      (∀ j, j ≤ i → file_examined context (files.getD j "")) →
      without_usable_statistics context bind_data column_index (files.getD i "") →
      parquet_scan_stats_loop context bind_data column_index files overall_stats
        = .ok none := by
  intro files
  induction files with
  | nil =>
    intro i _ h
    simp at h
  | cons file_name rest ih =>
    intro i overall_stats hi hexamined hbad
    obtain ⟨handle, hopen, htime⟩ := hexamined 0 (Nat.zero_le i)
    simp only [List.getD_cons_zero] at hopen htime
    simp only [parquet_scan_stats_loop, hopen]
    cases hget : context.ObjectCacheGet file_name with
    | none => rfl
    | some metadata =>
      obtain ⟨time, ht⟩ := htime (by rw [hget]; rfl)
      simp only [ht]
      by_cases hstale : time ≥ metadata.read_time
      · rw [if_pos hstale]
      · rw [if_neg hstale]
        cases hread : context.ReadStatistics
            (bind_data.initial_reader.return_types.getD column_index LogicalType.INVALID)
            column_index metadata.metadata with
        | none => rfl
        | some file_stats =>
          simp only
          cases i with
          | zero =>
            simp only [List.getD_cons_zero] at hbad
            rcases hbad metadata time hget ⟨handle, hopen, ht⟩ with h | h
            · exact absurd h hstale
            · rw [hread] at h
              cases h
          | succ k =>
            apply ih k
            · simpa using hi
            · intro j hj
              have := hexamined (j + 1) (by omega)
              simpa using this
            · simpa using hbad

theorem parquet_scan_stats_loop_not_some (context : ClientContext)
    (bind_data : ParquetReadBindData) (column_index : Nat) :
    ∀ (files : List String) (overall_stats : BaseStatistics),
      (∃ file_name, file_name ∈ files ∧
        without_usable_statistics context bind_data column_index file_name) →
      ∀ stats, parquet_scan_stats_loop context bind_data column_index files overall_stats
        ≠ .ok (some stats) := by
  intro files
  induction files with
  | nil =>
    rintro _ ⟨_, hmem, _⟩
    simp at hmem
  | cons file_name rest ih =>
    intro overall_stats hex stats
    simp only [parquet_scan_stats_loop]
    cases hopen : context.OpenFile file_name with
    | error e =>
      intro h
      cases h
    | ok handle =>
      simp only
      cases hget : context.ObjectCacheGet file_name with
      | none =>
        intro h
        cases h
      | some metadata =>
        simp only
        cases ht : context.GetLastModifiedTime handle with
        | error e =>
          intro h
          cases h
        | ok time =>
          simp only
          by_cases hstale : time ≥ metadata.read_time
          · rw [if_pos hstale]
            intro h
            cases h
          · rw [if_neg hstale]
            cases hread : context.ReadStatistics
                (bind_data.initial_reader.return_types.getD column_index LogicalType.INVALID)
                column_index metadata.metadata with
            | none =>
              intro h
              cases h
            | some file_stats =>
              simp only
              apply ih
              obtain ⟨f, hmem, hbad⟩ := hex
              rcases List.mem_cons.mp hmem with rfl | hrest
              · rcases hbad metadata time hget ⟨handle, hopen, ht⟩ with h | h
                · exact absurd h hstale
                · rw [hread] at h
                  cases h
              · exact ⟨f, hrest, hbad⟩

theorem parquet_scan_stats_loop_congr (context other : ClientContext)
    (bind_data : ParquetReadBindData) (column_index : Nat)
    (hread : other.ReadStatistics = context.ReadStatistics)
    (hmerge : other.Merge = context.Merge)
    (htime : other.GetLastModifiedTime = context.GetLastModifiedTime) :
    ∀ (files : List String) (overall_stats : BaseStatistics),
      (∀ file_name, file_name ∈ files →
        other.ObjectCacheGet file_name = context.ObjectCacheGet file_name ∧
        other.OpenFile file_name = context.OpenFile file_name) →
      parquet_scan_stats_loop other bind_data column_index files overall_stats
        = parquet_scan_stats_loop context bind_data column_index files overall_stats := by
  intro files
  induction files with
  | nil =>
    intro _ _
    rfl
  | cons file_name rest ih =>
    intro overall_stats hsame
    obtain ⟨hget, hopen⟩ := hsame file_name (List.mem_cons_self _ _)
    simp only [parquet_scan_stats_loop, hget, hopen, hread, hmerge, htime]
    have hrest := fun stats => ih stats (fun f hf => hsame f (List.mem_cons_of_mem _ hf))
    simp only [hrest]

theorem parquet_scan_stats_none (context : ClientContext) (bind_data : ParquetReadBindData)
    (column_index : Nat) (i : Nat) (h1 : 1 ≤ i) (h2 : i < bind_data.files.length)
    (hexamined : ∀ j, 1 ≤ j → j ≤ i → file_examined context (bind_data.files.getD j ""))
    (hbad : without_usable_statistics context bind_data column_index
      (bind_data.files.getD i "")) :
    parquet_scan_stats context bind_data column_index = .ok none := by
  obtain ⟨k, rfl⟩ : ∃ k, i = k + 1 := ⟨i - 1, by omega⟩
  simp only [parquet_scan_stats]
  split
  · rfl
  · split
    · rfl
    · rw [if_neg (by omega)]
      split
      · refine parquet_scan_stats_loop_none context bind_data column_index _ k _ ?_ ?_ ?_
        · simp only [List.length_drop]
          omega
        · intro j hj
          rw [getD_drop_one]
          exact hexamined (j + 1) (by omega) (by omega)
        · rw [getD_drop_one]
          exact hbad
      · rfl

theorem parquet_scan_stats_not_some (context : ClientContext)
    (bind_data : ParquetReadBindData) (column_index : Nat) (i : Nat) (h1 : 1 ≤ i)
    (h2 : i < bind_data.files.length)
    (hbad : without_usable_statistics context bind_data column_index
      (bind_data.files.getD i "")) :
    ∀ stats, parquet_scan_stats context bind_data column_index ≠ .ok (some stats) := by
  intro stats
  simp only [parquet_scan_stats]
  split
  · intro h
    cases h
  · split
    · intro h
      cases h
    · rw [if_neg (by omega)]
      split
      · exact parquet_scan_stats_loop_not_some context bind_data column_index _ _
          ⟨_, getD_mem_drop_one bind_data.files i h1 h2, hbad⟩ stats
      · intro h
        cases h

theorem without_usable_statistics_of_stale (context : ClientContext)
    (bind_data : ParquetReadBindData) (column_index : Nat) (file_name : String)
    (h : missing_or_stale context file_name) :
    without_usable_statistics context bind_data column_index file_name :=
  fun metadata time hget htime => Or.inl (h metadata time hget htime)

/-- C3 (counterexample): two files, the first one without a cache entry, the second with a
fresh entry: the statistics are the merge of both files, not unavailable. -/
theorem stats_first_file_uncached_counterexample :
    example_two_files.files.length = 2 ∧
      example_context.ObjectCacheGet (example_two_files.files.getD 0 "") = none ∧
      parquet_scan_stats example_context example_two_files 0
        = .ok (some { min := 1, max := 50, has_null := false }) := by
  decide

/-- C3 (amended): for a FileSet of two or more files and every column index, if a file
other than the first (index 1 and up) has no entry in the metadata cache or a stale one,
`parquet_scan_stats` returns unavailable when the file-system calls of the loop for the
files from index 1 up to that file return normally, and in no case statistics, so never a
partial merge (what is left is an exception of the file system).  The first file is not
looked up: two contexts that agree on the cache entries and the opening of the files at
index 1 and up give the same result. -/
theorem stats_unavailable_when_later_file_unusable (context : ClientContext)
    (bind_data : ParquetReadBindData) (column_index : Nat) (i : Nat)
    (hfiles : 2 ≤ bind_data.files.length) (h1 : 1 ≤ i) (h2 : i < bind_data.files.length)
    (hstale : missing_or_stale context (bind_data.files.getD i "")) :
    ((∀ j, 1 ≤ j → j ≤ i → file_examined context (bind_data.files.getD j "")) →
      parquet_scan_stats context bind_data column_index = .ok none) ∧
    (∀ stats, parquet_scan_stats context bind_data column_index ≠ .ok (some stats)) ∧
    (∀ other : ClientContext,
      other.ReadStatistics = context.ReadStatistics → other.Merge = context.Merge →
      other.object_cache_enable = context.object_cache_enable →
      other.GetLastModifiedTime = context.GetLastModifiedTime →
      (∀ j, 1 ≤ j → j < bind_data.files.length →
        other.ObjectCacheGet (bind_data.files.getD j "")
            = context.ObjectCacheGet (bind_data.files.getD j "") ∧
          other.OpenFile (bind_data.files.getD j "")
            = context.OpenFile (bind_data.files.getD j "")) →
      parquet_scan_stats other bind_data column_index
        = parquet_scan_stats context bind_data column_index) := by
  refine ⟨?_, ?_, ?_⟩
  · intro hexamined
    exact parquet_scan_stats_none context bind_data column_index i h1 h2 hexamined
      (without_usable_statistics_of_stale context bind_data column_index _ hstale)
  · exact parquet_scan_stats_not_some context bind_data column_index i h1 h2
      (without_usable_statistics_of_stale context bind_data column_index _ hstale)
  · intro other hread hmerge henabled htime hsame
    have hloop : ∀ overall_stats,
        parquet_scan_stats_loop other bind_data column_index (bind_data.files.drop 1)
            overall_stats
          = parquet_scan_stats_loop context bind_data column_index (bind_data.files.drop 1)
            overall_stats := by
      intro overall_stats
      apply parquet_scan_stats_loop_congr context other bind_data column_index hread hmerge
        htime
      intro file_name hmem
      obtain ⟨j, hj1, hj2, heq⟩ := mem_drop_one bind_data.files file_name hmem
      rw [← heq]
      exact hsame j hj1 hj2
    simp only [parquet_scan_stats, hread, henabled, hloop]

/-- C3 (witness): in the scan of `c.parquet` and `a.parquet` the second file can be opened
and has no cache entry. -/
theorem stats_unavailable_when_later_file_unusable_witness :
    parquet_scan_stats example_context example_two_files_reversed 0 = .ok none :=
  (stats_unavailable_when_later_file_unusable example_context example_two_files_reversed 0 1
    (by decide) (by decide) (by decide)
    (fun metadata _ h _ => by
      have hnone : example_context.ObjectCacheGet
          (example_two_files_reversed.files.getD 1 "") = none := by decide
      rw [hnone] at h
      cases h)).1
    (fun j hj1 hj2 => by
      have hj : j = 1 := by omega
      subst hj
      exact ⟨{ path := "a.parquet" }, rfl, fun h => absurd h (by decide)⟩)

/-- C4: for a FileSet of exactly one file and a column index of the bound schema (an index
below the column count, which is a `column_t` value itself), `parquet_scan_stats` returns
what `ReadStatistics` yields for that column, with the column's type, on the metadata of
the first file's reader, also when it yields nothing; the object cache, the file system,
the modification times and `Merge` do not occur in the result. -/
theorem stats_single_file (context : ClientContext) (bind_data : ParquetReadBindData)
    (column_index : Nat) (hfiles : bind_data.files.length = 1)
    (hcolumns : bind_data.initial_reader.return_types.length < 2 ^ 64)
    (hschema : column_index < bind_data.initial_reader.return_types.length) :
    parquet_scan_stats context bind_data column_index
      = .ok (context.ReadStatistics
          (bind_data.initial_reader.return_types.get ⟨column_index, hschema⟩)
          column_index bind_data.initial_reader.metadata) := by
  have hrow : column_index ≠ COLUMN_IDENTIFIER_ROW_ID := by
    simp only [COLUMN_IDENTIFIER_ROW_ID]
    omega
  have htype : bind_data.initial_reader.return_types.getD column_index LogicalType.INVALID
      = bind_data.initial_reader.return_types.get ⟨column_index, hschema⟩ := by
    rw [List.getD_eq_getElem _ _ hschema]
    rfl
  simp only [parquet_scan_stats, if_neg hrow, htype]
  split
  · next h => rw [h]
  · next stats h => rw [h, if_pos (by omega)]

/-- C4 (witness): the scan of `a.parquet` alone, column 0. -/
theorem stats_single_file_witness :
    parquet_scan_stats example_context example_one_file 0
      = .ok (some { min := 1, max := 20, has_null := false }) :=
  stats_single_file example_context example_one_file 0 rfl (by decide) (by decide)

/-! ### Bind of a scan -/

theorem occurs_in_middle (before part after : String) :
    occurs_in part (before ++ part ++ after) := by
  refine ⟨before.data, after.data, ?_⟩
  simp [String.data_append]

theorem occurs_in_end (before part : String) : occurs_in part (before ++ part) := by
  refine ⟨before.data, [], ?_⟩
  simp [String.data_append]

theorem parquet_scan_bind_spec (context : ClientContext) (pattern : String) :
    (context.Glob pattern = [] →
      parquet_scan_bind context [Value.varchar pattern]
        = .error { type := ExceptionType.IO_EXCEPTION, message := no_files_message pattern }) ∧
    (∀ reader, context.Glob pattern ≠ [] →
      context.OpenReader ((context.Glob pattern).getD 0 "") [] "" = .ok reader →
      parquet_scan_bind context [Value.varchar pattern]
        = .ok ({ initial_reader := reader, files := context.Glob pattern, column_ids := [] },
            reader.return_types, reader.names)) := by
  constructor
  · intro h
    simp [parquet_scan_bind, Value.ToString, h, no_files_message]
  · intro reader h hreader
    have hne : (context.Glob pattern).isEmpty = false := by
      cases hg : context.Glob pattern with
      | nil => exact absurd hg h
      | cons _ _ => rfl
    simp only [parquet_scan_bind, List.getD_cons_zero, Value.ToString, hne, hreader,
      Bool.false_eq_true, if_false]

theorem parquet_read_bind_spec (context : ClientContext) (pattern : String)
    (expected_names : List String) (expected_types : List LogicalType) :
    (context.Glob pattern = [] →
      parquet_read_bind context { file_path := pattern, options := [] } expected_names
          expected_types
        = .error { type := ExceptionType.IO_EXCEPTION, message := no_files_message pattern }) ∧
    (∀ reader, context.Glob pattern ≠ [] →
      context.OpenReader ((context.Glob pattern).getD 0 "") expected_types "" = .ok reader →
      parquet_read_bind context { file_path := pattern, options := [] } expected_names
          expected_types
        = .ok { initial_reader := reader, files := context.Glob pattern, column_ids := [] }) := by
  constructor
  · intro h
    simp [parquet_read_bind, h, no_files_message]
  · intro reader h hreader
    have hne : (context.Glob pattern).isEmpty = false := by
      cases hg : context.Glob pattern with
      | nil => exact absurd hg h
      | cons _ _ => rfl
    simp only [parquet_read_bind, hne, hreader, Bool.false_eq_true, if_false]

/-- C5 (counterexample): `parquet_read_bind` on a COPY with an option fails although the
pattern matches four files and the first of them can be opened; the error does not name
the pattern. -/
theorem read_bind_option_counterexample :
    example_context.Glob "*.parquet"
        = ["a.parquet", "b.parquet", "c.parquet", "d.parquet"] ∧
      example_context.OpenReader "a.parquet" [LogicalType.BIGINT] ""
        = .ok (example_reader "a.parquet" 2 20 (some ⟨1, 20, false⟩)) ∧
      parquet_read_bind example_context
          { file_path := "*.parquet", options := [("header", [Value.bigint 1])] } ["i"]
          [LogicalType.BIGINT]
        = .error { type := ExceptionType.NOT_IMPLEMENTED,
                   message := "Unsupported option for COPY FROM parquet: header" } := by
  decide

/-- C5 (amended): for every path pattern, given that the first file of a non-empty Glob
result can be opened (by each bind with the expected types it passes: none for
`parquet_scan_bind`, the ones of the COPY for `parquet_read_bind`), `parquet_scan_bind`
and `parquet_read_bind` on a COPY without options fail exactly when the Glob of the
pattern is empty; the error is then the IOException whose message contains the literal
pattern; on success the bound file list is the Glob result in the same order and is
non-empty.  On a COPY with an option `parquet_read_bind` fails with the
NotImplementedException that names the first option, in every context and for every
pattern, so whatever the Glob is. -/
theorem bind_fails_iff_glob_empty (context : ClientContext) (pattern : String)
    (expected_names : List String) (expected_types : List LogicalType)
    (hopen_scan : context.Glob pattern ≠ [] → ∃ reader,
      context.OpenReader ((context.Glob pattern).getD 0 "") [] "" = .ok reader)
    (hopen_read : context.Glob pattern ≠ [] → ∃ reader,
      context.OpenReader ((context.Glob pattern).getD 0 "") expected_types "" = .ok reader) :
    ((∃ e, parquet_scan_bind context [Value.varchar pattern] = .error e)
        ↔ context.Glob pattern = []) ∧
      ((∃ e, parquet_read_bind context { file_path := pattern, options := [] } expected_names
          expected_types = .error e) ↔ context.Glob pattern = []) ∧
      (∀ e, (parquet_scan_bind context [Value.varchar pattern] = .error e ∨
          parquet_read_bind context { file_path := pattern, options := [] } expected_names
            expected_types = .error e) →
        e = { type := ExceptionType.IO_EXCEPTION, message := no_files_message pattern } ∧
          occurs_in pattern e.message) ∧
      (∀ result, parquet_scan_bind context [Value.varchar pattern] = .ok result →
        result.1.files = context.Glob pattern ∧ result.1.files ≠ []) ∧
      (∀ result, parquet_read_bind context { file_path := pattern, options := [] }
          expected_names expected_types = .ok result →
        result.files = context.Glob pattern ∧ result.files ≠ []) ∧
      (∀ (other : ClientContext) (path : String) (option : String × List Value)
          (rest : List (String × List Value)) (names : List String)
          (types : List LogicalType),
        parquet_read_bind other { file_path := path, options := option :: rest } names types
          = .error { type := ExceptionType.NOT_IMPLEMENTED,
                     message := "Unsupported option for COPY FROM parquet: " ++ option.1 }) := by
  have hoptions : ∀ (other : ClientContext) (path : String) (option : String × List Value)
      (rest : List (String × List Value)) (names : List String) (types : List LogicalType),
      parquet_read_bind other { file_path := path, options := option :: rest } names types
        = .error { type := ExceptionType.NOT_IMPLEMENTED,
                   message := "Unsupported option for COPY FROM parquet: " ++ option.1 } :=
    fun _ _ _ _ _ _ => rfl
  have hscan := parquet_scan_bind_spec context pattern
  have hread := parquet_read_bind_spec context pattern expected_names expected_types
  have hocc : occurs_in pattern (no_files_message pattern) :=
    occurs_in_middle "No files found that match the pattern \"" pattern "\""
  by_cases hglob : context.Glob pattern = []
  · have h1 := hscan.1 hglob
    have h2 := hread.1 hglob
    refine ⟨⟨fun _ => hglob, fun _ => ⟨_, h1⟩⟩, ⟨fun _ => hglob, fun _ => ⟨_, h2⟩⟩, ?_, ?_, ?_,
      hoptions⟩
    · rintro e (he | he)
      · rw [h1] at he
        cases he
        exact ⟨rfl, hocc⟩
      · rw [h2] at he
        cases he
        exact ⟨rfl, hocc⟩
    · intro result hr
      rw [h1] at hr
      cases hr
    · intro result hr
      rw [h2] at hr
      cases hr
  · obtain ⟨reader1, hreader1⟩ := hopen_scan hglob
    obtain ⟨reader2, hreader2⟩ := hopen_read hglob
    have h1 := hscan.2 reader1 hglob hreader1
    have h2 := hread.2 reader2 hglob hreader2
    refine ⟨⟨?_, fun h => absurd h hglob⟩, ⟨?_, fun h => absurd h hglob⟩, ?_, ?_, ?_,
      hoptions⟩
    · rintro ⟨e, he⟩
      rw [h1] at he
      cases he
    · rintro ⟨e, he⟩
      rw [h2] at he
      cases he
    · rintro e (he | he)
      · rw [h1] at he
        cases he
      · rw [h2] at he
        cases he
    · intro result hr
      rw [h1] at hr
      cases hr
      exact ⟨rfl, hglob⟩
    · intro result hr
      rw [h2] at hr
      cases hr
      exact ⟨rfl, hglob⟩

theorem example_glob_opens (pattern : String) (types : List LogicalType)
    (htypes : types = [] ∨ types = [LogicalType.BIGINT]) :
    example_context_validating.Glob pattern ≠ [] → ∃ reader,
      example_context_validating.OpenReader
          ((example_context_validating.Glob pattern).getD 0 "") types ""
        = .ok reader := by
  intro h
  by_cases h1 : pattern = "*.parquet"
  · subst h1
    rcases htypes with rfl | rfl <;> exact ⟨_, rfl⟩
  · by_cases h2 : pattern = "a.parquet"
    · subst h2
      rcases htypes with rfl | rfl <;> exact ⟨_, rfl⟩
    · exact absurd (by simp [example_context_validating, example_context, h1, h2]) h

/-- C5 (witness): the pattern `*.parquet` in the example context with the validating
reader (a Glob of four files) and the pattern `*.csv` (an empty Glob). -/
theorem bind_fails_iff_glob_empty_witness :
    (∀ result,
        parquet_scan_bind example_context_validating [Value.varchar "*.parquet"] = .ok result →
        result.1.files = example_context_validating.Glob "*.parquet" ∧ result.1.files ≠ []) ∧
      ((∃ e, parquet_scan_bind example_context_validating [Value.varchar "*.csv"] = .error e)
        ↔ example_context_validating.Glob "*.csv" = []) :=
  ⟨(bind_fails_iff_glob_empty example_context_validating "*.parquet" ["i"]
      [LogicalType.BIGINT]
      (example_glob_opens "*.parquet" [] (Or.inl rfl))
      (example_glob_opens "*.parquet" [LogicalType.BIGINT] (Or.inr rfl))).2.2.2.1,
    (bind_fails_iff_glob_empty example_context_validating "*.csv" ["i"] [LogicalType.BIGINT]
      (example_glob_opens "*.csv" [] (Or.inl rfl))
      (example_glob_opens "*.csv" [LogicalType.BIGINT] (Or.inr rfl))).1⟩

/-! ### Bind of a write -/

theorem parquet_write_bind_loop_bad_key (option : String × List Value)
    (rest : List (String × List Value)) (bind_data : ParquetWriteBindData)
    (hkey : ¬ is_codec_key option.1) :
    parquet_write_bind_loop (option :: rest) bind_data
      = .error (unrecognized_option_exception option.1) := by
  simp only [is_codec_key] at hkey
  simp only [parquet_write_bind_loop]
  rw [if_neg hkey]
  rfl

theorem parquet_write_bind_loop_bad_value (option : String × List Value)
    (rest : List (String × List Value)) (bind_data : ParquetWriteBindData)
    (hkey : is_codec_key option.1) (hvalue : recognized_codec option.2 = none) :
    parquet_write_bind_loop (option :: rest) bind_data
      = .error (codec_exception (StringUtil.Lower option.1)) := by
  obtain ⟨key, values⟩ := option
  simp only [is_codec_key] at hkey
  simp only [parquet_write_bind_loop]
  rw [if_pos hkey]
  cases values with
  | nil => simp
  | cons value more =>
    simp only [recognized_codec] at hvalue
    simp only [List.length_cons, gt_iff_lt, Nat.zero_lt_succ, if_true, List.getD_cons_zero]
    split_ifs at hvalue with h1 h2 h3 h4
    rw [if_neg h1, if_neg h2, if_neg h3, if_neg h4]

theorem parquet_write_bind_loop_valid (option : String × List Value)
    (rest : List (String × List Value)) (bind_data : ParquetWriteBindData)
    (hvalid : valid_codec_option option) :
    parquet_write_bind_loop (option :: rest) bind_data
      = parquet_write_bind_loop rest
          { bind_data with codec := (recognized_codec option.2).getD bind_data.codec } := by
  obtain ⟨key, values⟩ := option
  obtain ⟨hkey, hsome⟩ := hvalid
  simp only [is_codec_key] at hkey
  simp only [parquet_write_bind_loop]
  rw [if_pos hkey]
  cases values with
  | nil => simp [recognized_codec] at hsome
  | cons value more =>
    simp only [recognized_codec] at hsome ⊢
    simp only [List.length_cons, gt_iff_lt, Nat.zero_lt_succ, if_true, List.getD_cons_zero]
    split_ifs at hsome ⊢ <;> first | rfl | simp at hsome

theorem parquet_write_bind_loop_valid_prefix (before : List (String × List Value)) :
    ∀ (rest : List (String × List Value)) (bind_data : ParquetWriteBindData),
      (∀ p, p ∈ before → valid_codec_option p) →
      parquet_write_bind_loop (before ++ rest) bind_data
        = parquet_write_bind_loop rest
            { bind_data with codec := last_codec bind_data.codec before } := by
  induction before with
  | nil => intro rest bind_data _; rfl
  | cons option more ih =>
    intro rest bind_data hvalid
    rw [List.cons_append, parquet_write_bind_loop_valid option _ bind_data
      (hvalid option (List.mem_cons_self _ _)),
      ih rest _ (fun p hp => hvalid p (List.mem_cons_of_mem _ hp))]
    rfl

theorem parquet_write_bind_loop_fails (options : List (String × List Value)) :
    ∀ (bind_data : ParquetWriteBindData),
      (∃ o, o ∈ options ∧ ¬ is_codec_key o.1) →
      ∃ e, parquet_write_bind_loop options bind_data = .error e := by
  induction options with
  | nil =>
    rintro _ ⟨_, hmem, _⟩
    simp at hmem
  | cons option rest ih =>
    rintro bind_data ⟨o, hmem, hkey⟩
    by_cases hk : is_codec_key option.1
    · cases hv : recognized_codec option.2 with
      | none => exact ⟨_, parquet_write_bind_loop_bad_value option rest bind_data hk hv⟩
      | some c =>
        rw [parquet_write_bind_loop_valid option rest bind_data ⟨hk, by simp [hv]⟩]
        apply ih
        rcases List.mem_cons.mp hmem with rfl | hrest
        · exact absurd hk hkey
        · exact ⟨o, hrest, hkey⟩
    · exact ⟨_, parquet_write_bind_loop_bad_key option rest bind_data hk⟩

/-- C6 (counterexample): with a compression option `snappy` and a codec option `gzip` the
bound codec is the one of the option visited last, in either order, so it is not the
codec of the other option; and an unrecognized codec value after an unknown option does
not produce the error that lists the codecs. -/
theorem write_bind_codec_counterexample :
    parquet_write_bind
        { file_path := "out.parquet",
          options := [("compression", [Value.varchar "snappy"]),
                      ("codec", [Value.varchar "gzip"])] } ["i"] [LogicalType.BIGINT]
      = .ok { sql_types := [LogicalType.BIGINT], file_name := "out.parquet",
              column_names := ["i"], codec := CompressionCodec.GZIP } ∧
    parquet_write_bind
        { file_path := "out.parquet",
          options := [("codec", [Value.varchar "gzip"]),
                      ("compression", [Value.varchar "snappy"])] } ["i"] [LogicalType.BIGINT]
      = .ok { sql_types := [LogicalType.BIGINT], file_name := "out.parquet",
              column_names := ["i"], codec := CompressionCodec.SNAPPY } ∧
    parquet_write_bind
        { file_path := "out.parquet",
          options := [("header", [Value.bigint 1]),
                      ("codec", [Value.varchar "lz4"])] } ["i"] [LogicalType.BIGINT]
      = .error { type := ExceptionType.NOT_IMPLEMENTED,
                 message := "Unrecognized option for PARQUET: header" } := by
  decide

/-- C6 (amended): `parquet_write_bind` visits the options in iteration order and compares
the lower-cased value.  For a compression/codec option reached after valid options only:
if its value is one of the four tokens `uncompressed`, `snappy`, `gzip`, `zstd`, and only
valid options follow, bind succeeds and the bound codec is the one of the last option (so
the one of this option when it is the last); for any other value, and for an option
without a value, bind fails with the ParserException whose message lists the four valid
codecs, and no bind result is produced. -/
theorem write_bind_codec (path : String) (names : List String) (sql_types : List LogicalType)
    (before : List (String × List Value)) (option : String × List Value)
    (after : List (String × List Value))
    (hbefore : ∀ p, p ∈ before → valid_codec_option p) (hkey : is_codec_key option.1) :
    (∀ c, recognized_codec option.2 = some c → (∀ p, p ∈ after → valid_codec_option p) →
      parquet_write_bind { file_path := path, options := before ++ option :: after } names
          sql_types
        = .ok { sql_types := sql_types, file_name := path, column_names := names,
                codec := last_codec c after }) ∧
    (recognized_codec option.2 = none →
      parquet_write_bind { file_path := path, options := before ++ option :: after } names
          sql_types
        = .error { type := ExceptionType.PARSER,
                   message := "Expected " ++ StringUtil.Lower option.1
                     ++ " argument to be either [uncompressed, snappy, gzip or zstd]" } ∧
      occurs_in "[uncompressed, snappy, gzip or zstd]"
        (codec_exception (StringUtil.Lower option.1)).message) := by
  constructor
  · intro c hc hafter
    have hall : ∀ p, p ∈ before ++ option :: after → valid_codec_option p := by
      intro p hp
      rcases List.mem_append.mp hp with h | h
      · exact hbefore p h
      · rcases List.mem_cons.mp h with rfl | h
        · exact ⟨hkey, by simp [hc]⟩
        · exact hafter p h
    have hloop := parquet_write_bind_loop_valid_prefix (before ++ option :: after) []
      { sql_types := [], file_name := "", column_names := [],
        codec := CompressionCodec.SNAPPY } hall
    rw [List.append_nil] at hloop
    have hlast : ∀ (l : List (String × List Value)) (c0 : CompressionCodec),
        last_codec c0 (l ++ option :: after) = last_codec c after := by
      intro l
      induction l with
      | nil => intro c0; simp [last_codec, hc]
      | cons x xs ih => intro c0; simpa [last_codec] using ih _
    simp only [parquet_write_bind, hloop, parquet_write_bind_loop, hlast]
  · intro hnone
    refine ⟨?_, ("Expected " ++ StringUtil.Lower option.1 ++ " argument to be either ").data,
      [], ?_⟩
    swap
    · simp only [codec_exception, String.data_append, List.append_nil, List.append_assoc]
      rfl
    have hloop := parquet_write_bind_loop_valid_prefix before (option :: after)
      { sql_types := [], file_name := "", column_names := [],
        codec := CompressionCodec.SNAPPY } hbefore
    simp only [parquet_write_bind, hloop,
      parquet_write_bind_loop_bad_value option after _ hkey hnone]
    rfl

/-- C6 (witness): `compression gzip` followed by `codec lz4`, and by `codec ZSTD`. -/
theorem write_bind_codec_witness :
    parquet_write_bind
        { file_path := "out.parquet",
          options := [("compression", [Value.varchar "gzip"])]
            ++ ("codec", [Value.varchar "ZSTD"]) :: [] } ["i"] [LogicalType.BIGINT]
      = .ok { sql_types := [LogicalType.BIGINT], file_name := "out.parquet",
              column_names := ["i"], codec := CompressionCodec.ZSTD } ∧
    parquet_write_bind
        { file_path := "out.parquet",
          options := [("compression", [Value.varchar "gzip"])]
            ++ ("codec", [Value.varchar "lz4"]) :: [] } ["i"] [LogicalType.BIGINT]
      = .error { type := ExceptionType.PARSER,
                 message := "Expected codec argument to be either "
                   ++ "[uncompressed, snappy, gzip or zstd]" } :=
  ⟨(write_bind_codec "out.parquet" ["i"] [LogicalType.BIGINT]
      [("compression", [Value.varchar "gzip"])] ("codec", [Value.varchar "ZSTD"]) []
      (by decide) (by decide)).1 CompressionCodec.ZSTD (by decide) (by decide),
   ((write_bind_codec "out.parquet" ["i"] [LogicalType.BIGINT]
      [("compression", [Value.varchar "gzip"])] ("codec", [Value.varchar "lz4"]) []
      (by decide) (by decide)).2 (by decide)).1⟩

/-- C7 (counterexample): the option `header` is neither compression nor codec, yet bind
fails with the codec error of the option visited before it, not with the error that names
`header`. -/
theorem write_bind_unrecognized_key_counterexample :
    parquet_write_bind
        { file_path := "out.parquet",
          options := [("codec", [Value.varchar "lz4"]),
                      ("header", [Value.bigint 1])] } ["i"] [LogicalType.BIGINT]
      = .error { type := ExceptionType.PARSER,
                 message := "Expected codec argument to be either "
                   ++ "[uncompressed, snappy, gzip or zstd]" } := by
  decide

/-- C7 (amended): `parquet_write_bind` fails whenever some option key is, after
lower-casing, neither `compression` nor `codec`, and succeeds only if every key is one of
the two; when such an option is reached after valid options only, the failure is the
NotImplementedException `Unrecognized option for PARQUET` naming the key. -/
theorem write_bind_unrecognized_key (path : String) (names : List String)
    (sql_types : List LogicalType) (options : List (String × List Value)) :
    ((∃ o, o ∈ options ∧ ¬ is_codec_key o.1) →
      ∃ e, parquet_write_bind { file_path := path, options := options } names sql_types
        = .error e) ∧
    (∀ result, parquet_write_bind { file_path := path, options := options } names sql_types
        = .ok result → ∀ o, o ∈ options → is_codec_key o.1) ∧
    (∀ before option after, options = before ++ option :: after →
      (∀ p, p ∈ before → valid_codec_option p) → ¬ is_codec_key option.1 →
      parquet_write_bind { file_path := path, options := options } names sql_types
        = .error { type := ExceptionType.NOT_IMPLEMENTED,
                   message := "Unrecognized option for PARQUET: " ++ option.1 } ∧
      occurs_in option.1 (unrecognized_option_exception option.1).message) := by
  have hfail : (∃ o, o ∈ options ∧ ¬ is_codec_key o.1) →
      ∃ e, parquet_write_bind { file_path := path, options := options } names sql_types
        = .error e := by
    intro hex
    obtain ⟨e, he⟩ := parquet_write_bind_loop_fails options
      { sql_types := [], file_name := "", column_names := [],
        codec := CompressionCodec.SNAPPY } hex
    exact ⟨e, by simp only [parquet_write_bind, he]⟩
  refine ⟨hfail, ?_, ?_⟩
  · intro result hresult o ho
    by_contra hkey
    obtain ⟨e, he⟩ := hfail ⟨o, ho, hkey⟩
    rw [he] at hresult
    cases hresult
  · intro before option after hoptions hbefore hkey
    subst hoptions
    refine ⟨?_, occurs_in_end _ _⟩
    have hloop := parquet_write_bind_loop_valid_prefix before (option :: after)
      { sql_types := [], file_name := "", column_names := [],
        codec := CompressionCodec.SNAPPY } hbefore
    simp only [parquet_write_bind, hloop,
      parquet_write_bind_loop_bad_key option after _ hkey]
    rfl

/-- C7 (witness): `compression gzip` followed by the option `header`. -/
theorem write_bind_unrecognized_key_witness :
    (∃ e, parquet_write_bind
        { file_path := "out.parquet",
          options := [("compression", [Value.varchar "gzip"]), ("header", [Value.bigint 1])] }
        ["i"] [LogicalType.BIGINT] = .error e) ∧
    parquet_write_bind
        { file_path := "out.parquet",
          options := [("compression", [Value.varchar "gzip"]), ("header", [Value.bigint 1])] }
        ["i"] [LogicalType.BIGINT]
      = .error { type := ExceptionType.NOT_IMPLEMENTED,
                 message := "Unrecognized option for PARQUET: header" } :=
  ⟨(write_bind_unrecognized_key "out.parquet" ["i"] [LogicalType.BIGINT]
      [("compression", [Value.varchar "gzip"]), ("header", [Value.bigint 1])]).1
      ⟨("header", [Value.bigint 1]), by decide, by decide⟩,
   ((write_bind_unrecognized_key "out.parquet" ["i"] [LogicalType.BIGINT]
      [("compression", [Value.varchar "gzip"]), ("header", [Value.bigint 1])]).2.2
      [("compression", [Value.varchar "gzip"])] ("header", [Value.bigint 1]) [] rfl
      (by decide) (by decide)).1⟩

/-! ### Scan function -/

theorem parquet_scan_function_loop_parallel (context : ClientContext)
    (bind_data : ParquetReadBindData) (fuel : Nat) (data : ParquetReadOperatorData)
    (hparallel : data.is_parallel = true) :
    parquet_scan_function_loop context bind_data (fuel + 1) data
      = .ok ({ data with scan_state := (context.Scan data.reader data.scan_state).1 },
          (context.Scan data.reader data.scan_state).2) := by
  simp only [parquet_scan_function_loop]
  rw [if_neg (by simp [hparallel])]

theorem parquet_scan_function_loop_empty (context : ClientContext)
    (bind_data : ParquetReadBindData) :
    ∀ (fuel : Nat) (data result : ParquetReadOperatorData) (output : DataChunk),
      data.is_parallel = false →
      parquet_scan_function_loop context bind_data fuel data = .ok (result, output) →
      output.size = 0 →
      (context.Scan data.reader data.scan_state).2.size = 0 ∧
        ¬ (result.file_index + 1 < bind_data.files.length) ∧
        data.file_index ≤ result.file_index ∧
        ∀ i, data.file_index < i → i < bind_data.files.length →
          file_scan_is_empty context bind_data data i := by
  intro fuel
  induction fuel with
  | zero =>
    intro data result output _ h _
    simp [parquet_scan_function_loop] at h
  | succ fuel ih =>
    intro data result output hserial h hout
    simp only [parquet_scan_function_loop] at h
    by_cases hc : (context.Scan data.reader data.scan_state).2.size = 0 ∧ data.is_parallel = false
    · rw [if_pos hc] at h
      by_cases hnext : data.file_index + 1 < bind_data.files.length
      · rw [if_pos hnext] at h
        cases hopen : context.OpenReader (bind_data.files.getD (data.file_index + 1) "")
            data.reader.return_types (bind_data.files.getD 0 "") with
        | error e =>
          rw [hopen] at h
          cases h
        | ok reader =>
          rw [hopen] at h
          simp only at h
          obtain ⟨hscan, hlast, hle, hall⟩ := ih
            { data with
                file_index := data.file_index + 1,
                reader := reader,
                scan_state := InitializeScan reader data.column_ids
                  (List.range reader.NumRowGroups) data.table_filters }
            result output hserial h hout
          have hle2 : data.file_index + 1 ≤ result.file_index := hle
          refine ⟨hc.1, hlast, by omega, ?_⟩
          intro i hi1 hi2
          by_cases hi : i = data.file_index + 1
          · subst hi
            exact ⟨data.reader.return_types, reader, hopen, hscan⟩
          · have hlt : data.file_index + 1 < i := by omega
            exact hall i hlt hi2
      · rw [if_neg hnext] at h
        simp only [Except.ok.injEq, Prod.mk.injEq] at h
        obtain ⟨hresult, _⟩ := h
        subst hresult
        refine ⟨hc.1, hnext, Nat.le_refl _, ?_⟩
        intro i hi1 hi2
        exact absurd hi2 (by omega)
    · rw [if_neg hc] at h
      simp only [Except.ok.injEq, Prod.mk.injEq] at h
      obtain ⟨_, houtput⟩ := h
      subst houtput
      exact absurd ⟨hout, hserial⟩ hc

theorem parquet_scan_function_loop_returns (context : ClientContext)
    (bind_data : ParquetReadBindData)
    (hopen : ∀ i, i < bind_data.files.length → ∀ types initial, ∃ reader,
      context.OpenReader (bind_data.files.getD i "") types initial = .ok reader) :
    ∀ (fuel : Nat) (data : ParquetReadOperatorData),
      bind_data.files.length - (data.file_index + 1) < fuel →
      ∃ result output,
        parquet_scan_function_loop context bind_data fuel data = .ok (result, output) := by
  intro fuel
  induction fuel with
  | zero => intro _ h; omega
  | succ fuel ih =>
    intro data hfuel
    simp only [parquet_scan_function_loop]
    by_cases hc : (context.Scan data.reader data.scan_state).2.size = 0 ∧ data.is_parallel = false
    · rw [if_pos hc]
      by_cases hnext : data.file_index + 1 < bind_data.files.length
      · rw [if_pos hnext]
        obtain ⟨reader, hreader⟩ := hopen (data.file_index + 1) hnext
          data.reader.return_types (bind_data.files.getD 0 "")
        rw [hreader]
        exact ih _ (by simp only; omega)
      · rw [if_neg hnext]
        exact ⟨_, _, rfl⟩
    · rw [if_neg hc]
      exact ⟨_, _, rfl⟩

/-- C10 (counterexample): a parallel cursor whose row group is scanned to the end gets an
empty output batch from `parquet_scan_function`, while the scheduler still hands out
row group 1 of `a.parquet` on the next request. -/
theorem parallel_scan_empty_counterexample :
    (parquet_scan_function example_context example_bind_data example_parallel_cursor).map
        (fun r => r.2.size) = .ok 0 ∧
      (parquet_parallel_state_next example_context example_bind_data example_parallel_cursor
        example_parallel_state).map (fun r => (r.1, r.2.1.scan_state.group_idx_list,
          r.2.2.file_index))
        = .ok (true, [1], 0) := by
  decide

/-- C10 (amended): `parquet_scan_function` returns whenever the files can be opened.  For a
single-threaded cursor it leaves the output batch empty only when the scan of the current
reader has yielded zero rows, every file of the FileSet after the current one has been
opened and its scan has yielded zero rows, and the cursor stands at the last file.  For a
parallel cursor the output batch is the one Scan yields on the cursor's current
assignment, empty or not: the function does not consult the Scheduler. -/
theorem scan_function_empty_output (context : ClientContext) (bind_data : ParquetReadBindData)
    (data : ParquetReadOperatorData) :
    ((∀ i, i < bind_data.files.length → ∀ types initial, ∃ reader,
        context.OpenReader (bind_data.files.getD i "") types initial = .ok reader) →
      ∃ result output, parquet_scan_function context bind_data data = .ok (result, output)) ∧
    (data.is_parallel = false → ∀ result output,
      parquet_scan_function context bind_data data = .ok (result, output) →
      output.size = 0 →
      (context.Scan data.reader data.scan_state).2.size = 0 ∧
        ¬ (result.file_index + 1 < bind_data.files.length) ∧
        ∀ i, data.file_index < i → i < bind_data.files.length →
          file_scan_is_empty context bind_data data i) ∧
    (data.is_parallel = true →
      parquet_scan_function context bind_data data
        = .ok ({ data with scan_state := (context.Scan data.reader data.scan_state).1 },
            (context.Scan data.reader data.scan_state).2)) := by
  refine ⟨?_, ?_, ?_⟩
  · intro hopen
    exact parquet_scan_function_loop_returns context bind_data hopen _ data (by omega)
  · intro hserial result output h hout
    obtain ⟨h1, h2, _, h4⟩ := parquet_scan_function_loop_empty context bind_data _ data result
      output hserial h hout
    exact ⟨h1, h2, h4⟩
  · intro hparallel
    exact parquet_scan_function_loop_parallel context bind_data _ data hparallel

theorem example_files_open :
    ∀ i, i < example_bind_data.files.length → ∀ (types : List LogicalType) (initial : String),
      ∃ reader, example_context.OpenReader (example_bind_data.files.getD i "") types initial
        = .ok reader := by
  intro i hi types initial
  have h4 : i < 4 := hi
  have h : i = 0 ∨ i = 1 ∨ i = 2 ∨ i = 3 := by omega
  rcases h with rfl | rfl | rfl | rfl <;> exact ⟨_, rfl⟩

/-- C10 (witness): the single-threaded example cursor at the end of `c.parquet`; the one
file after it, `d.parquet`, has no row group, and the output batch is empty. -/
theorem scan_function_empty_output_witness :
    (∃ result output, parquet_scan_function example_context example_bind_data
        example_serial_cursor = .ok (result, output)) ∧
    (example_context.Scan example_serial_cursor.reader
        example_serial_cursor.scan_state).2.size = 0 ∧
      file_scan_is_empty example_context example_bind_data example_serial_cursor 3 :=
  ⟨(scan_function_empty_output example_context example_bind_data example_serial_cursor).1
      example_files_open,
   ((scan_function_empty_output example_context example_bind_data example_serial_cursor).2.1
      rfl
      { example_serial_cursor with
          file_index := 3,
          reader := example_reader "d.parquet" 0 0 none,
          scan_state := { group_idx_list := [], column_ids := [0], table_filters := none,
                          position := 1 } }
      { data := [] } (by decide) rfl).1,
   ((scan_function_empty_output example_context example_bind_data example_serial_cursor).2.1
      rfl
      { example_serial_cursor with
          file_index := 3,
          reader := example_reader "d.parquet" 0 0 none,
          scan_state := { group_idx_list := [], column_ids := [0], table_filters := none,
                          position := 1 } }
      { data := [] } (by decide) rfl).2.2 3 (by decide) (by decide)⟩

/-! ### Cardinality and degree of parallelism -/

theorem mul_le_total_row_groups (counts : Nat → Nat) (c : Nat) :
    ∀ n, (∀ i, i < n → c ≤ counts i) → c * n ≤ total_row_groups counts n := by
  intro n
  induction n with
  | zero => intro _; simp [total_row_groups]
  | succ n ih =>
    intro h
    have h1 := ih (fun i hi => h i (by omega))
    have h2 := h n (by omega)
    simp only [total_row_groups, List.range_succ, List.map_append, List.sum_append,
      List.map_cons, List.map_nil, List.sum_cons, List.sum_nil] at h1 ⊢
    rw [Nat.mul_succ]
    omega

/-- C11 (counterexample): the example scan has 2 + 0 + 3 + 0 = 5 row groups in its four
files, and `parquet_max_threads` reports 8. -/
theorem max_threads_exceeds_total_counterexample :
    example_bind_data.files.map
        (fun f => (example_context.OpenReader f [] "").map ParquetReader.NumRowGroups)
      = [.ok 2, .ok 0, .ok 3, .ok 0] ∧
    example_bind_data.initial_reader.NumRowGroups = 2 ∧
    total_row_groups example_counts example_bind_data.files.length = 5 ∧
    parquet_max_threads example_context example_bind_data = 8 := by
  decide

/-- C11 (amended): `parquet_max_threads` is the row-group count of the first file times
the number of files, as an `idx_t` product; it is at most the total number of row groups
of the FileSet when no file has fewer row groups than the first one, and for a FileSet of
one file with one row group it is exactly 1. -/
theorem max_threads_bound (context : ClientContext) (bind_data : ParquetReadBindData)
    (counts : Nat → Nat) (hfirst : bind_data.initial_reader.NumRowGroups = counts 0) :
    parquet_max_threads context bind_data
        = (counts 0 * bind_data.files.length) % 2 ^ 64 ∧
      ((∀ i, i < bind_data.files.length → counts 0 ≤ counts i) →
        parquet_max_threads context bind_data
          ≤ total_row_groups counts bind_data.files.length) ∧
      (bind_data.files.length = 1 → counts 0 = 1 →
        parquet_max_threads context bind_data = 1) := by
  refine ⟨by simp only [parquet_max_threads, hfirst], ?_, ?_⟩
  · intro hmin
    have h := mul_le_total_row_groups counts (counts 0) bind_data.files.length hmin
    simp only [parquet_max_threads, hfirst]
    exact Nat.le_trans (Nat.mod_le _ _) h
  · intro h1 h2
    simp only [parquet_max_threads, hfirst, h1, h2]
    decide

/-- C11 (witness): the scan of `a.parquet` and `c.parquet` (2 and 3 row groups) reports
4 threads for 5 row groups. -/
theorem max_threads_bound_witness :
    parquet_max_threads example_context example_two_files
      ≤ total_row_groups (fun i => [2, 3].getD i 0) example_two_files.files.length :=
  (max_threads_bound example_context example_two_files (fun i => [2, 3].getD i 0) rfl).2.1
    (by decide)

/-- C12: `parquet_cardinality` is the total row count of the first file times the number
of files, computed modulo 2^64; the context, through which the other files are read, does
not enter the result, so the row counts of the other files do not matter. -/
theorem cardinality_is_first_file_times_files (context : ClientContext)
    (bind_data : ParquetReadBindData) :
    parquet_cardinality context bind_data
        = (bind_data.initial_reader.NumRows * bind_data.files.length) % 2 ^ 64 ∧
      parquet_cardinality context bind_data < 2 ^ 64 ∧
      (∀ other_context : ClientContext,
        parquet_cardinality other_context bind_data = parquet_cardinality context bind_data) ∧
      (∀ other : ParquetReadBindData,
        other.initial_reader.NumRows = bind_data.initial_reader.NumRows →
        other.files.length = bind_data.files.length →
        parquet_cardinality context other = parquet_cardinality context bind_data) := by
  refine ⟨rfl, Nat.mod_lt _ (by decide), fun _ => rfl, ?_⟩
  intro other h1 h2
  simp only [parquet_cardinality, h1, h2]

/-- C12 (witness): the example scan of four files, whose first file has 20 rows, is
estimated at 80 rows, as is a scan of four other files after the same first file. -/
theorem cardinality_is_first_file_times_files_witness :
    parquet_cardinality example_context example_bind_data = 80 ∧
      parquet_cardinality example_context
          { example_bind_data with files := ["a.parquet", "x.parquet", "y.parquet", "z.parquet"] }
        = parquet_cardinality example_context example_bind_data :=
  ⟨(cardinality_is_first_file_times_files example_context example_bind_data).1,
   (cardinality_is_first_file_times_files example_context example_bind_data).2.2.2
      { example_bind_data with files := ["a.parquet", "x.parquet", "y.parquet", "z.parquet"] }
      rfl rfl⟩

/-! ### Scheduler invariant -/

theorem reachable_of_parallel_state_after (context : ClientContext)
    (bind_data : ParquetReadBindData) :
    ∀ (calls : Nat) (scan_data : ParquetReadOperatorData)
      (parallel_state result_state : ParquetReadParallelState),
      SchedulerReachable context bind_data parallel_state →
      parallel_state_after context bind_data calls scan_data parallel_state = some result_state →
      SchedulerReachable context bind_data result_state := by
  intro calls
  induction calls with
  | zero =>
    intro scan_data parallel_state result_state hreach h
    simp only [parallel_state_after, Option.some.injEq] at h
    exact h ▸ hreach
  | succ calls ih =>
    intro scan_data parallel_state result_state hreach h
    simp only [parallel_state_after] at h
    cases hnext : parquet_parallel_state_next context bind_data scan_data parallel_state with
    | error e =>
      rw [hnext] at h
      cases h
    | ok r =>
      obtain ⟨found, sd, ps⟩ := r
      rw [hnext] at h
      exact ih sd ps result_state
        (SchedulerReachable.next scan_data sd parallel_state ps found hreach hnext) h

theorem parquet_parallel_state_next_loop_state (context : ClientContext)
    (bind_data : ParquetReadBindData) :
    ∀ (fuel : Nat) (scan_data result_data : ParquetReadOperatorData)
      (parallel_state result_state : ParquetReadParallelState) (found : Bool),
      parquet_parallel_state_next_loop context bind_data fuel scan_data parallel_state
        = .ok (found, result_data, result_state) →
      (found = true → result_state.row_group_index = 1 ∧
        1 ≤ result_state.current_reader.NumRowGroups) ∧
      (found = false → result_state.row_group_index = parallel_state.row_group_index ∧
        (result_state = parallel_state ∨ result_state.current_reader.NumRowGroups = 0)) := by
  intro fuel
  induction fuel with
  | zero =>
    intro scan_data result_data parallel_state result_state found h
    simp [parquet_parallel_state_next_loop] at h
  | succ fuel ih =>
    intro scan_data result_data parallel_state result_state found h
    simp only [parquet_parallel_state_next_loop] at h
    by_cases hc : parallel_state.file_index + 1 < bind_data.files.length
    · rw [if_pos hc] at h
      cases hopen : context.OpenReader (bind_data.files.getD (parallel_state.file_index + 1) "")
          parallel_state.current_reader.return_types "" with
      | error e =>
        rw [hopen] at h
        cases h
      | ok reader =>
        rw [hopen] at h
        simp only at h
        by_cases hz : reader.NumRowGroups = 0
        · rw [if_pos hz] at h
          obtain ⟨h1, h2⟩ := ih scan_data result_data
            { parallel_state with
                file_index := parallel_state.file_index + 1, current_reader := reader }
            result_state found h
          refine ⟨h1, ?_⟩
          intro hfound
          obtain ⟨h3, h4⟩ := h2 hfound
          refine ⟨h3, Or.inr ?_⟩
          rcases h4 with h4 | h4
          · rw [h4]
            exact hz
          · exact h4
        · rw [if_neg hz] at h
          simp only [Except.ok.injEq, Prod.mk.injEq] at h
          obtain ⟨hf, _, hs⟩ := h
          subst hf hs
          have hpos : 1 ≤ reader.NumRowGroups := by omega
          exact ⟨fun _ => ⟨rfl, hpos⟩, fun hfalse => Bool.noConfusion hfalse⟩
    · rw [if_neg hc] at h
      simp only [Except.ok.injEq, Prod.mk.injEq] at h
      obtain ⟨hf, _, hs⟩ := h
      subst hf hs
      exact ⟨fun htrue => Bool.noConfusion htrue, fun _ => ⟨rfl, Or.inl rfl⟩⟩

/-- C15 (counterexample): in the example scan (2, 0, 3 and 0 row groups) the state after
six calls of `parquet_parallel_state_next` is reachable; its current reader is the one of
the last file, which has no row group, and its next row-group index is still 3. -/
theorem scheduler_index_exceeds_count_counterexample :
    SchedulerReachable example_context example_bind_data
        { current_reader := example_reader "d.parquet" 0 0 none, file_index := 3,
          row_group_index := 3 } ∧
      ¬ ((3 : Nat) ≤ (example_reader "d.parquet" 0 0 none).NumRowGroups) :=
  ⟨reachable_of_parallel_state_after example_context example_bind_data 6 default
      (parquet_init_parallel_state example_bind_data) _ SchedulerReachable.init (by decide),
    by decide⟩

/-- C15 (amended): in every scheduler state reachable from `parquet_init_parallel_state`
by calls of `parquet_parallel_state_next`, the next row-group index is at most the
row-group count of the current reader, or the current reader is a file without row groups
(one the scheduler skipped to without finding a later file with row groups; the index
then keeps its value). -/
theorem scheduler_index_bound (context : ClientContext) (bind_data : ParquetReadBindData)
    (parallel_state : ParquetReadParallelState)
    (hreach : SchedulerReachable context bind_data parallel_state) :
    parallel_state.row_group_index ≤ parallel_state.current_reader.NumRowGroups ∨
      parallel_state.current_reader.NumRowGroups = 0 := by
  induction hreach with
  | init => exact Or.inl (Nat.zero_le _)
  | next scan_data result_data ps result_state found _ hnext ih =>
    simp only [parquet_parallel_state_next] at hnext
    by_cases hc : ps.row_group_index < ps.current_reader.NumRowGroups
    · rw [if_pos hc] at hnext
      simp only [Except.ok.injEq, Prod.mk.injEq] at hnext
      obtain ⟨_, _, hs⟩ := hnext
      subst hs
      exact Or.inl hc
    · rw [if_neg hc] at hnext
      obtain ⟨h1, h2⟩ := parquet_parallel_state_next_loop_state context bind_data _ _ _ _ _ _
        hnext
      cases found with
      | true =>
        obtain ⟨h3, h4⟩ := h1 rfl
        exact Or.inl (by omega)
      | false =>
        obtain ⟨_, h4⟩ := h2 rfl
        rcases h4 with h4 | h4
        · rw [h4]
          exact ih
        · exact Or.inr h4

/-- C15 (witness): the state of the example scan after two calls. -/
theorem scheduler_index_bound_witness :
    (2 : Nat) ≤ (example_reader "a.parquet" 2 20 (some ⟨1, 20, false⟩)).NumRowGroups ∨
      (example_reader "a.parquet" 2 20 (some ⟨1, 20, false⟩)).NumRowGroups = 0 :=
  scheduler_index_bound example_context example_bind_data
    { current_reader := example_reader "a.parquet" 2 20 (some ⟨1, 20, false⟩),
      file_index := 0, row_group_index := 2 }
    (reachable_of_parallel_state_after example_context example_bind_data 2 default
      (parquet_init_parallel_state example_bind_data) _ SchedulerReachable.init (by decide))

/-! ### Statistics: stale entries, merge, failed extraction -/

theorem parquet_scan_stats_loop_merged (context : ClientContext)
    (bind_data : ParquetReadBindData) (column_index : Nat) :
    ∀ (files : List String) (rest_stats : List BaseStatistics) (overall_stats : BaseStatistics),
      List.Forall₂ (fresh_with_statistics context bind_data column_index) files rest_stats →
      parquet_scan_stats_loop context bind_data column_index files overall_stats
        = .ok (some (rest_stats.foldl context.Merge overall_stats)) := by
  intro files rest_stats overall_stats h
  induction h generalizing overall_stats with
  | nil => rfl
  | cons hhead _ ih =>
    obtain ⟨metadata, time, hget, ⟨handle, hopen, htime⟩, hfresh, hread⟩ := hhead
    simp only [stats_column_type] at hread
    simp only [parquet_scan_stats_loop, hopen, hget, htime, hread, List.foldl_cons]
    rw [if_neg (by omega)]
    exact ih _

theorem file_examined_of_fresh (context : ClientContext) (bind_data : ParquetReadBindData)
    (column_index : Nat) (file_name : String) (stats : BaseStatistics)
    (h : fresh_with_statistics context bind_data column_index file_name stats) :
    file_examined context file_name := by
  obtain ⟨_, time, _, ⟨handle, hopen, htime⟩, _, _⟩ := h
  exact ⟨handle, hopen, fun _ => ⟨time, htime⟩⟩

/-- C16 (counterexample): `c.parquet` and `a.parquet`, the second without a cache entry and
removed since the bind: `parquet_scan_stats` does not return unavailable, it fails with
the exception of `OpenFile`. -/
theorem stats_unopenable_file_counterexample :
    example_two_files_reversed.files.length = 2 ∧
      example_context_unreadable.ObjectCacheGet (example_two_files_reversed.files.getD 1 "")
        = none ∧
      parquet_scan_stats example_context_unreadable example_two_files_reversed 0
        = .error { type := ExceptionType.IO_EXCEPTION,
                   message := "Cannot open file a.parquet" } := by
  decide

/-- C16 (amended): for a FileSet with a file at an index 1 or up (so one of two or more
files), if that file has no metadata cache entry, or has one while its modification time is
greater than or equal to the entry's read time, `parquet_scan_stats` returns unavailable
for every column index when the file-system calls of the loop for the files from index 1
up to that file return normally (`OpenFile` on each, which the loop calls before it
tests the cache entry, and the modification-time query on each that has an entry); a
modification time equal to the read time, and one a second later, count as stale.  In no
case does it return statistics.  When `OpenFile` throws on the second file, the cache
being enabled and the first file having statistics for a column other than the row id,
`parquet_scan_stats` fails with that exception. -/
theorem stats_unavailable_when_stale (context : ClientContext) (bind_data : ParquetReadBindData)
    (i : Nat) (h1 : 1 ≤ i) (h2 : i < bind_data.files.length) :
    ((∀ j, 1 ≤ j → j ≤ i → file_examined context (bind_data.files.getD j "")) →
      (context.ObjectCacheGet (bind_data.files.getD i "") = none →
        ∀ column_index, parquet_scan_stats context bind_data column_index = .ok none) ∧
      (∀ metadata time, context.ObjectCacheGet (bind_data.files.getD i "") = some metadata →
        modified_at context (bind_data.files.getD i "") time → time ≥ metadata.read_time →
        ∀ column_index, parquet_scan_stats context bind_data column_index = .ok none) ∧
      (∀ metadata time, context.ObjectCacheGet (bind_data.files.getD i "") = some metadata →
        modified_at context (bind_data.files.getD i "") time → time = metadata.read_time →
        ∀ column_index, parquet_scan_stats context bind_data column_index = .ok none) ∧
      (∀ metadata time, context.ObjectCacheGet (bind_data.files.getD i "") = some metadata →
        modified_at context (bind_data.files.getD i "") time → time = metadata.read_time + 1 →
        ∀ column_index, parquet_scan_stats context bind_data column_index = .ok none)) ∧
    (missing_or_stale context (bind_data.files.getD i "") →
      ∀ column_index stats,
        parquet_scan_stats context bind_data column_index ≠ .ok (some stats)) ∧
    (∀ e column_index first_stats, context.object_cache_enable = true →
      column_index ≠ COLUMN_IDENTIFIER_ROW_ID →
      context.ReadStatistics (stats_column_type bind_data column_index) column_index
        bind_data.initial_reader.metadata = some first_stats →
      context.OpenFile (bind_data.files.getD 1 "") = .error e →
      parquet_scan_stats context bind_data column_index = .error e) := by
  refine ⟨?_, ?_, ?_⟩
  · intro hexamined
    have hstale : ∀ metadata time,
        context.ObjectCacheGet (bind_data.files.getD i "") = some metadata →
        modified_at context (bind_data.files.getD i "") time → time ≥ metadata.read_time →
        ∀ column_index, parquet_scan_stats context bind_data column_index = .ok none := by
      intro metadata time hget htime hge column_index
      refine parquet_scan_stats_none context bind_data column_index i h1 h2 hexamined ?_
      intro other_metadata other_time hother hother_time
      rw [hget] at hother
      cases hother
      rw [modified_at_unique context _ _ _ hother_time htime]
      exact Or.inl hge
    refine ⟨?_, hstale, ?_, ?_⟩
    · intro hnone column_index
      refine parquet_scan_stats_none context bind_data column_index i h1 h2 hexamined ?_
      intro other hother_time hother
      rw [hnone] at hother
      cases hother
    · intro metadata time hget htime heq
      exact hstale metadata time hget htime (by omega)
    · intro metadata time hget htime heq
      exact hstale metadata time hget htime (by omega)
  · intro hstale column_index
    exact parquet_scan_stats_not_some context bind_data column_index i h1 h2
      (without_usable_statistics_of_stale context bind_data column_index _ hstale)
  · intro e column_index first_stats henabled hrow hfirst hopen
    simp only [stats_column_type] at hfirst
    simp only [parquet_scan_stats, if_neg hrow, hfirst]
    rw [if_neg (by omega), if_pos henabled]
    cases hfiles : bind_data.files with
    | nil =>
      rw [hfiles] at h2
      simp at h2
    | cons first rest =>
      cases rest with
      | nil =>
        rw [hfiles] at h2
        simp at h2
        omega
      | cons second rest =>
        rw [hfiles] at hopen
        simp only [List.getD_cons_succ, List.getD_cons_zero] at hopen
        simp only [List.drop_succ_cons, List.drop_zero, parquet_scan_stats_loop, hopen]

/-- C16 (witness): `a.parquet` and `c.parquet`, the cache entry of `c.parquet` read at
time 100 and the file modified at 101. -/
theorem stats_unavailable_when_stale_witness :
    parquet_scan_stats example_context_modified example_two_files 0 = .ok none :=
  ((stats_unavailable_when_stale example_context_modified example_two_files 1 (by decide)
    (by decide)).1
    (fun j hj1 hj2 => by
      have hj : j = 1 := by omega
      subst hj
      exact ⟨{ path := "c.parquet" }, rfl, fun _ => ⟨101, rfl⟩⟩)).2.2.2
    { metadata := { column_stats := [some ⟨21, 50, false⟩] }, read_time := 100 } 101 rfl
    ⟨{ path := "c.parquet" }, rfl, rfl⟩ rfl 0

/-- C17 (counterexample): both files have statistics and `c.parquet` has a fresh cache
entry, but the object cache is disabled in the configuration: the result is unavailable,
not the merged statistics. -/
theorem stats_cache_disabled_counterexample :
    example_two_files.files.length = 2 ∧
      example_context_cache_disabled.ReadStatistics LogicalType.BIGINT 0
          example_two_files.initial_reader.metadata = some ⟨1, 20, false⟩ ∧
      example_context_cache_disabled.ObjectCacheGet "c.parquet"
        = some { metadata := { column_stats := [some ⟨21, 50, false⟩] }, read_time := 100 } ∧
      example_context_cache_disabled.OpenFile "c.parquet" = .ok { path := "c.parquet" } ∧
      example_context_cache_disabled.GetLastModifiedTime { path := "c.parquet" } = .ok 50 ∧
      example_context_cache_disabled.ReadStatistics LogicalType.BIGINT 0
          { column_stats := [some ⟨21, 50, false⟩] } = some ⟨21, 50, false⟩ ∧
      parquet_scan_stats example_context_cache_disabled example_two_files 0 = .ok none := by
  decide

/-- C17 (amended): when the object cache is enabled, for a FileSet of two or more files
and a column index of the bound schema, if every file at index 1 and up has a cache entry
whose read time is strictly later than the file's modification time and statistics
extraction yields a value for every file, `parquet_scan_stats` returns the first file's
statistics merged, by successive `Merge` calls in FileSet order, with the statistics of
each remaining file, each extracted with the first file's column type. -/
theorem stats_merged_in_order (context : ClientContext) (bind_data : ParquetReadBindData)
    (column_index : Nat) (first_stats : BaseStatistics) (rest_stats : List BaseStatistics)
    (henabled : context.object_cache_enable = true)
    (hfiles : 2 ≤ bind_data.files.length)
    (hcolumns : bind_data.initial_reader.return_types.length < 2 ^ 64)
    (hschema : column_index < bind_data.initial_reader.return_types.length)
    (hfirst : context.ReadStatistics (stats_column_type bind_data column_index) column_index
      bind_data.initial_reader.metadata = some first_stats)
    (hrest : List.Forall₂ (fresh_with_statistics context bind_data column_index)
      (bind_data.files.drop 1) rest_stats) :
    parquet_scan_stats context bind_data column_index
        = .ok (some (rest_stats.foldl context.Merge first_stats)) ∧
      stats_column_type bind_data column_index
        = bind_data.initial_reader.return_types.get ⟨column_index, hschema⟩ := by
  have hrow : column_index ≠ COLUMN_IDENTIFIER_ROW_ID := by
    simp only [COLUMN_IDENTIFIER_ROW_ID]
    omega
  constructor
  · simp only [stats_column_type] at hfirst
    simp only [parquet_scan_stats, if_neg hrow, hfirst]
    rw [if_neg (by omega), if_pos henabled]
    exact parquet_scan_stats_loop_merged context bind_data column_index _ _ _ hrest
  · simp only [stats_column_type]
    rw [List.getD_eq_getElem _ _ hschema]
    rfl

/-- C17 (witness): `a.parquet` (values 1 to 20) and `c.parquet` (values 21 to 50, fresh
cache entry) merge to the range 1 to 50. -/
theorem stats_merged_in_order_witness :
    parquet_scan_stats example_context example_two_files 0
      = .ok (some { min := 1, max := 50, has_null := false }) :=
  (stats_merged_in_order example_context example_two_files 0 ⟨1, 20, false⟩
    [⟨21, 50, false⟩] rfl (by decide) (by decide) (by decide) rfl
    (List.Forall₂.cons
      ⟨{ metadata := { column_stats := [some ⟨21, 50, false⟩] }, read_time := 100 }, 50,
        rfl, ⟨{ path := "c.parquet" }, rfl, rfl⟩, by decide, rfl⟩
      List.Forall₂.nil)).1

/-- C18: for every FileSet and column index, if `ReadStatistics` yields nothing for the
first file, `parquet_scan_stats` returns unavailable; and if the merge loop reaches a
remaining file (every file from index 1 up to it is fresh and has statistics) that can be
opened and whose cache entry yields nothing, `parquet_scan_stats` returns unavailable, not
the statistics merged so far.  The same holds whenever the file-system calls of the loop
for the files from index 1 up to that file return normally. -/
theorem stats_unavailable_when_extraction_fails (context : ClientContext)
    (bind_data : ParquetReadBindData) (column_index : Nat) :
    (context.ReadStatistics (stats_column_type bind_data column_index) column_index
        bind_data.initial_reader.metadata = none →
      parquet_scan_stats context bind_data column_index = .ok none) ∧
    (∀ i, 1 ≤ i → i < bind_data.files.length →
      (∀ j, 1 ≤ j → j < i → ∃ stats,
        fresh_with_statistics context bind_data column_index (bind_data.files.getD j "")
          stats) →
      ∀ metadata time, context.ObjectCacheGet (bind_data.files.getD i "") = some metadata →
      modified_at context (bind_data.files.getD i "") time →
      context.ReadStatistics (stats_column_type bind_data column_index) column_index
        metadata.metadata = none →
      parquet_scan_stats context bind_data column_index = .ok none) ∧
    (∀ i, 1 ≤ i → i < bind_data.files.length →
      (∀ j, 1 ≤ j → j ≤ i → file_examined context (bind_data.files.getD j "")) →
      ∀ metadata, context.ObjectCacheGet (bind_data.files.getD i "") = some metadata →
      context.ReadStatistics (stats_column_type bind_data column_index) column_index
        metadata.metadata = none →
      parquet_scan_stats context bind_data column_index = .ok none) := by
  have hgeneral : ∀ i, 1 ≤ i → i < bind_data.files.length →
      (∀ j, 1 ≤ j → j ≤ i → file_examined context (bind_data.files.getD j "")) →
      ∀ metadata, context.ObjectCacheGet (bind_data.files.getD i "") = some metadata →
      context.ReadStatistics (stats_column_type bind_data column_index) column_index
        metadata.metadata = none →
      parquet_scan_stats context bind_data column_index = .ok none := by
    intro i h1 h2 hexamined metadata hget hnone
    refine parquet_scan_stats_none context bind_data column_index i h1 h2 hexamined ?_
    intro other _ hother _
    rw [hget] at hother
    cases hother
    exact Or.inr hnone
  refine ⟨?_, ?_, hgeneral⟩
  · intro hnone
    simp only [stats_column_type] at hnone
    simp only [parquet_scan_stats, hnone]
    split <;> rfl
  · intro i h1 h2 hreached metadata time hget htime hnone
    refine hgeneral i h1 h2 ?_ metadata hget hnone
    intro j hj1 hj2
    by_cases hj : j < i
    · obtain ⟨stats, hfresh⟩ := hreached j hj1 hj
      exact file_examined_of_fresh context bind_data column_index _ stats hfresh
    · have hji : j = i := by omega
      subst hji
      obtain ⟨handle, hopen, hhandle⟩ := htime
      exact ⟨handle, hopen, fun _ => ⟨time, hhandle⟩⟩

/-- C18 (witness): `a.parquet` and `c.parquet`, the fresh cache entry of `c.parquet`
without statistics for column 0; and a first file without statistics. -/
theorem stats_unavailable_when_extraction_fails_witness :
    parquet_scan_stats example_context_without_stats example_two_files 0 = .ok none ∧
      parquet_scan_stats example_context
          { example_two_files with initial_reader := example_reader "a.parquet" 2 20 none } 0
        = .ok none :=
  ⟨(stats_unavailable_when_extraction_fails example_context_without_stats example_two_files
      0).2.1 1 (by decide) (by decide)
      (fun j hj1 hj2 => absurd hj1 (by omega))
      { metadata := { column_stats := [none] }, read_time := 100 } 50 rfl
      ⟨{ path := "c.parquet" }, rfl, rfl⟩ rfl,
   (stats_unavailable_when_extraction_fails example_context
      { example_two_files with initial_reader := example_reader "a.parquet" 2 20 none } 0).1
      rfl⟩

/-! ### Scheduler: skipping empty files and completion -/

theorem parquet_parallel_state_next_loop_result (context : ClientContext)
    (bind_data : ParquetReadBindData) (readers : Nat → ParquetReader)
    (hopen : files_open_as context bind_data readers) :
    ∀ (fuel : Nat) (scan_data : ParquetReadOperatorData) (parallel_state : ParquetReadParallelState),
      bind_data.files.length - (parallel_state.file_index + 1) < fuel →
      parallel_state.current_reader = readers parallel_state.file_index →
      ((∃ result_state,
          parquet_parallel_state_next_loop context bind_data fuel scan_data parallel_state
            = .ok (false, scan_data, result_state) ∧
          result_state.current_reader = readers result_state.file_index) ∧
        ∀ j, parallel_state.file_index < j → j < bind_data.files.length →
          (readers j).NumRowGroups = 0) ∨
      (∃ f, parallel_state.file_index < f ∧ f < bind_data.files.length ∧
        (readers f).NumRowGroups ≠ 0 ∧
        (∀ j, parallel_state.file_index < j → j < f → (readers j).NumRowGroups = 0) ∧
        parquet_parallel_state_next_loop context bind_data fuel scan_data parallel_state
          = .ok (true,
              { scan_data with
                  reader := readers f,
                  scan_state := InitializeScan (readers f) scan_data.column_ids [0]
                    scan_data.table_filters },
              { current_reader := readers f, file_index := f, row_group_index := 1 })) := by
  intro fuel
  induction fuel with
  | zero => intro _ _ h; omega
  | succ fuel ih =>
    intro scan_data parallel_state hfuel hcurrent
    by_cases hc : parallel_state.file_index + 1 < bind_data.files.length
    · have hreader := files_open_as_next context bind_data readers hopen parallel_state
        hcurrent hc
      by_cases hz : (readers (parallel_state.file_index + 1)).NumRowGroups = 0
      · have hstep : parquet_parallel_state_next_loop context bind_data (fuel + 1) scan_data
            parallel_state
            = parquet_parallel_state_next_loop context bind_data fuel scan_data
                { parallel_state with
                    file_index := parallel_state.file_index + 1,
                    current_reader := readers (parallel_state.file_index + 1) } := by
          simp only [parquet_parallel_state_next_loop, if_pos hc, hreader, if_pos hz]
        have hzero : ∀ j, parallel_state.file_index < j → j < parallel_state.file_index + 2 →
            (readers j).NumRowGroups = 0 := by
          intro j hj1 hj2
          have hj : j = parallel_state.file_index + 1 := by omega
          rw [hj]
          exact hz
        rw [hstep]
        rcases ih scan_data
            { parallel_state with
                file_index := parallel_state.file_index + 1,
                current_reader := readers (parallel_state.file_index + 1) }
            (by simp only; omega) rfl with ⟨hfalse, hall⟩ | ⟨f, hf1, hf2, hf3, hf4, hf5⟩
        · left
          refine ⟨hfalse, ?_⟩
          intro j hj1 hj2
          by_cases hj : j < parallel_state.file_index + 2
          · exact hzero j hj1 hj
          · exact hall j (by simp only; omega) hj2
        · right
          have hf1' : parallel_state.file_index + 1 < f := hf1
          refine ⟨f, by omega, hf2, hf3, ?_, hf5⟩
          intro j hj1 hj2
          by_cases hj : j < parallel_state.file_index + 2
          · exact hzero j hj1 hj
          · exact hf4 j (by simp only; omega) hj2
      · right
        refine ⟨parallel_state.file_index + 1, by omega, hc, hz, ?_, ?_⟩
        · intro j hj1 hj2
          omega
        · simp only [parquet_parallel_state_next_loop, if_pos hc, hreader, if_neg hz]
    · left
      refine ⟨⟨parallel_state, ?_, hcurrent⟩, ?_⟩
      · simp only [parquet_parallel_state_next_loop, if_neg hc]
      · intro j hj1 hj2
        omega

theorem scheduler_reachable_current_reader (context : ClientContext)
    (bind_data : ParquetReadBindData) (readers : Nat → ParquetReader)
    (hopen : files_open_as context bind_data readers)
    (parallel_state : ParquetReadParallelState)
    (hreach : SchedulerReachable context bind_data parallel_state) :
    parallel_state.current_reader = readers parallel_state.file_index := by
  induction hreach with
  | init => exact hopen.1.symm
  | next scan_data result_data ps result_state found _ hnext ih =>
    simp only [parquet_parallel_state_next] at hnext
    by_cases hc : ps.row_group_index < ps.current_reader.NumRowGroups
    · rw [if_pos hc] at hnext
      simp only [Except.ok.injEq, Prod.mk.injEq] at hnext
      obtain ⟨_, _, hs⟩ := hnext
      subst hs
      exact ih
    · rw [if_neg hc] at hnext
      rcases parquet_parallel_state_next_loop_result context bind_data readers hopen
          (bind_data.files.length + 1) scan_data ps (by omega) ih with
        ⟨⟨state, hloop, hstate⟩, _⟩ | ⟨f, _, _, _, _, hloop⟩
      · rw [hloop] at hnext
        simp only [Except.ok.injEq, Prod.mk.injEq] at hnext
        obtain ⟨_, _, hs⟩ := hnext
        subst hs
        exact hstate
      · rw [hloop] at hnext
        simp only [Except.ok.injEq, Prod.mk.injEq] at hnext
        obtain ⟨_, _, hs⟩ := hnext
        subst hs
        rfl

/-- C19: in a reachable scheduler state whose current file has no unassigned row group,
when `f` is the first later file with a non-zero row-group count,
`parquet_parallel_state_next` returns true without an error, hands the cursor the reader of
file `f` initialised with the row group `[0]`, sets the file index to `f` and the next
row-group index to 1; the zero-row-group files before `f` get no assignment.  The later
files are opened the way the scheduler opens them: each with the column types of the
reader before it. -/
theorem next_skips_empty_files (context : ClientContext) (bind_data : ParquetReadBindData)
    (readers : Nat → ParquetReader) (scan_data : ParquetReadOperatorData)
    (parallel_state : ParquetReadParallelState) (f : Nat)
    (hopen : files_open_as context bind_data readers)
    (hreach : SchedulerReachable context bind_data parallel_state)
    (hdone : ¬ parallel_state.row_group_index < parallel_state.current_reader.NumRowGroups)
    (hlater : parallel_state.file_index < f) (hfile : f < bind_data.files.length)
    (hcount : (readers f).NumRowGroups ≠ 0)
    (hzero : ∀ j, parallel_state.file_index < j → j < f → (readers j).NumRowGroups = 0) :
    parquet_parallel_state_next context bind_data scan_data parallel_state
      = .ok (true,
          { scan_data with
              reader := readers f,
              scan_state := InitializeScan (readers f) scan_data.column_ids [0]
                scan_data.table_filters },
          { current_reader := readers f, file_index := f, row_group_index := 1 }) := by
  have hnext : parquet_parallel_state_next context bind_data scan_data parallel_state
      = parquet_parallel_state_next_loop context bind_data (bind_data.files.length + 1)
          scan_data parallel_state := by
    simp only [parquet_parallel_state_next, if_neg hdone]
  rcases parquet_parallel_state_next_loop_result context bind_data readers hopen
      (bind_data.files.length + 1) scan_data parallel_state (by omega)
      (scheduler_reachable_current_reader context bind_data readers hopen parallel_state
        hreach) with
    ⟨_, hall⟩ | ⟨g, hg1, hg2, hg3, hg4, hg5⟩
  · exact absurd (hall f hlater hfile) hcount
  · have hfg : g = f := by
      by_contra hne
      rcases Nat.lt_or_gt_of_ne hne with h | h
      · exact hg3 (hzero g hg1 h)
      · exact hcount (hg4 f hlater h)
    subst hfg
    rw [hnext, hg5]

/-- C19 (witness): the example scan after both row groups of `a.parquet` are handed out;
`b.parquet` has no row group and `c.parquet` is the next file with row groups. -/
theorem next_skips_empty_files_witness :
    parquet_parallel_state_next example_context_validating example_bind_data
        example_parallel_cursor
        { current_reader := example_reader "a.parquet" 2 20 (some ⟨1, 20, false⟩),
          file_index := 0, row_group_index := 2 }
      = .ok (true,
          { example_parallel_cursor with
              reader := example_reader "c.parquet" 3 30 (some ⟨21, 50, false⟩),
              scan_state := InitializeScan (example_reader "c.parquet" 3 30 (some ⟨21, 50, false⟩))
                example_parallel_cursor.column_ids [0] example_parallel_cursor.table_filters },
          { current_reader := example_reader "c.parquet" 3 30 (some ⟨21, 50, false⟩),
            file_index := 2, row_group_index := 1 }) :=
  next_skips_empty_files example_context_validating example_bind_data example_readers
    example_parallel_cursor
    { current_reader := example_reader "a.parquet" 2 20 (some ⟨1, 20, false⟩),
      file_index := 0, row_group_index := 2 }
    2 example_files_open_as
    (reachable_of_parallel_state_after example_context_validating example_bind_data 2 default
      (parquet_init_parallel_state example_bind_data) _ SchedulerReachable.init (by decide))
    (by decide) (by decide) (by decide) (by decide)
    (fun j h1 h2 => by
      have hj : j = 1 := by
        have h3 : 0 < j := h1
        omega
      rw [hj]
      rfl)

/-- C20: in every reachable scheduler state of a FileSet whose files open the way the
scheduler opens them, `parquet_parallel_state_next` returns without an error, and it
returns false exactly when the current reader has no unassigned row group (the next
row-group index has reached its row-group count) and every file after the current file
index has zero row groups; in every other state it returns true with an assignment of one
row group of the reader it hands to the cursor, which is the reader of the file the
scheduler is then at. -/
theorem next_reports_completion_iff (context : ClientContext) (bind_data : ParquetReadBindData)
    (readers : Nat → ParquetReader) (scan_data : ParquetReadOperatorData)
    (parallel_state : ParquetReadParallelState)
    (hopen : files_open_as context bind_data readers)
    (hreach : SchedulerReachable context bind_data parallel_state) :
    ∃ found result_data result_state,
      parquet_parallel_state_next context bind_data scan_data parallel_state
        = .ok (found, result_data, result_state) ∧
      (found = false ↔
        (parallel_state.current_reader.NumRowGroups ≤ parallel_state.row_group_index ∧
          ∀ j, parallel_state.file_index < j → j < bind_data.files.length →
            (readers j).NumRowGroups = 0)) ∧
      (found = true →
        result_data.reader = result_state.current_reader ∧
        result_state.current_reader = readers result_state.file_index ∧
        ∃ g, result_data.scan_state.group_idx_list = [g] ∧
          g < result_state.current_reader.NumRowGroups ∧
          result_state.row_group_index = g + 1) := by
  have hcurrent := scheduler_reachable_current_reader context bind_data readers hopen
    parallel_state hreach
  by_cases hc : parallel_state.row_group_index < parallel_state.current_reader.NumRowGroups
  · refine ⟨true, _, _, by simp only [parquet_parallel_state_next, if_pos hc]; rfl, ?_, ?_⟩
    · constructor
      · intro h
        cases h
      · rintro ⟨h, _⟩
        omega
    · intro _
      exact ⟨rfl, hcurrent, parallel_state.row_group_index, rfl, hc, rfl⟩
  · have hnext : parquet_parallel_state_next context bind_data scan_data parallel_state
        = parquet_parallel_state_next_loop context bind_data (bind_data.files.length + 1)
            scan_data parallel_state := by
      simp only [parquet_parallel_state_next, if_neg hc]
    rcases parquet_parallel_state_next_loop_result context bind_data readers hopen
        (bind_data.files.length + 1) scan_data parallel_state (by omega) hcurrent with
      ⟨⟨result_state, hloop, _⟩, hall⟩ | ⟨f, hf1, hf2, hf3, _, hf5⟩
    · refine ⟨false, scan_data, result_state, by rw [hnext, hloop], ?_, ?_⟩
      · exact ⟨fun _ => ⟨by omega, hall⟩, fun _ => rfl⟩
      · intro h
        cases h
    · refine ⟨true, _, _, by rw [hnext, hf5], ?_, ?_⟩
      · constructor
        · intro h
          cases h
        · rintro ⟨_, hall⟩
          exact absurd (hall f hf1 hf2) hf3
      · intro _
        refine ⟨rfl, rfl, 0, rfl, ?_, rfl⟩
        simp only
        omega

/-- C20 (witness): the example scan after its last assignment (row group 2 of `c.parquet`;
`d.parquet` has no row group): the call reports completion. -/
theorem next_reports_completion_iff_witness :
    ∃ found result_data result_state,
      parquet_parallel_state_next example_context_validating example_bind_data
          example_parallel_cursor
          { current_reader := example_reader "c.parquet" 3 30 (some ⟨21, 50, false⟩),
            file_index := 2, row_group_index := 3 }
        = .ok (found, result_data, result_state) ∧
      (found = false ↔
        ((example_reader "c.parquet" 3 30 (some ⟨21, 50, false⟩)).NumRowGroups ≤ 3 ∧
          ∀ j, 2 < j → j < example_bind_data.files.length →
            (example_readers j).NumRowGroups = 0)) ∧
      (found = true →
        result_data.reader = result_state.current_reader ∧
        result_state.current_reader = example_readers result_state.file_index ∧
        ∃ g, result_data.scan_state.group_idx_list = [g] ∧
          g < result_state.current_reader.NumRowGroups ∧
          result_state.row_group_index = g + 1) :=
  next_reports_completion_iff example_context_validating example_bind_data example_readers
    example_parallel_cursor
    { current_reader := example_reader "c.parquet" 3 30 (some ⟨21, 50, false⟩),
      file_index := 2, row_group_index := 3 }
    example_files_open_as
    (reachable_of_parallel_state_after example_context_validating example_bind_data 5 default
      (parquet_init_parallel_state example_bind_data) _ SchedulerReachable.init (by decide))

/-! ### Round trip of a write and a scan -/

theorem map_getD_range {α : Type} (l : List α) (d : α) :
    (List.range l.length).map (fun i => l.getD i d) = l := by
  apply List.ext_getElem
  · simp
  · intro i h1 h2
    simp only [List.getElem_map, List.getElem_range]
    exact List.getD_eq_getElem l d h2

theorem project_row_all (row : Row) (n : Nat) (h : row.length = n) :
    project_row (List.range n) row = row := by
  subst h
  exact map_getD_range row Value.null

theorem assigned_rows_all (row_groups : List ChunkCollection)
    (scan_state : ParquetReaderScanState)
    (h : scan_state.group_idx_list = List.range row_groups.length) :
    assigned_rows row_groups scan_state = all_rows row_groups := by
  simp only [assigned_rows, all_rows, h, List.flatMap_def]
  have hmap : (List.range row_groups.length).map
      (fun g => (row_groups.getD g ChunkCollection.empty).rows)
      = ((List.range row_groups.length).map
          (fun g => row_groups.getD g ChunkCollection.empty)).map (fun c => c.rows) := by
    rw [List.map_map]
    rfl
  rw [hmap, map_getD_range]

theorem sink_all_writer_fields (batches : List DataChunk) :
    ∀ (gstate : ParquetWriteGlobalState) (lstate : ParquetWriteLocalState),
      (sink_all gstate lstate batches).1.writer.file_name = gstate.writer.file_name ∧
      (sink_all gstate lstate batches).1.writer.sql_types = gstate.writer.sql_types ∧
      (sink_all gstate lstate batches).1.writer.column_names = gstate.writer.column_names ∧
      (sink_all gstate lstate batches).1.writer.finalized = gstate.writer.finalized := by
  induction batches with
  | nil => intro gstate lstate; exact ⟨rfl, rfl, rfl, rfl⟩
  | cons input rest ih =>
    intro gstate lstate
    simp only [sink_all]
    obtain ⟨h1, h2, h3, h4⟩ :=
      ih (parquet_write_sink gstate lstate input).1 (parquet_write_sink gstate lstate input).2
    rw [h1, h2, h3, h4]
    by_cases hc : (lstate.buffer.Append input).Count > 100000
    · rw [parquet_write_sink_of_gt gstate lstate input hc]
      exact ⟨rfl, rfl, rfl, rfl⟩
    · rw [parquet_write_sink_of_le gstate lstate input hc]
      exact ⟨rfl, rfl, rfl, rfl⟩

theorem written_file (bind_data : ParquetWriteBindData) (batches : List DataChunk) :
    (parquet_write_finalize
        (write_thread (parquet_write_initialize_global bind_data) batches).1).writer.finalized
      = true ∧
    (parquet_write_finalize
        (write_thread (parquet_write_initialize_global bind_data) batches).1).writer.file_name
      = bind_data.file_name ∧
    (parquet_write_finalize
        (write_thread (parquet_write_initialize_global bind_data) batches).1).writer.sql_types
      = bind_data.sql_types ∧
    all_rows (parquet_write_finalize
        (write_thread (parquet_write_initialize_global bind_data) batches).1).writer.flushed
      = batch_rows batches := by
  obtain ⟨h1, h2, _, _⟩ := sink_all_writer_fields batches
    (parquet_write_initialize_global bind_data) parquet_write_initialize_local
  obtain ⟨calls, h5, h6⟩ := sink_all_rows batches
    (parquet_write_initialize_global bind_data) parquet_write_initialize_local
  refine ⟨rfl, ?_, ?_, ?_⟩
  · simp only [parquet_write_finalize, ParquetWriter.Finalize, write_thread,
      parquet_write_combine, ParquetWriter.Flush, h1]
    rfl
  · simp only [parquet_write_finalize, ParquetWriter.Finalize, write_thread,
      parquet_write_combine, ParquetWriter.Flush, h2]
    rfl
  · simp only [parquet_write_finalize, ParquetWriter.Finalize, write_thread,
      parquet_write_combine, ParquetWriter.Flush, h5]
    rw [all_rows_append, all_rows_append]
    have h7 : all_rows [(sink_all (parquet_write_initialize_global bind_data)
        parquet_write_initialize_local batches).2.buffer]
        = (sink_all (parquet_write_initialize_global bind_data)
            parquet_write_initialize_local batches).2.buffer.rows := by
      simp [all_rows]
    have h8 : all_rows (parquet_write_initialize_global bind_data).writer.flushed = [] := rfl
    rw [h7, h8, List.nil_append, h6]
    simp [parquet_write_initialize_local, ChunkCollection.empty]

theorem parquet_scan_function_single_file (context : ClientContext)
    (bind_data : ParquetReadBindData) (data : ParquetReadOperatorData)
    (hfiles : bind_data.files.length = 1) :
    parquet_scan_function context bind_data data
      = .ok ({ data with scan_state := (context.Scan data.reader data.scan_state).1 },
          (context.Scan data.reader data.scan_state).2) := by
  have hlast : ¬ (data.file_index + 1 < bind_data.files.length) := by omega
  simp only [parquet_scan_function, hfiles, parquet_scan_function_loop]
  rw [hfiles] at hlast
  by_cases hc : (context.Scan data.reader data.scan_state).2.size = 0 ∧ data.is_parallel = false
  · rw [if_pos hc, if_neg hlast]
  · rw [if_neg hc]

theorem take_append_drop_step {α : Type} (rows : List α) (position size : Nat) :
    (rows.drop position).take size
        ++ rows.drop (position + ((rows.drop position).take size).length)
      = rows.drop position := by
  rw [← List.drop_drop]
  by_cases h : size ≤ (rows.drop position).length
  · rw [List.length_take, Nat.min_eq_left h, List.take_append_drop]
  · rw [List.length_take, Nat.min_eq_right (by omega),
      List.drop_of_length_le (Nat.le_refl _), List.append_nil,
      List.take_of_length_le (by omega)]

theorem assigned_rows_after_scan (row_groups : List ChunkCollection)
    (scan_state : ParquetReaderScanState) :
    assigned_rows row_groups (scan_written_file row_groups scan_state).1
      = assigned_rows row_groups scan_state := rfl

theorem scan_until_empty_written (writer : ParquetWriter) (bind_data : ParquetReadBindData)
    (hfiles : bind_data.files.length = 1) :
    ∀ (calls : Nat) (data : ParquetReadOperatorData),
      (assigned_rows writer.flushed data.scan_state).length - data.scan_state.position < calls →
      ∃ chunks, scan_until_empty (written_file_context writer) bind_data calls data
          = some chunks ∧
        batch_rows chunks
          = ((assigned_rows writer.flushed data.scan_state).drop data.scan_state.position).map
              (project_row data.scan_state.column_ids) := by
  intro calls
  induction calls with
  | zero => intro _ h; omega
  | succ calls ih =>
    intro data hcalls
    have hscan := parquet_scan_function_single_file (written_file_context writer) bind_data
      data hfiles
    have hctx : (written_file_context writer).Scan data.reader data.scan_state
        = scan_written_file writer.flushed data.scan_state := rfl
    rw [hctx] at hscan
    simp only [scan_until_empty, hscan]
    generalize hrows : assigned_rows writer.flushed data.scan_state = rows at hcalls ⊢
    have hout : (scan_written_file writer.flushed data.scan_state).2.data
        = ((rows.drop data.scan_state.position).take STANDARD_VECTOR_SIZE).map
            (project_row data.scan_state.column_ids) := by
      rw [← hrows]
      rfl
    have hposition : (scan_written_file writer.flushed data.scan_state).1.position
        = data.scan_state.position
          + ((rows.drop data.scan_state.position).take STANDARD_VECTOR_SIZE).length := by
      rw [← hrows]
      rfl
    have hvs : 0 < STANDARD_VECTOR_SIZE := by decide
    by_cases hempty : (scan_written_file writer.flushed data.scan_state).2.size = 0
    · rw [if_pos hempty]
      refine ⟨[], rfl, ?_⟩
      simp only [DataChunk.size, hout, List.length_map, List.length_take,
        List.length_drop] at hempty
      have hdrop : rows.drop data.scan_state.position = [] :=
        List.drop_eq_nil_iff.mpr (by omega)
      rw [hdrop]
      rfl
    · rw [if_neg hempty]
      have hsize : 0 < ((rows.drop data.scan_state.position).take STANDARD_VECTOR_SIZE).length := by
        simp only [DataChunk.size, hout, List.length_map] at hempty
        omega
      have hlen := hsize
      simp only [List.length_take, List.length_drop] at hlen
      obtain ⟨chunks, hchunks, hrest⟩ := ih
        { data with scan_state := (scan_written_file writer.flushed data.scan_state).1 }
        (by
          simp only [assigned_rows_after_scan, hrows, hposition]
          omega)
      rw [hchunks]
      refine ⟨_, rfl, ?_⟩
      simp only [assigned_rows_after_scan, hrows, hposition] at hrest
      have hcols : (scan_written_file writer.flushed data.scan_state).1.column_ids
          = data.scan_state.column_ids := rfl
      rw [hcols] at hrest
      simp only [batch_rows, List.map_cons, List.flatten_cons] at hrest ⊢
      rw [hrest, hout, ← List.map_append, take_append_drop_step]

/-- C13: one thread writes any sequence of batches whose rows have the bound number of
columns through initialize-global, Sink per batch, Combine and Finalize; the
single-threaded scan of the produced file with all columns (`parquet_scan_bind`,
`parquet_scan_init`, `parquet_scan_function` until the empty batch, which any number of
calls above the row count reaches) yields the same rows in the same order, and so the
same total row count. -/
theorem write_then_scan_round_trip (bind_data : ParquetWriteBindData)
    (batches : List DataChunk) (calls : Nat)
    (hwidth : ∀ batch, batch ∈ batches → ∀ row, row ∈ batch.data →
      row.length = bind_data.sql_types.length)
    (hcalls : (batch_rows batches).length < calls) :
    ∃ chunks, write_then_scan bind_data batches calls = some chunks ∧
      batch_rows chunks = batch_rows batches ∧
      (batch_rows chunks).length = (batch_rows batches).length := by
  obtain ⟨hfinal, hname, htypes, hrows⟩ := written_file bind_data batches
  generalize hw : (parquet_write_finalize
      (write_thread (parquet_write_initialize_global bind_data) batches).1).writer = writer
      at hfinal hname htypes hrows
  have hglob : (written_file_context writer).Glob bind_data.file_name = [writer.file_name] := by
    simp only [written_file_context, hname, if_true]
  have hopen : (written_file_context writer).OpenReader
      (((written_file_context writer).Glob bind_data.file_name).getD 0 "") [] ""
      = .ok { file_name := writer.file_name, return_types := writer.sql_types,
              names := writer.column_names, metadata := { column_stats := [] },
              num_row_groups := writer.flushed.length,
              num_rows := (all_rows writer.flushed).length } := by
    rw [hglob]
    simp only [written_file_context, List.getD_cons_zero, hfinal, and_self, if_true]
  have hbind := (parquet_scan_bind_spec (written_file_context writer) bind_data.file_name).2 _
    (by rw [hglob]; exact List.cons_ne_nil _ _) hopen
  simp only [write_then_scan, hw, hbind]
  rw [hglob]
  obtain ⟨chunks, hchunks, hscanned⟩ := scan_until_empty_written writer
    { initial_reader :=
        { file_name := writer.file_name, return_types := writer.sql_types,
          names := writer.column_names, metadata := { column_stats := [] },
          num_row_groups := writer.flushed.length,
          num_rows := (all_rows writer.flushed).length },
      files := [writer.file_name], column_ids := [] } rfl calls
    (parquet_scan_init
      { initial_reader :=
          { file_name := writer.file_name, return_types := writer.sql_types,
            names := writer.column_names, metadata := { column_stats := [] },
            num_row_groups := writer.flushed.length,
            num_rows := (all_rows writer.flushed).length },
        files := [writer.file_name], column_ids := [] }
      (List.range writer.sql_types.length) none)
    (by
      rw [assigned_rows_all writer.flushed _ rfl, hrows]
      exact hcalls)
  rw [assigned_rows_all writer.flushed _ rfl, hrows] at hscanned
  have hproject : (batch_rows batches).map (project_row (List.range writer.sql_types.length))
      = batch_rows batches := by
    have hid : ∀ row, row ∈ batch_rows batches →
        project_row (List.range writer.sql_types.length) row = row := by
      intro row hrow
      simp only [batch_rows, List.mem_flatten, List.mem_map] at hrow
      obtain ⟨rows, ⟨batch, hbatch, rfl⟩, hmem⟩ := hrow
      exact project_row_all row _ (by rw [htypes]; exact hwidth batch hbatch row hmem)
    calc (batch_rows batches).map (project_row (List.range writer.sql_types.length))
        = (batch_rows batches).map id := List.map_congr_left hid
      _ = batch_rows batches := List.map_id _
  have hresult : batch_rows chunks = batch_rows batches := by
    rw [hscanned]
    exact hproject
  exact ⟨chunks, hchunks, hresult, by rw [hresult]⟩

/-- C13 (witness): two batches of one column, three rows in all. -/
theorem write_then_scan_round_trip_witness :
    ∃ chunks, write_then_scan example_write_bind_data example_batches 4 = some chunks ∧
      batch_rows chunks = batch_rows example_batches ∧
      (batch_rows chunks).length = (batch_rows example_batches).length :=
  write_then_scan_round_trip example_write_bind_data example_batches 4 (by decide) (by decide)

/-! ### Completion, disabled cache, buffer bound -/

theorem parquet_parallel_state_next_loop_false (context : ClientContext)
    (bind_data : ParquetReadBindData) :
    ∀ (fuel : Nat) (scan_data result_data : ParquetReadOperatorData)
      (parallel_state result_state : ParquetReadParallelState),
      parquet_parallel_state_next_loop context bind_data fuel scan_data parallel_state
        = .ok (false, result_data, result_state) →
      result_data = scan_data ∧
        ¬ (result_state.file_index + 1 < bind_data.files.length) ∧
        result_state.row_group_index = parallel_state.row_group_index ∧
        (result_state = parallel_state ∨ result_state.current_reader.NumRowGroups = 0) := by
  intro fuel
  induction fuel with
  | zero =>
    intro scan_data result_data parallel_state result_state h
    simp [parquet_parallel_state_next_loop] at h
  | succ fuel ih =>
    intro scan_data result_data parallel_state result_state h
    simp only [parquet_parallel_state_next_loop] at h
    by_cases hc : parallel_state.file_index + 1 < bind_data.files.length
    · rw [if_pos hc] at h
      cases hopen : context.OpenReader (bind_data.files.getD (parallel_state.file_index + 1) "")
          parallel_state.current_reader.return_types "" with
      | error e =>
        rw [hopen] at h
        cases h
      | ok reader =>
        rw [hopen] at h
        simp only at h
        by_cases hz : reader.NumRowGroups = 0
        · rw [if_pos hz] at h
          obtain ⟨h1, h2, h3, h4⟩ := ih scan_data result_data
            { parallel_state with
                file_index := parallel_state.file_index + 1, current_reader := reader }
            result_state h
          refine ⟨h1, h2, h3, Or.inr ?_⟩
          rcases h4 with h4 | h4
          · rw [h4]
            exact hz
          · exact h4
        · rw [if_neg hz] at h
          simp only [Except.ok.injEq, Prod.mk.injEq] at h
          exact absurd h.1 (by decide)
    · rw [if_neg hc] at h
      simp only [Except.ok.injEq, Prod.mk.injEq] at h
      obtain ⟨_, hd, hs⟩ := h
      subst hd hs
      exact ⟨rfl, hc, rfl, Or.inl rfl⟩

theorem parquet_parallel_state_next_exhausted (context : ClientContext)
    (bind_data : ParquetReadBindData) (scan_data : ParquetReadOperatorData)
    (parallel_state : ParquetReadParallelState)
    (hgroups : ¬ parallel_state.row_group_index < parallel_state.current_reader.NumRowGroups)
    (hfiles : ¬ (parallel_state.file_index + 1 < bind_data.files.length)) :
    parquet_parallel_state_next context bind_data scan_data parallel_state
      = .ok (false, scan_data, parallel_state) := by
  simp only [parquet_parallel_state_next, if_neg hgroups, parquet_parallel_state_next_loop,
    if_neg hfiles]

theorem parallel_state_after_exhausted (context : ClientContext)
    (bind_data : ParquetReadBindData) (parallel_state : ParquetReadParallelState)
    (hgroups : ¬ parallel_state.row_group_index < parallel_state.current_reader.NumRowGroups)
    (hfiles : ¬ (parallel_state.file_index + 1 < bind_data.files.length)) :
    ∀ (calls : Nat) (scan_data : ParquetReadOperatorData),
      parallel_state_after context bind_data calls scan_data parallel_state
        = some parallel_state := by
  intro calls
  induction calls with
  | zero => intro _; rfl
  | succ calls ih =>
    intro scan_data
    simp only [parallel_state_after, parquet_parallel_state_next_exhausted context bind_data
      scan_data parallel_state hgroups hfiles]
    exact ih scan_data

/-- C21: once a call of `parquet_parallel_state_next` has returned false, every later call
on the resulting scheduler state returns false as well, leaves the cursor it is called
with as it is (no assignment), and leaves the scheduler state, so the file index and the
next row-group index, unchanged; this holds for any number of later calls. -/
theorem completion_is_absorbing (context : ClientContext) (bind_data : ParquetReadBindData)
    (scan_data result_data : ParquetReadOperatorData)
    (parallel_state result_state : ParquetReadParallelState)
    (hdone : parquet_parallel_state_next context bind_data scan_data parallel_state
      = .ok (false, result_data, result_state)) :
    (∀ later_data, parquet_parallel_state_next context bind_data later_data result_state
        = .ok (false, later_data, result_state)) ∧
      (∀ calls later_data, parallel_state_after context bind_data calls later_data result_state
        = some result_state) ∧
      (∀ calls later_data, 0 < calls →
        parallel_assignments context bind_data calls later_data result_state = some []) := by
  have hfirst : ¬ parallel_state.row_group_index < parallel_state.current_reader.NumRowGroups := by
    intro hc
    simp only [parquet_parallel_state_next, if_pos hc, Except.ok.injEq, Prod.mk.injEq] at hdone
    exact absurd hdone.1 (by decide)
  simp only [parquet_parallel_state_next, if_neg hfirst] at hdone
  obtain ⟨_, hfiles, hindex, hstate⟩ := parquet_parallel_state_next_loop_false context bind_data
    _ scan_data result_data parallel_state result_state hdone
  have hgroups : ¬ result_state.row_group_index < result_state.current_reader.NumRowGroups := by
    rcases hstate with h | h
    · rw [h]
      exact hfirst
    · omega
  refine ⟨fun later_data => parquet_parallel_state_next_exhausted context bind_data later_data
      result_state hgroups hfiles,
    parallel_state_after_exhausted context bind_data result_state hgroups hfiles, ?_⟩
  intro calls later_data hcalls
  obtain ⟨n, rfl⟩ : ∃ n, calls = n + 1 := ⟨calls - 1, by omega⟩
  simp only [parallel_assignments, parquet_parallel_state_next_exhausted context bind_data
    later_data result_state hgroups hfiles]

/-- C21 (witness): the example scan after its last assignment; the call that reports
completion skips to `d.parquet`, and the next call reports completion again. -/
theorem completion_is_absorbing_witness :
    parquet_parallel_state_next example_context example_bind_data example_serial_cursor
        { current_reader := example_reader "d.parquet" 0 0 none, file_index := 3,
          row_group_index := 3 }
      = .ok (false, example_serial_cursor,
          { current_reader := example_reader "d.parquet" 0 0 none, file_index := 3,
            row_group_index := 3 }) :=
  (completion_is_absorbing example_context example_bind_data example_parallel_cursor
    example_parallel_cursor
    { current_reader := example_reader "c.parquet" 3 30 (some ⟨21, 50, false⟩),
      file_index := 2, row_group_index := 3 }
    { current_reader := example_reader "d.parquet" 0 0 none, file_index := 3,
      row_group_index := 3 }
    (by decide)).1 example_serial_cursor

/-- C23: for a FileSet of two or more files, when the object cache is disabled in the
configuration, `parquet_scan_stats` returns unavailable for every column index, whatever
the cache holds, the modification times are and the statistics of the first file are. -/
theorem stats_unavailable_when_cache_disabled (context : ClientContext)
    (bind_data : ParquetReadBindData) (column_index : Nat)
    (hdisabled : context.object_cache_enable = false)
    (hfiles : 2 ≤ bind_data.files.length) :
    parquet_scan_stats context bind_data column_index = .ok none := by
  simp only [parquet_scan_stats]
  split
  · rfl
  · split
    · rfl
    · rw [if_neg (by omega), hdisabled]
      rfl

/-- C23 (witness): `a.parquet` and `c.parquet` with the cache disabled; the cache holds a
fresh entry of `c.parquet` and both files have statistics. -/
theorem stats_unavailable_when_cache_disabled_witness :
    parquet_scan_stats example_context_cache_disabled example_two_files 0 = .ok none :=
  stats_unavailable_when_cache_disabled example_context_cache_disabled example_two_files 0
    rfl (by decide)

theorem sink_all_buffer_bound (batches : List DataChunk) :
    ∀ (gstate : ParquetWriteGlobalState) (lstate : ParquetWriteLocalState),
      lstate.buffer.Count ≤ 100000 →
      (sink_all gstate lstate batches).2.buffer.Count ≤ 100000 ∧
        ∃ calls, (sink_all gstate lstate batches).1.writer.flushed
            = gstate.writer.flushed ++ calls ∧
          ∀ c, c ∈ calls → c.Count > 100000 := by
  induction batches with
  | nil =>
    intro gstate lstate h
    exact ⟨h, [], by simp [sink_all], by simp⟩
  | cons input rest ih =>
    intro gstate lstate _
    simp only [sink_all]
    by_cases hc : (lstate.buffer.Append input).Count > 100000
    · rw [parquet_write_sink_of_gt gstate lstate input hc]
      obtain ⟨h1, calls, h2, h3⟩ := ih { writer := gstate.writer.Flush (lstate.buffer.Append input) }
        { buffer := ChunkCollection.empty } (by decide)
      refine ⟨h1, lstate.buffer.Append input :: calls, ?_, ?_⟩
      · rw [h2]
        simp [ParquetWriter.Flush]
      · intro c hmem
        rcases List.mem_cons.mp hmem with rfl | h
        · exact hc
        · exact h3 c h
    · rw [parquet_write_sink_of_le gstate lstate input hc]
      exact ih gstate { buffer := lstate.buffer.Append input } (Nat.le_of_not_gt hc)

/-- C24: starting from the empty buffer of `parquet_write_initialize_local`, after the Sink
calls on any sequence of batches (so after every Sink call of a longer sequence) the buffer
holds at most 100000 rows, and every collection these calls handed to the writer's Flush
holds more than 100000 rows. -/
theorem sink_buffer_invariant (gstate : ParquetWriteGlobalState) (batches : List DataChunk) :
    (sink_all gstate parquet_write_initialize_local batches).2.buffer.Count ≤ 100000 ∧
      (∀ k, (sink_all gstate parquet_write_initialize_local (batches.take k)).2.buffer.Count
        ≤ 100000) ∧
      ∃ calls, (sink_all gstate parquet_write_initialize_local batches).1.writer.flushed
          = gstate.writer.flushed ++ calls ∧
        ∀ c, c ∈ calls → c.Count > 100000 := by
  have hinit : parquet_write_initialize_local.buffer.Count ≤ 100000 := by decide
  refine ⟨(sink_all_buffer_bound batches gstate _ hinit).1, ?_,
    (sink_all_buffer_bound batches gstate _ hinit).2⟩
  intro k
  exact (sink_all_buffer_bound (batches.take k) gstate _ hinit).1

/-! ### Single-threaded scan -/

theorem parquet_scan_function_loop_serial (context : ClientContext)
    (bind_data : ParquetReadBindData) :
    ∀ (fuel : Nat) (data result : ParquetReadOperatorData) (output : DataChunk),
      data.is_parallel = false →
      parquet_scan_function_loop context bind_data fuel data = .ok (result, output) →
      data.file_index ≤ result.file_index ∧
        (result.file_index = data.file_index →
          result = { data with scan_state := (context.Scan data.reader data.scan_state).1 } ∧
            output = (context.Scan data.reader data.scan_state).2) ∧
        (data.file_index < result.file_index →
          (context.Scan data.reader data.scan_state).2.size = 0 ∧
            result.file_index < bind_data.files.length ∧
            (∀ i, data.file_index < i → i < result.file_index →
              file_scan_is_empty context bind_data data i) ∧
            ∃ types reader,
              context.OpenReader (bind_data.files.getD result.file_index "") types
                  (bind_data.files.getD 0 "") = .ok reader ∧
                result = { data with
                  file_index := result.file_index,
                  reader := reader,
                  scan_state := (context.Scan reader
                    (InitializeScan reader data.column_ids (List.range reader.NumRowGroups)
                      data.table_filters)).1 } ∧
                output = (context.Scan reader
                  (InitializeScan reader data.column_ids (List.range reader.NumRowGroups)
                    data.table_filters)).2) := by
  intro fuel
  induction fuel with
  | zero =>
    intro data result output _ h
    simp [parquet_scan_function_loop] at h
  | succ fuel ih =>
    intro data result output hserial h
    simp only [parquet_scan_function_loop] at h
    have hstop : (.ok ({ data with scan_state := (context.Scan data.reader data.scan_state).1 },
          (context.Scan data.reader data.scan_state).2)
          : Except Exception (ParquetReadOperatorData × DataChunk)) = .ok (result, output) →
        data.file_index ≤ result.file_index ∧
        (result.file_index = data.file_index →
          result = { data with scan_state := (context.Scan data.reader data.scan_state).1 } ∧
            output = (context.Scan data.reader data.scan_state).2) ∧
        (data.file_index < result.file_index →
          (context.Scan data.reader data.scan_state).2.size = 0 ∧
            result.file_index < bind_data.files.length ∧
            (∀ i, data.file_index < i → i < result.file_index →
              file_scan_is_empty context bind_data data i) ∧
            ∃ types reader,
              context.OpenReader (bind_data.files.getD result.file_index "") types
                  (bind_data.files.getD 0 "") = .ok reader ∧
                result = { data with
                  file_index := result.file_index,
                  reader := reader,
                  scan_state := (context.Scan reader
                    (InitializeScan reader data.column_ids (List.range reader.NumRowGroups)
                      data.table_filters)).1 } ∧
                output = (context.Scan reader
                  (InitializeScan reader data.column_ids (List.range reader.NumRowGroups)
                    data.table_filters)).2) := by
      intro heq
      simp only [Except.ok.injEq, Prod.mk.injEq] at heq
      obtain ⟨hr, ho⟩ := heq
      subst hr ho
      exact ⟨Nat.le_refl _, fun _ => ⟨rfl, rfl⟩, fun hlt => absurd hlt (Nat.lt_irrefl _)⟩
    by_cases hc : (context.Scan data.reader data.scan_state).2.size = 0 ∧ data.is_parallel = false
    · rw [if_pos hc] at h
      by_cases hnext : data.file_index + 1 < bind_data.files.length
      · rw [if_pos hnext] at h
        cases hopen : context.OpenReader (bind_data.files.getD (data.file_index + 1) "")
            data.reader.return_types (bind_data.files.getD 0 "") with
        | error e =>
          rw [hopen] at h
          cases h
        | ok reader =>
          rw [hopen] at h
          simp only at h
          obtain ⟨hle, hsame, hlater⟩ := ih
            { data with
                file_index := data.file_index + 1,
                reader := reader,
                scan_state := InitializeScan reader data.column_ids
                  (List.range reader.NumRowGroups) data.table_filters }
            result output hserial h
          have hle2 : data.file_index + 1 ≤ result.file_index := hle
          refine ⟨by omega, fun heq => absurd heq (by omega), ?_⟩
          intro _
          by_cases hfirst : result.file_index = data.file_index + 1
          · obtain ⟨hresult, houtput⟩ := hsame hfirst
            refine ⟨hc.1, by omega, ?_, data.reader.return_types, reader, ?_, ?_, houtput⟩
            · intro i hi1 hi2
              omega
            · rw [hfirst]
              exact hopen
            · rw [hfirst]
              exact hresult
          · have hlt : data.file_index + 1 < result.file_index := by omega
            obtain ⟨hempty, hbound, hall, types, last, hlast, hresult, houtput⟩ := hlater hlt
            refine ⟨hc.1, hbound, ?_, types, last, hlast, hresult, houtput⟩
            intro i hi1 hi2
            by_cases hi : i = data.file_index + 1
            · subst hi
              exact ⟨data.reader.return_types, reader, hopen, hempty⟩
            · have hi3 : data.file_index + 1 < i := by omega
              exact hall i hi3 hi2
      · rw [if_neg hnext] at h
        exact hstop h
    · rw [if_neg hc] at h
      exact hstop h

/-- C22: in single-threaded mode `parquet_scan_function`, which receives the bind data and
the cursor but no scheduler state, never lowers the file index.  A call whose first Scan
produces rows leaves the file index and the reader unchanged and returns that batch.  The
file index and the reader change only after the Scan of the current reader has produced
zero rows; the cursor then moves through the next file indexes one by one, each opened
file having produced zero rows before the next one is opened, and it ends at a file whose
scan was initialised with all row groups `0 .. n-1` of that file and whose first batch
is the output. -/
theorem scan_function_single_threaded (context : ClientContext)
    (bind_data : ParquetReadBindData) (data result : ParquetReadOperatorData)
    (output : DataChunk) (hserial : data.is_parallel = false)
    (hresult : parquet_scan_function context bind_data data = .ok (result, output)) :
    data.file_index ≤ result.file_index ∧
      ((context.Scan data.reader data.scan_state).2.size ≠ 0 →
        result.file_index = data.file_index ∧ result.reader = data.reader ∧
          output = (context.Scan data.reader data.scan_state).2) ∧
      (result.file_index = data.file_index →
        result = { data with scan_state := (context.Scan data.reader data.scan_state).1 } ∧
          output = (context.Scan data.reader data.scan_state).2) ∧
      (data.file_index < result.file_index →
        (context.Scan data.reader data.scan_state).2.size = 0 ∧
          result.file_index < bind_data.files.length ∧
          (∀ i, data.file_index < i → i < result.file_index →
            file_scan_is_empty context bind_data data i) ∧
          ∃ types reader,
            context.OpenReader (bind_data.files.getD result.file_index "") types
                (bind_data.files.getD 0 "") = .ok reader ∧
              result = { data with
                file_index := result.file_index,
                reader := reader,
                scan_state := (context.Scan reader
                  (InitializeScan reader data.column_ids (List.range reader.NumRowGroups)
                    data.table_filters)).1 } ∧
              output = (context.Scan reader
                (InitializeScan reader data.column_ids (List.range reader.NumRowGroups)
                  data.table_filters)).2) := by
  obtain ⟨hle, hsame, hlater⟩ := parquet_scan_function_loop_serial context bind_data _ data
    result output hserial hresult
  refine ⟨hle, ?_, hsame, hlater⟩
  intro hrows
  have heq : result.file_index = data.file_index := by
    by_contra hne
    have hlt : data.file_index < result.file_index := by omega
    exact hrows (hlater hlt).1
  obtain ⟨h1, h2⟩ := hsame heq
  refine ⟨heq, ?_, h2⟩
  rw [h1]

/-- C22 (witness): the single-threaded example cursor at the end of `c.parquet` (file 2)
moves to `d.parquet` (file 3), the next file, after the scan of `c.parquet` has produced
zero rows. -/
theorem scan_function_single_threaded_witness :
    example_serial_cursor.file_index ≤ 3 ∧
      (example_context.Scan example_serial_cursor.reader
        example_serial_cursor.scan_state).2.size = 0 ∧
      3 < example_bind_data.files.length :=
  ⟨(scan_function_single_threaded example_context example_bind_data example_serial_cursor
      { example_serial_cursor with
          file_index := 3,
          reader := example_reader "d.parquet" 0 0 none,
          scan_state := { group_idx_list := [], column_ids := [0], table_filters := none,
                          position := 1 } }
      { data := [] } rfl (by decide)).1,
   ((scan_function_single_threaded example_context example_bind_data example_serial_cursor
      { example_serial_cursor with
          file_index := 3,
          reader := example_reader "d.parquet" 0 0 none,
          scan_state := { group_idx_list := [], column_ids := [0], table_filters := none,
                          position := 1 } }
      { data := [] } rfl (by decide)).2.2.2 (by decide)).1,
   ((scan_function_single_threaded example_context example_bind_data example_serial_cursor
      { example_serial_cursor with
          file_index := 3,
          reader := example_reader "d.parquet" 0 0 none,
          scan_state := { group_idx_list := [], column_ids := [0], table_filters := none,
                          position := 1 } }
      { data := [] } rfl (by decide)).2.2.2 (by decide)).2.1⟩

/-! ### Appender -/

theorem Appender.Flush_frame (env : AppenderEnvironment) (appender : Appender) :
    (Appender.Flush env appender).1.chunk.types = appender.chunk.types ∧
      (Appender.Flush env appender).1.column ≤ appender.column := by
  simp only [Appender.Flush]
  split
  · exact ⟨rfl, Nat.le_refl _⟩
  · split
    · exact ⟨rfl, Nat.le_refl _⟩
    · split
      · exact ⟨rfl, Nat.le_refl _⟩
      · exact ⟨rfl, Nat.zero_le _⟩

theorem Appender.EndRow_frame (env : AppenderEnvironment) (appender : Appender) :
    (Appender.EndRow env appender).1.chunk.types = appender.chunk.types ∧
      (Appender.EndRow env appender).1.column ≤ appender.column := by
  simp only [Appender.EndRow]
  split
  · exact ⟨rfl, Nat.le_refl _⟩
  · split
    · obtain ⟨h1, h2⟩ := Appender.Flush_frame env
        { appender with
            column := 0, chunk := appender.chunk.SetCardinality (appender.chunk.size + 1) }
      exact ⟨h1, Nat.le_trans h2 (Nat.zero_le _)⟩
    · exact ⟨rfl, Nat.zero_le _⟩

theorem Appender.Close_frame (env : AppenderEnvironment) (appender : Appender) :
    (Appender.Close env appender).1.chunk.types = appender.chunk.types ∧
      (Appender.Close env appender).1.column ≤ appender.column := by
  simp only [Appender.Close]
  split
  · exact Appender.Flush_frame env appender
  · exact ⟨rfl, Nat.le_refl _⟩

theorem Appender.AppendValue_frame (env : AppenderEnvironment) (appender : Appender)
    (input : AppendInput) :
    (Appender.AppendValue env appender input).1.chunk.types = appender.chunk.types ∧
      (Appender.AppendValue env appender input).1.column ≤ appender.column + 1 := by
  simp only [Appender.AppendValue]
  split
  · exact ⟨rfl, Nat.le_succ _⟩
  · exact ⟨rfl, Nat.le_refl _⟩

theorem Appender.AppendCast_frame (env : AppenderEnvironment) (appender : Appender)
    (input : AppendInput) (target : PhysicalType) :
    (Appender.AppendCast env appender input target).1.chunk.types = appender.chunk.types ∧
      (Appender.AppendCast env appender input target).1.column ≤ appender.column + 1 := by
  simp only [Appender.AppendCast]
  split
  · exact ⟨rfl, Nat.le_succ _⟩
  · exact ⟨rfl, Nat.le_refl _⟩

theorem Appender.AppendValueInternal_frame (env : AppenderEnvironment) (appender : Appender)
    (input : AppendInput) (hcolumn : appender.column ≤ appender.chunk.ColumnCount) :
    (Appender.AppendValueInternal env appender input).1.chunk.types = appender.chunk.types ∧
      (Appender.AppendValueInternal env appender input).1.column
        ≤ appender.chunk.ColumnCount := by
  simp only [Appender.AppendValueInternal]
  split
  · exact ⟨rfl, hcolumn⟩
  · next hlt =>
    have hlt2 : appender.column + 1 ≤ appender.chunk.ColumnCount := by omega
    split
    all_goals first
      | exact ⟨(Appender.AppendCast_frame env appender input _).1,
          Nat.le_trans (Appender.AppendCast_frame env appender input _).2 hlt2⟩
      | exact ⟨(Appender.AppendValue_frame env appender input).1,
          Nat.le_trans (Appender.AppendValue_frame env appender input).2 hlt2⟩

theorem Appender.Append_frame (env : AppenderEnvironment) (appender : Appender)
    (input : AppendInput) (hcolumn : appender.column ≤ appender.chunk.ColumnCount) :
    (Appender.Append env appender input).1.chunk.types = appender.chunk.types ∧
      (Appender.Append env appender input).1.column ≤ appender.chunk.ColumnCount := by
  cases input with
  | float bits =>
    simp only [Appender.Append]
    split
    · exact ⟨rfl, hcolumn⟩
    · exact Appender.AppendValueInternal_frame env appender _ hcolumn
  | double bits =>
    simp only [Appender.Append]
    split
    · exact ⟨rfl, hcolumn⟩
    · exact Appender.AppendValueInternal_frame env appender _ hcolumn
  | value value =>
    simp only [Appender.Append]
    split
    · exact ⟨rfl, hcolumn⟩
    · next hlt =>
      exact ⟨(Appender.AppendValue_frame env appender _).1,
        Nat.le_trans (Appender.AppendValue_frame env appender _).2 (by omega)⟩
  | null =>
    simp only [Appender.Append]
    split
    · exact ⟨rfl, hcolumn⟩
    · next hlt =>
      refine ⟨rfl, ?_⟩
      show appender.column + 1 ≤ appender.chunk.ColumnCount
      omega
  | bool value => exact Appender.AppendValueInternal_frame env appender _ hcolumn
  | int8 value => exact Appender.AppendValueInternal_frame env appender _ hcolumn
  | int16 value => exact Appender.AppendValueInternal_frame env appender _ hcolumn
  | int32 value => exact Appender.AppendValueInternal_frame env appender _ hcolumn
  | int64 value => exact Appender.AppendValueInternal_frame env appender _ hcolumn
  | string value => exact Appender.AppendValueInternal_frame env appender _ hcolumn
  | string_length value length =>
    exact Appender.AppendValueInternal_frame env appender _ hcolumn

theorem Appender.call_frame (env : AppenderEnvironment) (appender : Appender)
    (c : AppenderCall) (hcolumn : appender.column ≤ appender.chunk.ColumnCount) :
    (Appender.call env appender c).1.column ≤ (Appender.call env appender c).1.chunk.ColumnCount := by
  have hcount : ∀ a b : Appender, a.chunk.types = b.chunk.types →
      a.chunk.ColumnCount = b.chunk.ColumnCount := by
    intro a b h
    simp only [AppenderChunk.ColumnCount, h]
  cases c with
  | Append input =>
    obtain ⟨h1, h2⟩ := Appender.Append_frame env appender input hcolumn
    simp only [Appender.call]
    rw [hcount _ _ h1]
    exact h2
  | EndRow =>
    obtain ⟨h1, h2⟩ := Appender.EndRow_frame env appender
    simp only [Appender.call]
    rw [hcount _ _ h1]
    omega
  | Flush =>
    obtain ⟨h1, h2⟩ := Appender.Flush_frame env appender
    simp only [Appender.call]
    rw [hcount _ _ h1]
    omega
  | Close =>
    obtain ⟨h1, h2⟩ := Appender.Close_frame env appender
    simp only [Appender.call]
    rw [hcount _ _ h1]
    omega

theorem Appender.Flush_of_column (env : AppenderEnvironment) (appender : Appender)
    (hcolumn : appender.column ≠ 0) :
    Appender.Flush env appender = (appender, some incomplete_append_exception) := by
  simp only [Appender.Flush, if_pos hcolumn]

theorem Appender.Flush_of_empty (env : AppenderEnvironment) (appender : Appender)
    (hcolumn : appender.column = 0) (hsize : appender.chunk.size = 0) :
    Appender.Flush env appender = (appender, none) := by
  simp only [Appender.Flush, if_neg (not_not.mpr hcolumn), if_pos hsize]

theorem Appender.Flush_of_return (env : AppenderEnvironment) (appender : Appender)
    (hcolumn : appender.column = 0) (hsize : appender.chunk.size ≠ 0)
    (hcontext : env.ContextAppend appender.chunk = none) :
    Appender.Flush env appender
      = ({ column := 0, chunk := appender.chunk.Reset,
           context_appends := appender.context_appends ++ [appender.chunk] }, none) := by
  simp only [Appender.Flush, if_neg (not_not.mpr hcolumn), if_neg hsize, hcontext]

theorem Appender.Flush_of_throw (env : AppenderEnvironment) (appender : Appender)
    (e : Exception) (hcolumn : appender.column = 0) (hsize : appender.chunk.size ≠ 0)
    (hcontext : env.ContextAppend appender.chunk = some e) :
    Appender.Flush env appender
      = ({ appender with context_appends := appender.context_appends ++ [appender.chunk] },
          some e) := by
  simp only [Appender.Flush, if_neg (not_not.mpr hcolumn), if_neg hsize, hcontext]

theorem Appender.EndRow_of_column (env : AppenderEnvironment) (appender : Appender)
    (hcolumn : appender.column ≠ appender.chunk.ColumnCount) :
    Appender.EndRow env appender = (appender, some end_row_exception) := by
  simp only [Appender.EndRow, if_pos hcolumn]

theorem Appender.EndRow_of_room (env : AppenderEnvironment) (appender : Appender)
    (hcolumn : appender.column = appender.chunk.ColumnCount)
    (hroom : appender.chunk.size + 1 < STANDARD_VECTOR_SIZE) :
    Appender.EndRow env appender
      = ({ appender with
            column := 0, chunk := appender.chunk.SetCardinality (appender.chunk.size + 1) },
          none) := by
  have hsize : ¬ (appender.chunk.SetCardinality (appender.chunk.size + 1)).size
      ≥ STANDARD_VECTOR_SIZE := by
    simp only [AppenderChunk.SetCardinality, AppenderChunk.size] at hroom ⊢
    omega
  simp only [Appender.EndRow, if_neg (not_not.mpr hcolumn), if_neg hsize]

theorem Appender.EndRow_of_full (env : AppenderEnvironment) (appender : Appender)
    (hcolumn : appender.column = appender.chunk.ColumnCount)
    (hfull : STANDARD_VECTOR_SIZE ≤ appender.chunk.size + 1) :
    Appender.EndRow env appender
      = Appender.Flush env
          { appender with
              column := 0,
              chunk := appender.chunk.SetCardinality (appender.chunk.size + 1) } := by
  have hsize : (appender.chunk.SetCardinality (appender.chunk.size + 1)).size
      ≥ STANDARD_VECTOR_SIZE := by
    simp only [AppenderChunk.SetCardinality, AppenderChunk.size] at hfull ⊢
    omega
  simp only [Appender.EndRow, if_neg (not_not.mpr hcolumn), if_pos hsize]

theorem AppenderChunk.size_SetCardinality (chunk : AppenderChunk) (count : Nat) :
    (chunk.SetCardinality count).size = count := rfl

theorem Appender.EndRow_size (env : AppenderEnvironment) (appender : Appender)
    (hreturn : (Appender.EndRow env appender).2 = none) :
    (Appender.EndRow env appender).1.chunk.size < STANDARD_VECTOR_SIZE := by
  by_cases hcolumn : appender.column = appender.chunk.ColumnCount
  · by_cases hroom : appender.chunk.size + 1 < STANDARD_VECTOR_SIZE
    · rw [Appender.EndRow_of_room env appender hcolumn hroom]
      exact hroom
    · rw [Appender.EndRow_of_full env appender hcolumn (by omega)] at hreturn ⊢
      have hsize : ({ appender with
          column := 0,
          chunk := appender.chunk.SetCardinality (appender.chunk.size + 1) } : Appender).chunk.size
          ≠ 0 := by
        show (appender.chunk.SetCardinality (appender.chunk.size + 1)).size ≠ 0
        rw [AppenderChunk.size_SetCardinality]
        omega
      cases hcontext : env.ContextAppend
          (appender.chunk.SetCardinality (appender.chunk.size + 1)) with
      | none =>
        rw [Appender.Flush_of_return env _ rfl hsize hcontext]
        show 0 < STANDARD_VECTOR_SIZE
        decide
      | some e =>
        rw [Appender.Flush_of_throw env _ e rfl hsize hcontext] at hreturn
        cases hreturn
  · rw [Appender.EndRow_of_column env appender hcolumn] at hreturn
    cases hreturn

/-- C25: every appender reachable from construction by Append (any overload), EndRow,
Flush and Close calls, throwing calls included, has its column position at most the
chunk's column count; and after every EndRow on it that returns normally the number of
buffered rows is strictly less than `STANDARD_VECTOR_SIZE`. -/
theorem appender_invariant (appender : Appender) (hreach : AppenderReachable appender) :
    appender.column ≤ appender.chunk.ColumnCount ∧
      ∀ env, (Appender.EndRow env appender).2 = none →
        (Appender.EndRow env appender).1.chunk.size < STANDARD_VECTOR_SIZE := by
  refine ⟨?_, fun env => Appender.EndRow_size env appender⟩
  induction hreach with
  | construct schema_name table_name types appender h =>
    simp only [Appender.construct, Except.ok.injEq] at h
    subst h
    exact Nat.zero_le _
  | call env appender c _ ih => exact Appender.call_frame env appender c ih

/-- C25 (witness): the appender on a table of two columns after one Append and after the
EndRow that follows at once and throws. -/
theorem appender_invariant_witness :
    (Appender.call example_appender_environment
        (Appender.call example_appender_environment
          { column := 0, chunk := { types := [LogicalType.BIGINT, LogicalType.VARCHAR],
                                    count := 0, writes := [] }, context_appends := [] }
          (AppenderCall.Append (AppendInput.int64 7))).1
        AppenderCall.EndRow).1.column ≤ 2 :=
  (appender_invariant _
    (AppenderReachable.call example_appender_environment _ AppenderCall.EndRow
      (AppenderReachable.call example_appender_environment _
        (AppenderCall.Append (AppendInput.int64 7))
        (AppenderReachable.construct "main" "t" [LogicalType.BIGINT, LogicalType.VARCHAR] _
          rfl)))).1

/-- C26 (counterexample): the column position equals the column count and the row count
reaches `STANDARD_VECTOR_SIZE`, but the table was dropped: EndRow hands the chunk to the
context's Append, fails with the exception of that call, and the chunk keeps its 1024
rows. -/
theorem end_row_context_throws_counterexample :
    example_appender_last_row.column = example_appender_last_row.chunk.ColumnCount ∧
      example_appender_last_row.chunk.size + 1 = STANDARD_VECTOR_SIZE ∧
      (Appender.EndRow example_appender_environment_dropped example_appender_last_row).2
        = some { type := ExceptionType.CATALOG, message := "Table does not exist!" } ∧
      (Appender.EndRow example_appender_environment_dropped
        example_appender_last_row).1.chunk.size = 1024 ∧
      (Appender.EndRow example_appender_environment_dropped
        example_appender_last_row).1.context_appends
        = [example_appender_last_row.chunk.SetCardinality 1024] := by
  decide

/-- C26 (amended): `Appender::EndRow` fails with its InvalidInputException when the column
position differs from the chunk's column count, and then leaves the appender unchanged.
Otherwise it resets the column position to 0 and increases the number of buffered rows by
exactly one; when that number is below `STANDARD_VECTOR_SIZE` it returns; when it has
reached `STANDARD_VECTOR_SIZE` it hands the whole chunk to the context's Append, and
empties the chunk if that call returns normally, while it fails with the exception of
that call and keeps the rows if the call throws. -/
theorem end_row_spec (env : AppenderEnvironment) (appender : Appender) :
    (appender.column ≠ appender.chunk.ColumnCount →
      Appender.EndRow env appender = (appender, some end_row_exception)) ∧
    (appender.column = appender.chunk.ColumnCount →
      appender.chunk.size + 1 < STANDARD_VECTOR_SIZE →
      Appender.EndRow env appender
        = ({ appender with
              column := 0,
              chunk := appender.chunk.SetCardinality (appender.chunk.size + 1) }, none)) ∧
    (appender.column = appender.chunk.ColumnCount →
      STANDARD_VECTOR_SIZE ≤ appender.chunk.size + 1 →
      env.ContextAppend (appender.chunk.SetCardinality (appender.chunk.size + 1)) = none →
      Appender.EndRow env appender
        = ({ column := 0,
             chunk := (appender.chunk.SetCardinality (appender.chunk.size + 1)).Reset,
             context_appends := appender.context_appends
               ++ [appender.chunk.SetCardinality (appender.chunk.size + 1)] }, none) ∧
        (Appender.EndRow env appender).1.chunk.size = 0) ∧
    (∀ e, appender.column = appender.chunk.ColumnCount →
      STANDARD_VECTOR_SIZE ≤ appender.chunk.size + 1 →
      env.ContextAppend (appender.chunk.SetCardinality (appender.chunk.size + 1)) = some e →
      Appender.EndRow env appender
        = ({ column := 0,
             chunk := appender.chunk.SetCardinality (appender.chunk.size + 1),
             context_appends := appender.context_appends
               ++ [appender.chunk.SetCardinality (appender.chunk.size + 1)] }, some e)) ∧
    (appender.column = appender.chunk.ColumnCount →
      (Appender.EndRow env appender).2 ≠ none →
      (Appender.EndRow env appender).2
        = env.ContextAppend (appender.chunk.SetCardinality (appender.chunk.size + 1))) := by
  have hsize : ({ appender with
      column := 0,
      chunk := appender.chunk.SetCardinality (appender.chunk.size + 1) } : Appender).chunk.size
      ≠ 0 := by
    show (appender.chunk.SetCardinality (appender.chunk.size + 1)).size ≠ 0
    rw [AppenderChunk.size_SetCardinality]
    omega
  refine ⟨Appender.EndRow_of_column env appender, Appender.EndRow_of_room env appender, ?_, ?_,
    ?_⟩
  · intro hcolumn hfull hcontext
    rw [Appender.EndRow_of_full env appender hcolumn hfull,
      Appender.Flush_of_return env _ rfl hsize hcontext]
    exact ⟨rfl, rfl⟩
  · intro e hcolumn hfull hcontext
    rw [Appender.EndRow_of_full env appender hcolumn hfull,
      Appender.Flush_of_throw env _ e rfl hsize hcontext]
  · intro hcolumn hfails
    by_cases hroom : appender.chunk.size + 1 < STANDARD_VECTOR_SIZE
    · rw [Appender.EndRow_of_room env appender hcolumn hroom] at hfails
      exact absurd rfl hfails
    · rw [Appender.EndRow_of_full env appender hcolumn (by omega)] at hfails ⊢
      cases hcontext : env.ContextAppend
          (appender.chunk.SetCardinality (appender.chunk.size + 1)) with
      | none =>
        rw [Appender.Flush_of_return env _ rfl hsize hcontext] at hfails
        exact absurd rfl hfails
      | some e => rw [Appender.Flush_of_throw env _ e rfl hsize hcontext]

/-- C26 (witness): the example appender with 1023 rows and a complete next row, the
context's Append returning normally: the chunk of 1024 rows is handed over and the
appender is empty. -/
theorem end_row_spec_witness :
    Appender.EndRow example_appender_environment example_appender_last_row
        = ({ column := 0,
             chunk := (example_appender_last_row.chunk.SetCardinality 1024).Reset,
             context_appends := [example_appender_last_row.chunk.SetCardinality 1024] },
            none) ∧
      (Appender.EndRow example_appender_environment example_appender_last_row).1.chunk.size
        = 0 :=
  (end_row_spec example_appender_environment example_appender_last_row).2.2.1 rfl
    (by decide) rfl

/-- C27 (counterexample): the column position is 0 and one row is buffered, but the table
was dropped: Close hands the chunk to the context's Append, fails with the exception of
that call, and the chunk is not empty afterwards. -/
theorem close_context_throws_counterexample :
    example_appender.column = 0 ∧ 1 ≤ example_appender.chunk.ColumnCount ∧
      (Appender.Close example_appender_environment_dropped example_appender).2
        = some { type := ExceptionType.CATALOG, message := "Table does not exist!" } ∧
      (Appender.Close example_appender_environment_dropped example_appender).1.chunk.size = 1 ∧
      (Appender.Close example_appender_environment_dropped example_appender).1.context_appends
        = [example_appender.chunk] := by
  decide

/-- C27 (amended): `Appender::Close`, for a chunk with at least one column.  When the
column position is 0: without buffered rows it does nothing; with buffered rows it hands
them to the context's Append, and leaves the chunk empty if that call returns normally,
while it fails with the exception of that call and keeps the rows if the call throws.
When the column position equals the column count it fails with the `incomplete append to
row` InvalidInputException.  When the column position is strictly between 0 and the
column count it returns normally without a call of the context's Append and leaves the
appender, so the buffered rows, as it is. -/
theorem close_spec (env : AppenderEnvironment) (appender : Appender)
    (hcolumns : 1 ≤ appender.chunk.ColumnCount) :
    (appender.column = 0 → appender.chunk.size = 0 →
      Appender.Close env appender = (appender, none)) ∧
    (appender.column = 0 → appender.chunk.size ≠ 0 →
      env.ContextAppend appender.chunk = none →
      Appender.Close env appender
        = ({ column := 0, chunk := appender.chunk.Reset,
             context_appends := appender.context_appends ++ [appender.chunk] }, none) ∧
        (Appender.Close env appender).1.chunk.size = 0) ∧
    (∀ e, appender.column = 0 → appender.chunk.size ≠ 0 →
      env.ContextAppend appender.chunk = some e →
      Appender.Close env appender
        = ({ appender with context_appends := appender.context_appends ++ [appender.chunk] },
            some e)) ∧
    (appender.column = appender.chunk.ColumnCount →
      Appender.Close env appender = (appender, some incomplete_append_exception)) ∧
    (0 < appender.column → appender.column < appender.chunk.ColumnCount →
      Appender.Close env appender = (appender, none)) := by
  refine ⟨?_, ?_, ?_, ?_, ?_⟩
  · intro hcolumn hsize
    simp only [Appender.Close, if_pos (Or.inl hcolumn)]
    exact Appender.Flush_of_empty env appender hcolumn hsize
  · intro hcolumn hsize hcontext
    simp only [Appender.Close, if_pos (Or.inl hcolumn)]
    rw [Appender.Flush_of_return env appender hcolumn hsize hcontext]
    exact ⟨rfl, rfl⟩
  · intro e hcolumn hsize hcontext
    simp only [Appender.Close, if_pos (Or.inl hcolumn)]
    exact Appender.Flush_of_throw env appender e hcolumn hsize hcontext
  · intro hcolumn
    simp only [Appender.Close, if_pos (Or.inr hcolumn)]
    exact Appender.Flush_of_column env appender (by omega)
  · intro h1 h2
    have hne : ¬ (appender.column = 0 ∨ appender.column = appender.chunk.ColumnCount) := by
      omega
    simp only [Appender.Close, if_neg hne]

/-- C27 (witness): the example appender with one buffered row: with the column position 0
Close hands the row over and empties the chunk; with one of two cells written Close does
nothing. -/
theorem close_spec_witness :
    (Appender.Close example_appender_environment example_appender
        = ({ column := 0, chunk := example_appender.chunk.Reset,
             context_appends := [example_appender.chunk] }, none) ∧
      (Appender.Close example_appender_environment example_appender).1.chunk.size = 0) ∧
    Appender.Close example_appender_environment { example_appender with column := 1 }
      = ({ example_appender with column := 1 }, none) :=
  ⟨(close_spec example_appender_environment example_appender (by decide)).2.1 rfl
      (by decide) rfl,
   (close_spec example_appender_environment { example_appender with column := 1 }
      (by decide)).2.2.2.2 (by decide) (by decide)⟩

/-! ### CTE transformation -/

/-- C29: `TransformRecursiveCTE` by the set operation of the CTE's query.  For EXCEPT and
INTERSECT it always fails with an exception.  For UNION it fails exactly when a child
fails to transform or the statement has LIMIT, OFFSET or ORDER BY, and otherwise returns a
statement whose node is a RecursiveCTENode with the name of the CTE, `union_all` equal to
the ALL flag, the aliases of the info and no modifier (so no DISTINCT).  For any other
operation it returns what `TransformSelect` returns on the query, whatever LIMIT, OFFSET
and ORDER BY are. -/
theorem transform_recursive_cte_by_operation (transformer : Transformer)
    (cte : PGCommonTableExpr) (stmt : PGSelectStmt) (info : CommonTableExpressionInfo)
    (hquery : cte.ctequery = some stmt) :
    (stmt.op = PGSetOperation.PG_SETOP_EXCEPT ∨ stmt.op = PGSetOperation.PG_SETOP_INTERSECT →
      ∃ e, TransformRecursiveCTE transformer cte info = .error e) ∧
    (stmt.op = PGSetOperation.PG_SETOP_UNION →
      ((∃ e, TransformRecursiveCTE transformer cte info = .error e) ↔
        (child_fails transformer stmt.larg ∨ child_fails transformer stmt.rarg ∨
          stmt.limitCount.isSome = true ∨ stmt.limitOffset.isSome = true ∨
          stmt.sortClause.isSome = true)) ∧
      (∀ left right, transformer.TransformSelectNode stmt.larg = .ok (some left) →
        transformer.TransformSelectNode stmt.rarg = .ok (some right) →
        stmt.limitCount = none → stmt.limitOffset = none → stmt.sortClause = none →
        TransformRecursiveCTE transformer cte info
          = .ok (some (SelectStatement.mk []
              (some (QueryNode.RecursiveCTENode cte.ctename stmt.all (some left) (some right)
                info.aliases [])))))) ∧
    (stmt.op = PGSetOperation.PG_SETOP_NONE →
      TransformRecursiveCTE transformer cte info = transformer.TransformSelect stmt) := by
  refine ⟨?_, ?_, ?_⟩
  · intro hop
    simp only [TransformRecursiveCTE, hquery]
    rcases hop with hop | hop
    all_goals
      rw [hop]
      simp only
      cases transformer.TransformSelectNode stmt.larg with
      | error e => exact ⟨e, rfl⟩
      | ok left =>
        cases transformer.TransformSelectNode stmt.rarg with
        | error e => exact ⟨e, rfl⟩
        | ok right =>
          simp only
          split
          · exact ⟨_, rfl⟩
          · exact ⟨_, rfl⟩
  · intro hop
    simp only [TransformRecursiveCTE, hquery, hop, child_fails]
    cases hl : transformer.TransformSelectNode stmt.larg with
    | error e =>
      refine ⟨⟨fun _ => Or.inl (fun q h => by cases h), fun _ => ⟨e, rfl⟩⟩, ?_⟩
      intro left right h
      cases h
    | ok left =>
      cases hr : transformer.TransformSelectNode stmt.rarg with
      | error e =>
        refine ⟨⟨fun _ => Or.inr (Or.inl (fun q h => by cases h)), fun _ => ⟨e, rfl⟩⟩, ?_⟩
        intro left right _ h
        cases h
      | ok right =>
        simp only
        cases left with
        | none =>
          simp only [Option.isNone_none, true_or, if_true]
          refine ⟨⟨fun _ => Or.inl (fun q h => by cases h), fun _ => ⟨_, rfl⟩⟩, ?_⟩
          intro left right h
          cases h
        | some left =>
          cases right with
          | none =>
            simp only [Option.isNone_none, or_true, if_true]
            refine ⟨⟨fun _ => Or.inr (Or.inl (fun q h => by cases h)), fun _ => ⟨_, rfl⟩⟩, ?_⟩
            intro left right _ h
            cases h
          | some right =>
            simp only [Option.isNone_some, Bool.false_eq_true, or_self, if_false]
            constructor
            · constructor
              · rintro ⟨e, he⟩
                by_cases h1 : stmt.limitCount.isSome = true ∨ stmt.limitOffset.isSome = true
                · rcases h1 with h1 | h1
                  · exact Or.inr (Or.inr (Or.inl h1))
                  · exact Or.inr (Or.inr (Or.inr (Or.inl h1)))
                · rw [if_neg h1] at he
                  by_cases h2 : stmt.sortClause.isSome = true
                  · exact Or.inr (Or.inr (Or.inr (Or.inr h2)))
                  · rw [if_neg h2] at he
                    cases he
              · rintro (h | h | h | h | h)
                · exact absurd rfl (h left)
                · exact absurd rfl (h right)
                · rw [if_pos (Or.inl h)]
                  exact ⟨_, rfl⟩
                · rw [if_pos (Or.inr h)]
                  exact ⟨_, rfl⟩
                · by_cases h1 : stmt.limitCount.isSome = true ∨ stmt.limitOffset.isSome = true
                  · rw [if_pos h1]
                    exact ⟨_, rfl⟩
                  · rw [if_neg h1, if_pos h]
                    exact ⟨_, rfl⟩
            · intro left2 right2 hl2 hr2 h1 h2 h3
              simp only [Except.ok.injEq, Option.some.injEq] at hl2 hr2
              subst hl2 hr2
              simp [h1, h2, h3]
  · intro hop
    simp only [TransformRecursiveCTE, hquery, hop]

/-- C29 (witness): the recursive CTE `t(x)` with the query `larg UNION ALL rarg`. -/
theorem transform_recursive_cte_by_operation_witness :
    TransformRecursiveCTE example_transformer example_recursive_cte
        (CommonTableExpressionInfo.mk ["x"] none)
      = .ok (some (SelectStatement.mk []
          (some (QueryNode.RecursiveCTENode "t" true (some (QueryNode.transformed 1))
            (some (QueryNode.transformed 2)) ["x"] [])))) :=
  (transform_recursive_cte_by_operation example_transformer example_recursive_cte
    { example_select with
        op := PGSetOperation.PG_SETOP_UNION, all := true, larg := some { id := 1 },
        rarg := some { id := 2 } }
    (CommonTableExpressionInfo.mk ["x"] none) rfl).2.1 rfl |>.2
    (QueryNode.transformed 1) (QueryNode.transformed 2) rfl rfl rfl rfl rfl

theorem TransformCTE_info_query (transformer : Transformer) (recursive : Bool)
    (cte : PGCommonTableExpr) (info : CommonTableExpressionInfo)
    (h : TransformCTE_info transformer recursive cte = .ok info) :
    ∃ query, info.query = some query := by
  unfold TransformCTE_info at h
  simp only at h
  split at h
  · cases h
  split at h
  · cases h
  split at h
  · cases h
  split at h
  · cases h
  split at h
  · cases h
  split at h
  · cases h
  revert h
  generalize (if cte.cterecursive = true ∨ recursive = true then _ else _) = transformed
  intro h
  rcases transformed with e | _ | query
  · cases h
  · cases h
  · simp only [Except.ok.injEq] at h
    subst h
    exact ⟨query, rfl⟩

theorem TransformCTE_loop_append (transformer : Transformer) (recursive : Bool)
    (before rest : List PGCommonTableExpr) (select : SelectStatement) :
    TransformCTE_loop transformer recursive (before ++ rest) select
      = match TransformCTE_loop transformer recursive before select with
        | .error e => .error e
        | .ok reached => TransformCTE_loop transformer recursive rest reached := by
  induction before generalizing select with
  | nil => rfl
  | cons cte before ih =>
    simp only [List.cons_append, TransformCTE_loop]
    cases TransformCTE_info transformer recursive cte with
    | error e => rfl
    | ok info =>
      simp only
      by_cases hname : cte.ctename ∈ cte_names select.cte_map
      · rw [if_pos hname, if_pos hname]
      · rw [if_neg hname, if_neg hname]
        exact ih _

theorem TransformCTE_loop_ok (transformer : Transformer) (recursive : Bool)
    (ctes : List PGCommonTableExpr) (select result : SelectStatement)
    (h : TransformCTE_loop transformer recursive ctes select = .ok result) :
    (ctes.map (fun cte => cte.ctename)).Nodup ∧
    (∀ cte ∈ ctes, cte.ctename ∉ cte_names select.cte_map) ∧
    result.node = select.node ∧
    ∃ entries, result.cte_map = select.cte_map ++ entries ∧
      cte_names entries = ctes.map (fun cte => cte.ctename) ∧
      ∀ entry ∈ entries, ∃ query, entry.2.query = some query := by
  induction ctes generalizing select with
  | nil =>
    simp only [TransformCTE_loop, Except.ok.injEq] at h
    subst h
    refine ⟨List.nodup_nil, ?_, rfl, [], ?_, rfl, ?_⟩
    · intro cte hmem
      cases hmem
    · simp
    · intro entry hmem
      cases hmem
  | cons cte rest ih =>
    simp only [TransformCTE_loop] at h
    cases hinfo : TransformCTE_info transformer recursive cte with
    | error e => rw [hinfo] at h; cases h
    | ok info =>
      rw [hinfo] at h
      simp only at h
      by_cases hname : cte.ctename ∈ cte_names select.cte_map
      · rw [if_pos hname] at h
        cases h
      · rw [if_neg hname] at h
        obtain ⟨hnodup, hfresh, hnode, entries, hmap, hnames, hquery⟩ := ih _ h
        have hkeys : cte_names (SelectStatement.mk (select.cte_map ++ [(cte.ctename, info)])
            select.node).cte_map = cte_names select.cte_map ++ [cte.ctename] := by
          simp [SelectStatement.cte_map, cte_names]
        refine ⟨?_, ?_, ?_, (cte.ctename, info) :: entries, ?_, ?_, ?_⟩
        · simp only [List.map_cons, List.nodup_cons]
          refine ⟨?_, hnodup⟩
          intro hmem
          obtain ⟨other, hother, heq⟩ := List.mem_map.mp hmem
          have := hfresh other hother
          rw [hkeys] at this
          apply this
          rw [heq]
          simp
        · intro other hother
          rcases List.mem_cons.mp hother with heq | hin
          · rw [heq]
            exact hname
          · have := hfresh other hin
            rw [hkeys] at this
            intro hmem
            exact this (List.mem_append_left _ hmem)
        · rw [hnode]
          rfl
        · rw [hmap]
          simp [SelectStatement.cte_map]
        · simp only [cte_names, List.map_cons] at hnames ⊢
          rw [hnames]
        · intro entry hentry
          rcases List.mem_cons.mp hentry with heq | hin
          · rw [heq]
            exact TransformCTE_info_query transformer recursive cte info hinfo
          · exact hquery entry hin

/-- C28 (counterexample): a WITH clause of three CTEs `a`, `b`, `a` where `b` carries
column names.  The third CTE passes the checks and its name is the name of the first
one, yet `TransformCTE` does not fail with `A CTE needs an unique name`: the loop stops at
`b` with the not-implemented exception. -/
theorem transform_cte_duplicate_counterexample :
    TransformCTE_info example_transformer false (example_cte "a")
      = .ok (CommonTableExpressionInfo.mk []
          (some (SelectStatement.mk [] (some (QueryNode.transformed 0))))) ∧
    "a" ∈ [example_cte "a", { example_cte "b" with ctecolnames := some { id := 1 } }].map
      (fun cte => cte.ctename) ∧
    TransformCTE example_transformer
      { ctes := [example_cte "a", { example_cte "b" with ctecolnames := some { id := 1 } },
                 example_cte "a"],
        recursive := false }
      (SelectStatement.mk [] none)
      = .error { type := ExceptionType.NOT_IMPLEMENTED,
                 message := "Column name setting not supported in CTEs" } ∧
    ({ type := ExceptionType.NOT_IMPLEMENTED,
       message := "Column name setting not supported in CTEs" } : Exception)
      ≠ cte_unique_name_exception :=
  ⟨rfl, by decide, rfl, by decide⟩

/-- C28 (amended): when the loop of `TransformCTE` reaches a CTE (every CTE before it was
transformed and inserted) that passes the checks and transforms to a statement, and its
name is a key of the map from before the call or the name of an earlier CTE of the clause,
the call fails with `A CTE needs an unique name`.  When the loop reaches a CTE that fails
a check or whose transformation fails, the call fails with the exception of that CTE.  In
both cases the CTEs after it in the clause play no part.  When the call returns normally, the
names of the clause are pairwise distinct and none was a key before the call, the map is
the old map followed by one entry per CTE in clause order, each with a non-null query, and
the node of the statement is unchanged. -/
theorem transform_cte_unique_names (transformer : Transformer)
    (de_with_clause : PGWithClause) (select : SelectStatement) :
    (∀ before cte after reached info,
      de_with_clause.ctes = before ++ cte :: after →
      TransformCTE_loop transformer de_with_clause.recursive before select = .ok reached →
      TransformCTE_info transformer de_with_clause.recursive cte = .ok info →
      (cte.ctename ∈ cte_names select.cte_map ∨
        cte.ctename ∈ before.map (fun earlier => earlier.ctename)) →
      TransformCTE transformer de_with_clause select = .error cte_unique_name_exception) ∧
    (∀ before cte after reached e,
      de_with_clause.ctes = before ++ cte :: after →
      TransformCTE_loop transformer de_with_clause.recursive before select = .ok reached →
      TransformCTE_info transformer de_with_clause.recursive cte = .error e →
      TransformCTE transformer de_with_clause select = .error e) ∧
    (∀ result, TransformCTE transformer de_with_clause select = .ok result →
      (de_with_clause.ctes.map (fun cte => cte.ctename)).Nodup ∧
      (∀ cte ∈ de_with_clause.ctes, cte.ctename ∉ cte_names select.cte_map) ∧
      result.node = select.node ∧
      ∃ entries, result.cte_map = select.cte_map ++ entries ∧
        cte_names entries = de_with_clause.ctes.map (fun cte => cte.ctename) ∧
        ∀ entry ∈ entries, ∃ query, entry.2.query = some query) := by
  refine ⟨?_, ?_, ?_⟩
  · intro before cte after reached info hctes hbefore hinfo hdup
    obtain ⟨_, _, _, entries, hmap, hnames, _⟩ :=
      TransformCTE_loop_ok transformer de_with_clause.recursive before select reached hbefore
    have hmem : cte.ctename ∈ cte_names reached.cte_map := by
      rw [hmap]
      simp only [cte_names, List.map_append, List.mem_append]
      simp only [cte_names] at hnames hdup
      rw [hnames]
      exact hdup
    unfold TransformCTE
    rw [hctes, TransformCTE_loop_append, hbefore]
    simp only [TransformCTE_loop, hinfo]
    rw [if_pos hmem]
  · intro before cte after reached e hctes hbefore hinfo
    unfold TransformCTE
    rw [hctes, TransformCTE_loop_append, hbefore]
    simp only [TransformCTE_loop, hinfo]
  · intro result h
    exact TransformCTE_loop_ok transformer de_with_clause.recursive de_with_clause.ctes
      select result h

/-- C28 (witness): the clause `a`, `a` fails with `A CTE needs an unique name`, and the
clause `a`, `b` adds the keys `a` and `b` to an empty map. -/
theorem transform_cte_unique_names_witness :
    TransformCTE example_transformer
        { ctes := [example_cte "a", example_cte "a"], recursive := false }
        (SelectStatement.mk [] none)
      = .error cte_unique_name_exception ∧
    ([example_cte "a", example_cte "b"].map (fun cte => cte.ctename)).Nodup :=
  ⟨(transform_cte_unique_names example_transformer
      { ctes := [example_cte "a", example_cte "a"], recursive := false }
      (SelectStatement.mk [] none)).1
      [example_cte "a"] (example_cte "a") []
      (SelectStatement.mk [("a", CommonTableExpressionInfo.mk []
        (some (SelectStatement.mk [] (some (QueryNode.transformed 0)))))] none)
      (CommonTableExpressionInfo.mk []
        (some (SelectStatement.mk [] (some (QueryNode.transformed 0)))))
      rfl rfl rfl (Or.inr (by decide)),
   ((transform_cte_unique_names example_transformer
      { ctes := [example_cte "a", example_cte "b"], recursive := false }
      (SelectStatement.mk [] none)).2.2
      (SelectStatement.mk
        [("a", CommonTableExpressionInfo.mk []
            (some (SelectStatement.mk [] (some (QueryNode.transformed 0))))),
         ("b", CommonTableExpressionInfo.mk []
            (some (SelectStatement.mk [] (some (QueryNode.transformed 0)))))] none)
      rfl).1⟩

end duckdb
